import Mathlib

/-!
# GNOME Commander: file entries, pane navigation and settings

A shallow embedding of `src/gnome-cmd-file.cc` (the `GnomeCmdFile` entry: reference
counting, rename / chmod / chown, the cached recursive size, the rate limit of updates,
executability, the extension of a name), of `src/gnome-cmd-file-selector.cc` (activation
routing, history traversal, locked tabs, directory-changed notifications, the selection
label, the batch creation of symbolic links), of `src/gnome-cmd-data.cc` (the update
interval, writing a setting only when it changed, colour strings and the loading of the
colours, saving the tabs, copying the options, the profiles of the advanced rename tool)
and of the file-type icon names of `src/imageloader.cc`.

Conventions of the embedding.
* Pointers that the source tests against `nullptr` are `Option`s.
* Results of library calls that depend on the outside world (GIO, GnomeVFS) are explicit
  arguments of the embedded functions.
* Calls made to collaborators whose code lives elsewhere (the parent directory, the file
  list, the notebook) are recorded, in order, as values of an event type.
* A function that dereferences a null pointer returns `none`.
* The settings store and the GDK colour functions are explicit values as well; a write
  to the store is recorded in the store. The handlers that the source connects to the
  change signals are not part of the store: the embedding of `load_colors` runs the
  handler of a colour key inside the write that resets the key.
-/

namespace GnomeCmd

/-! ## Basic types -/

/-- A `GnomeVFSResult` status code. -/
abbrev GnomeVFSResult := Nat

/-- Status `GNOME_VFS_OK`. -/
def GNOME_VFS_OK : GnomeVFSResult := 0

/-- Status `GNOME_VFS_ERROR_CORRUPTED_DATA`. -/
def GNOME_VFS_ERROR_CORRUPTED_DATA : GnomeVFSResult := 7

/-- Value `G_FILE_TYPE_UNKNOWN` of `GFileType`. -/
def G_FILE_TYPE_UNKNOWN : Nat := 0

/-- Value `G_FILE_TYPE_REGULAR` of `GFileType`. -/
def G_FILE_TYPE_REGULAR : Nat := 1

/-- Value `G_FILE_TYPE_DIRECTORY` of `GFileType`. -/
def G_FILE_TYPE_DIRECTORY : Nat := 2

/-- Value `GNOME_VFS_FILE_TYPE_DIRECTORY` of `GnomeVFSFileType`. -/
def GNOME_VFS_FILE_TYPE_DIRECTORY : Nat := 2

/-- The number of values of a `guint64`. -/
def GUINT64_RANGE : Nat := 2 ^ 64

/-- The value `(guint64) -1`, which `priv->tree_size` holds while the size is unknown. -/
def TREE_SIZE_UNKNOWN : Nat := GUINT64_RANGE - 1

/-- The value `(uid_t) -1`, which `chown` takes as "leave the owner alone". -/
def UID_NONE : Nat := 2 ^ 32 - 1

/-- A `GFile` handle, identified by the path it was made for. -/
abbrev GFile := String

/-- A `GnomeCmdDir`, identified by its path. -/
abbrev GnomeCmdDir := String

/-- The fields of `GnomeVFSFileInfo` that the embedded code reads or writes. -/
structure GnomeVFSFileInfo where
  name : String
  type : Nat
  permissions : Nat
  uid : Nat
  gid : Nat
  size : Nat
  mtime : Nat
  mime_type : String
  deriving DecidableEq, Repr

/-- A `GTimeVal`. -/
structure GTimeVal where
  tv_sec : Int
  tv_usec : Int
  deriving DecidableEq, Repr

/-- A `GnomeCmdFile` with its `Private` part inlined (`dir_handle`, `last_update`,
`ref_cnt`, `tree_size`) and the reference count of the `GObject` it is built on
(`g_ref_count`; the object is finalized when that count reaches zero).

`dir_handle` is `none` for a null handle, `some none` for a handle whose `ref` is null,
and `some (some d)` for a handle of the directory `d`. `is_dir_object` is
`GNOME_CMD_IS_DIR (this)`. `ref_cnt` is a `gint`; the model is exact while it stays in
the range of that type. -/
structure GnomeCmdFile where
  info : Option GnomeVFSFileInfo
  collate_key : String
  is_dotdot : Bool
  gFile : Option GFile
  is_dir_object : Bool
  dir_handle : Option (Option GnomeCmdDir)
  last_update : GTimeVal
  ref_cnt : Int
  tree_size : Nat
  g_ref_count : Nat
  deriving DecidableEq, Repr

/-- The text functions of GLib that build a collation key: `get_utf8`,
`g_utf8_casefold` and `g_utf8_collate_key_for_filename`. -/
structure GLibText where
  get_utf8 : String → String
  g_utf8_casefold : String → String
  g_utf8_collate_key_for_filename : String → String

/-- What GIO reports at one moment: the `standard::type` and `standard::size` attributes
that `g_file_query_info` yields for a file, whether that query fails, and the disk usage
that `g_file_measure_disk_usage` writes to its out-parameter. -/
structure Gio where
  query_fails : GFile → Bool
  standard_type : GFile → Nat
  standard_size : GFile → Nat
  disk_usage : GFile → Nat

/-- A call made by a `GnomeCmdFile` to its parent directory. -/
inductive DirNotification where
  | file_changed (dir : GnomeCmdDir) (name : String)
  | file_renamed (dir : GnomeCmdDir) (new_name : String) (old_name : String)
  | update_path (name : String)
  deriving DecidableEq, Repr

/-! ## `gnome-cmd-file.cc` -/

/-- Embeds `has_parent_dir`: `f->priv->dir_handle && f->priv->dir_handle->ref`. -/
def has_parent_dir (f : GnomeCmdFile) : Bool :=
  match f.dir_handle with
  | some (some _) => true
  | _ => false

/-- Embeds `get_parent_dir`: null when the handle is null, else `dir_handle->ref`. -/
def get_parent_dir (f : GnomeCmdFile) : Option GnomeCmdDir :=
  match f.dir_handle with
  | none => none
  | some r => r

/-- The key computation shared by `gnome_cmd_file_setup` and `update_info`: the name is
case-folded when `case_sens_sort` is off, then turned into a filename collation key. -/
def compute_collate_key (g : GLibText) (case_sens_sort : Bool) (name : String) : String :=
  let utf8_name :=
    if !case_sens_sort then g.g_utf8_casefold (g.get_utf8 name) else g.get_utf8 name
  g.g_utf8_collate_key_for_filename utf8_name

/-- Embeds `get_path` as far as `gnome_cmd_file_setup` needs it: the path of the entry,
built from the parent directory and the name. For an entry without a parent directory
the path of a directory object is taken from the object itself (here: its name). -/
def get_path (f : GnomeCmdFile) : Option String :=
  match f.info with
  | none => none
  | some info =>
    if info.name = "/" then some "/"
    else
      match get_parent_dir f with
      | some d => some (d ++ "/" ++ info.name)
      | none => if f.is_dir_object then some info.name else none

/-- Embeds `g_object_new` followed by `gnome_cmd_file_init`: a zeroed `Private` part
with `tree_size = -1`, inside a `GObject` that holds its creation reference. -/
def gnome_cmd_file_init (is_dir_object : Bool) : GnomeCmdFile :=
  { info := none, collate_key := "", is_dotdot := false, gFile := none,
    is_dir_object := is_dir_object, dir_handle := none,
    last_update := { tv_sec := 0, tv_usec := 0 },
    ref_cnt := 0, tree_size := TREE_SIZE_UNKNOWN, g_ref_count := 1 }

/-- Embeds `gnome_cmd_file_setup`. -/
def gnome_cmd_file_setup (g : GLibText) (case_sens_sort : Bool) (f : GnomeCmdFile)
    (info : GnomeVFSFileInfo) (dir : Option GnomeCmdDir) : GnomeCmdFile :=
  let f1 := { f with
    info := some info,
    is_dotdot := decide (info.type = GNOME_VFS_FILE_TYPE_DIRECTORY) && decide (info.name = ".."),
    collate_key := compute_collate_key g case_sens_sort info.name }
  let f2 := match dir with
    | some d => { f1 with dir_handle := some (some d) }
    | none => f1
  match get_path f2 with
  | some p => { f2 with gFile := some p }
  | none => f2

/-- Embeds `gnome_cmd_file_new (GnomeVFSFileInfo *info, GnomeCmdDir *dir)`. -/
def gnome_cmd_file_new (g : GLibText) (case_sens_sort : Bool)
    (info : GnomeVFSFileInfo) (dir : Option GnomeCmdDir) : GnomeCmdFile :=
  gnome_cmd_file_setup g case_sens_sort (gnome_cmd_file_init false) info dir

/-- Models `g_object_ref`. -/
def g_object_ref (f : GnomeCmdFile) : GnomeCmdFile :=
  { f with g_ref_count := f.g_ref_count + 1 }

/-- Models `g_object_unref`: the count drops by one; at zero the object is finalized. -/
def g_object_unref (f : GnomeCmdFile) : GnomeCmdFile :=
  { f with g_ref_count := f.g_ref_count - 1 }

/-- The object has been finalized: its `GObject` reference count is zero. -/
def destroyed (f : GnomeCmdFile) : Bool :=
  f.g_ref_count == 0

/-- Embeds `GnomeCmdFile::ref`. -/
def GnomeCmdFile.ref (f : GnomeCmdFile) : GnomeCmdFile :=
  let f1 := { f with ref_cnt := f.ref_cnt + 1 }
  if f1.ref_cnt = 1 then g_object_ref f1 else f1

/-- Embeds `GnomeCmdFile::unref`. -/
def GnomeCmdFile.unref (f : GnomeCmdFile) : GnomeCmdFile :=
  let f1 := { f with ref_cnt := f.ref_cnt - 1 }
  if f1.ref_cnt < 1 then g_object_unref f1 else f1

/-- What one call of `unref ()` comes to: the call ran on a live object and left it in
the given state, or it was stopped by a failed assertion, or it accessed memory that
had been freed. -/
inductive UnrefOutcome where
  | released (f : GnomeCmdFile)
  | assertion_failed
  | freed_memory_access
  deriving DecidableEq, Repr

/-- Embeds `GnomeCmdFile::unref` as a call on an object that may have been finalized.
The function has no test of the count, so no call ends in `assertion_failed`.
`gnome_cmd_file_finalize` frees the private part (`g_free (f->priv)`), so the first
statement `priv->ref_cnt--` of a call on a finalized object reads and writes the freed
block; on a live object the call is `GnomeCmdFile.unref`. -/
def unref_call (f : GnomeCmdFile) : UnrefOutcome :=
  if destroyed f then UnrefOutcome.freed_memory_access
  else UnrefOutcome.released f.unref

/-- One call of the reference-counting interface. -/
inductive RefCall where
  | ref
  | unref
  deriving DecidableEq, Repr

/-- The entry after a sequence of `ref` / `unref` calls, made in list order. -/
def run_ref_calls : List RefCall → GnomeCmdFile → GnomeCmdFile
  | [], f => f
  | RefCall.ref :: cs, f => run_ref_calls cs f.ref
  | RefCall.unref :: cs, f => run_ref_calls cs f.unref

/-- The calls of the scenario "`n` times `ref`, then `n + 1` times `unref`". -/
def ref_then_unref (n : Nat) : List RefCall :=
  List.replicate n RefCall.ref ++ List.replicate (n + 1) RefCall.unref

/-- Embeds `GnomeCmdFile::GetGfileAttributeUInt32`: the attribute that `g_file_query_info`
yields, or `0` when the query fails (also for a null `gFile`, for which GIO answers with
a null info object). `attr` picks the attribute out of what GIO reports. -/
def GetGfileAttributeUInt32 (gio : Gio) (f : GnomeCmdFile) (attr : Gio → GFile → Nat) : Nat :=
  match f.gFile with
  | none => 0
  | some p => if gio.query_fails p then 0 else attr gio p % 2 ^ 32

/-- Outcome of one `get_tree_size` / `calc_tree_size` call: the returned size, the entry
afterwards, and how many times GIO was asked to measure the subtree. -/
structure TreeSizeCall where
  value : Nat
  file : GnomeCmdFile
  measured : Nat
  deriving DecidableEq, Repr

/-- Embeds `GnomeCmdFile::calc_tree_size`. Returns the size, the updated `*count` (for a
non-null `count`) and the number of `g_file_measure_disk_usage` calls made. -/
def calc_tree_size (gio : Gio) (f : GnomeCmdFile) (count : Option Nat) :
    Nat × Option Nat × Nat :=
  match f.gFile with
  | none => (TREE_SIZE_UNKNOWN, count, 0)
  | some p =>
    if GetGfileAttributeUInt32 gio f Gio.standard_type = G_FILE_TYPE_DIRECTORY then
      (gio.disk_usage p % GUINT64_RANGE, count, 1)
    else
      ((0 + GetGfileAttributeUInt32 gio f Gio.standard_size) % GUINT64_RANGE,
        count.map (· + 1), 0)

/-- Embeds `GnomeCmdFile::get_tree_size`. The result is `none` when the entry is not a
directory and has no `info` to read the size from. -/
def get_tree_size (gio : Gio) (f : GnomeCmdFile) : Option TreeSizeCall :=
  if GetGfileAttributeUInt32 gio f Gio.standard_type ≠ G_FILE_TYPE_DIRECTORY then
    match f.info with
    | none => none
    | some info => some { value := info.size, file := f, measured := 0 }
  else if f.is_dotdot then
    some { value := 0, file := f, measured := 0 }
  else if f.tree_size ≠ TREE_SIZE_UNKNOWN then
    some { value := f.tree_size, file := f, measured := 0 }
  else
    let r := calc_tree_size gio f none
    some { value := r.1, file := { f with tree_size := r.1 }, measured := r.2.2 }

/-- Embeds `GnomeCmdFile::invalidate_tree_size`. -/
def invalidate_tree_size (f : GnomeCmdFile) : GnomeCmdFile :=
  { f with tree_size := TREE_SIZE_UNKNOWN }

/-- Embeds `GnomeCmdFile::has_tree_size`. -/
def has_tree_size (f : GnomeCmdFile) : Bool :=
  f.tree_size != TREE_SIZE_UNKNOWN

/-- Outcome of `rename`, `chmod` or `chown`: the returned status, the entry afterwards,
and the calls made to the parent directory. -/
structure FileOpResult where
  result : GnomeVFSResult
  file : GnomeCmdFile
  notifications : List DirNotification
  deriving DecidableEq, Repr

/-- Mask `GNOME_VFS_SET_FILE_INFO_PERMISSIONS`. -/
def GNOME_VFS_SET_FILE_INFO_PERMISSIONS : Nat := 2

/-- Mask `GNOME_VFS_SET_FILE_INFO_OWNER`. -/
def GNOME_VFS_SET_FILE_INFO_OWNER : Nat := 4

/-- The notification that `chmod` and `chown` send: `gnome_cmd_dir_file_changed` on the
parent directory, when there is one. -/
def notify_file_changed (f : GnomeCmdFile) (info : GnomeVFSFileInfo) : List DirNotification :=
  if has_parent_dir f then
    match get_parent_dir f with
    | some dir => [DirNotification.file_changed dir info.name]
    | none => []
  else []

/-- Embeds `GnomeCmdFile::chmod`. `set_file_info` is the backing store:
`gnome_vfs_set_file_info_uri` on the entry's URI, given the info and the mask. -/
def chmod (set_file_info : GnomeVFSFileInfo → Nat → GnomeVFSResult)
    (f : GnomeCmdFile) (perm : Nat) : FileOpResult :=
  match f.info with
  | none => { result := GNOME_VFS_ERROR_CORRUPTED_DATA, file := f, notifications := [] }
  | some info =>
    let info1 := { info with permissions := perm }
    let f1 := { f with info := some info1 }
    let ret := set_file_info info1 GNOME_VFS_SET_FILE_INFO_PERMISSIONS
    { result := ret, file := f1, notifications := notify_file_changed f1 info1 }

/-- Embeds `GnomeCmdFile::chown`. -/
def chown (set_file_info : GnomeVFSFileInfo → Nat → GnomeVFSResult)
    (f : GnomeCmdFile) (uid gid : Nat) : FileOpResult :=
  match f.info with
  | none => { result := GNOME_VFS_ERROR_CORRUPTED_DATA, file := f, notifications := [] }
  | some info =>
    let info1 := if uid ≠ UID_NONE then { info with uid := uid } else info
    let info2 := { info1 with gid := gid }
    let f1 := { f with info := some info2 }
    let ret := set_file_info info2 GNOME_VFS_SET_FILE_INFO_OWNER
    { result := ret, file := f1, notifications := notify_file_changed f1 info2 }

/-- Embeds `GnomeCmdFile::update_info`. -/
def update_info (g : GLibText) (case_sens_sort : Bool) (f : GnomeCmdFile)
    (file_info : GnomeVFSFileInfo) : GnomeCmdFile :=
  { f with info := some file_info,
           collate_key := compute_collate_key g case_sens_sort file_info.name }

/-- The info object that `rename` allocates: `gnome_vfs_file_info_new ()` with its name
set to `new_name`. -/
def rename_new_info (new_name : String) : GnomeVFSFileInfo :=
  { name := new_name, type := 0, permissions := 0, uid := 0, gid := 0, size := 0,
    mtime := 0, mime_type := "" }

/-- The URIs that `GnomeCmdFile::get_uri` builds: the child `name` of a directory
(`gnome_cmd_dir_get_child_uri (dir, name)`, with `none` for a null directory), or the
path that a directory object has itself (`gnome_cmd_con_create_uri (con, path)`), which
does not depend on any name. -/
inductive GnomeVFSURI where
  | child (dir : Option GnomeCmdDir) (name : String)
  | own_path
  deriving DecidableEq, Repr

/-- Embeds `GnomeCmdFile::get_uri (name)`. An entry without a parent directory that is a
directory object gives its own path, whatever `name` is; `g_assert` on a string literal
never fails, so that any other entry gives the child `name ? name : info->name` of
`::get_parent_dir (this)`. The result is `none` when the null `info` is dereferenced. -/
def get_uri (f : GnomeCmdFile) (name : Option String) : Option GnomeVFSURI :=
  if has_parent_dir f = false ∧ f.is_dir_object = true then some GnomeVFSURI.own_path
  else
    match name with
    | some n => some (GnomeVFSURI.child (get_parent_dir f) n)
    | none =>
      match f.info with
      | some info => some (GnomeVFSURI.child (get_parent_dir f) info.name)
      | none => none

/-- Embeds `GnomeCmdFile::rename`. `set_display_name` is what `g_file_set_display_name`
gives for `new_name`: the renamed `GFile`, or `none` when it fails (null result, error
set). `get_file_info` is `gnome_vfs_get_file_info_uri`: it takes the URI to look up,
which is `get_uri (new_name)`, and the info object to fill, and gives the status and the
filled object. -/
def rename (g : GLibText) (case_sens_sort : Bool) (f : GnomeCmdFile) (new_name : String)
    (set_display_name : Option GFile)
    (get_file_info : Option GnomeVFSURI → GnomeVFSFileInfo → GnomeVFSResult × GnomeVFSFileInfo) :
    FileOpResult :=
  match f.info with
  | none => { result := GNOME_VFS_ERROR_CORRUPTED_DATA, file := f, notifications := [] }
  | some info =>
    let new_info := rename_new_info new_name
    match set_display_name with
    | none => { result := GNOME_VFS_OK, file := f, notifications := [] }
    | some newgFile =>
      let f1 := { f with gFile := some newgFile }
      let looked := get_file_info (get_uri f1 (some new_name)) new_info
      if looked.1 = GNOME_VFS_OK ∧ has_parent_dir f1 = true then
        let f2 := update_info g case_sens_sort f1 looked.2
        let renamed := match get_parent_dir f1 with
          | some dir => [DirNotification.file_renamed dir looked.2.name info.name]
          | none => []
        let moved := if f1.is_dir_object then [DirNotification.update_path looked.2.name] else []
        { result := looked.1, file := f2, notifications := renamed ++ moved }
      else
        { result := looked.1, file := f1, notifications := [] }

/-- Two consecutive `get_tree_size` calls on one entry, the first while GIO reports
`gio1` and the second while it reports `gio2`, with nothing done in between. -/
def get_tree_size_twice (gio1 gio2 : Gio) (f : GnomeCmdFile) :
    Option (TreeSizeCall × TreeSizeCall) :=
  match get_tree_size gio1 f with
  | none => none
  | some r1 =>
    match get_tree_size gio2 r1.file with
    | none => none
    | some r2 => some (r1, r2)

/-- The number of values of a `gulong` (64 bits wide, as on the LP64 platforms the
program is built for). -/
def GULONG_RANGE : Nat := 2 ^ 64

/-- The expression of `tv2ms` over the integers: `t.tv_sec*1000 + t.tv_usec/1000`, the
division being that of C (truncation toward zero). -/
def tv2ms_exact (t : GTimeVal) : Int :=
  t.tv_sec * 1000 + Int.tdiv t.tv_usec 1000

/-- Embeds `tv2ms`: the value of `tv2ms_exact` as the `gulong` that the function
returns. -/
def tv2ms (t : GTimeVal) : Nat :=
  (tv2ms_exact t % (GULONG_RANGE : Int)).toNat

/-- Embeds `GnomeCmdFile::needs_update`. `now` is what `g_get_current_time` gives and
`gui_update_rate` is `gnome_cmd_data.gui_update_rate`; the difference of the two
`gulong` values is taken modulo `2 ^ 64` and compared as an unsigned number. -/
def needs_update (gui_update_rate : Nat) (now : GTimeVal) (f : GnomeCmdFile) :
    Bool × GnomeCmdFile :=
  if (tv2ms now + GULONG_RANGE - tv2ms f.last_update) % GULONG_RANGE > gui_update_rate then
    (true, { f with last_update := now })
  else
    (false, f)

/-! ## `gnome-cmd-data.cc` -/

/-- Constant `MAX_GUI_UPDATE_RATE`. -/
def MAX_GUI_UPDATE_RATE : Nat := 1000

/-- Constant `MIN_GUI_UPDATE_RATE`. -/
def MIN_GUI_UPDATE_RATE : Nat := 10

/-- Constant `DEFAULT_GUI_UPDATE_RATE`. -/
def DEFAULT_GUI_UPDATE_RATE : Nat := 100

/-- The scalar fields of `GnomeCmdData` that its constructor sets. -/
structure GnomeCmdData where
  gui_update_rate : Nat
  cmdline_history_length : Nat
  use_gcmd_block : Bool
  main_win_width : Nat
  main_win_height : Nat
  deriving DecidableEq, Repr

/-- Embeds the constructor `GnomeCmdData::GnomeCmdData ()`. -/
def GnomeCmdData.create : GnomeCmdData :=
  { gui_update_rate := DEFAULT_GUI_UPDATE_RATE, cmdline_history_length := 0,
    use_gcmd_block := true, main_win_width := 600, main_win_height := 400 }

/-- Embeds what `GnomeCmdData::load ()` does to `gui_update_rate`:
`gui_update_rate = g_settings_get_uint (general, GCMD_SETTINGS_GUI_UPDATE_RATE)`.
`stored` is the unsigned value that the settings store holds for the key. -/
def GnomeCmdData.load_gui_update_rate (d : GnomeCmdData) (stored : Nat) : GnomeCmdData :=
  { d with gui_update_rate := stored % 2 ^ 32 }

/-! ## Collaborators of the file selector -/

/-- Modelled from the spec: the `History` class (its header is not among the sources).
"A back/forward history stack of visited paths (bounded, lockable during programmatic
navigation to avoid re-recording)": the visited paths, oldest first, the position of the
current one, the lock flag and the bound. -/
structure History where
  ents : List String
  pos : Nat
  is_locked : Bool
  max : Nat
  deriving DecidableEq, Repr

/-- Modelled from the spec: `History::can_back`, there is a prior entry. -/
def History.can_back (h : History) : Bool :=
  decide (0 < h.pos)

/-- Modelled from the spec: `History::can_forward`, there is a next entry. -/
def History.can_forward (h : History) : Bool :=
  decide (h.pos + 1 < h.ents.length)

/-- Modelled from the spec: `History::lock`. -/
def History.lock (h : History) : History :=
  { h with is_locked := true }

/-- Modelled from the spec: `History::unlock`. -/
def History.unlock (h : History) : History :=
  { h with is_locked := false }

/-- Modelled from the spec: `History::locked`. -/
def History.locked (h : History) : Bool :=
  h.is_locked

/-- Modelled from the spec: `History::first`, move to the oldest entry and return it. -/
def History.first (h : History) : History × Option String :=
  ({ h with pos := 0 }, h.ents[0]?)

/-- Modelled from the spec: `History::back`, move to the prior entry and return it. -/
def History.back (h : History) : History × Option String :=
  ({ h with pos := h.pos - 1 }, h.ents[h.pos - 1]?)

/-- Modelled from the spec: `History::forward`, move to the next entry and return it. -/
def History.forward (h : History) : History × Option String :=
  ({ h with pos := h.pos + 1 }, h.ents[h.pos + 1]?)

/-- Modelled from the spec: `History::last`, move to the newest entry and return it. -/
def History.last (h : History) : History × Option String :=
  ({ h with pos := h.ents.length - 1 }, h.ents[h.ents.length - 1]?)

/-- Modelled from the spec: `gnome_cmd_dir_get_parent` (the directory class is not among
the sources): the directory one level up, null for a null directory and for the root. -/
def gnome_cmd_dir_get_parent (dir : Option GnomeCmdDir) : Option GnomeCmdDir :=
  match dir with
  | none => none
  | some p =>
    if p = "/" ∨ p = "" then none
    else
      let q := ((p.data.reverse.dropWhile (fun c => c != '/')).drop 1).reverse
      some (if q = [] then "/" else String.mk q)

/-- Modelled from the spec: `gnome_cmd_dir_new (con, gnome_cmd_con_create_path (con, path))`,
the directory of the pane's connection that has the given path (null for a null path). -/
def gnome_cmd_dir_new (path : Option String) : Option GnomeCmdDir :=
  path

/-- The cast `GNOME_CMD_DIR (f)` of an entry to the directory it stands for, identified
by its path. -/
def GNOME_CMD_DIR (f : GnomeCmdFile) : Option GnomeCmdDir :=
  get_path f

/-- Modelled from the spec: a `GnomeCmdFileList` (its code is not among the sources), the
"Tab" of the data model: "wraps one file list bound to one directory, a lock flag, sort
column/order"; with the visible files and the marked subset. -/
structure GnomeCmdFileList where
  locked : Bool
  cwd : Option GnomeCmdDir
  visible_files : List GnomeCmdFile
  marked_files : List GnomeCmdFile
  sort_col : Nat
  sort_order : Nat
  deriving DecidableEq, Repr

/-- Modelled from the spec: `GnomeCmdFileList::invalidate_tree_size`, which invalidates
the cached recursive size of the files of the list. -/
def GnomeCmdFileList.invalidate_tree_size (fl : GnomeCmdFileList) : GnomeCmdFileList :=
  { fl with visible_files := fl.visible_files.map GnomeCmd.invalidate_tree_size }

/-- Modelled from the spec: `GnomeCmdFileList::set_directory`, in-place navigation of the
list to a directory (nothing happens for a null directory). -/
def GnomeCmdFileList.set_directory (fl : GnomeCmdFileList) (dir : Option GnomeCmdDir) :
    GnomeCmdFileList :=
  match dir with
  | none => fl
  | some d => { fl with cwd := some d }

/-- Modelled from the spec: `GnomeCmdFileList::goto_directory`, in-place navigation of
the list by name: `..` is the parent of the current directory, a name starting with
`/` is a full path, any other name is a child of the current directory. -/
def GnomeCmdFileList.goto_directory (fl : GnomeCmdFileList) (dir : Option String) :
    GnomeCmdFileList :=
  match dir with
  | none => fl
  | some d =>
    if d = ".." then fl.set_directory (gnome_cmd_dir_get_parent fl.cwd)
    else if d.data.head? = some '/' then fl.set_directory (some d)
    else fl.set_directory (fl.cwd.map (fun c => c ++ "/" ++ d))

/-- Calls that the file selector makes to a file list or to its notebook. A file list is
named by the index of its page. -/
inductive SelectorEvent where
  | invalidate_tree_size (fl : Nat)
  | goto_directory (fl : Nat) (dir : Option String)
  | set_directory (fl : Nat) (dir : Option GnomeCmdDir)
  | append_page (fl : Nat) (dir : Option GnomeCmdDir) (locked : Bool)
  | set_current_page (fl : Nat)
  | label_set_text (text : String)
  | update_direntry
  | update_vol_label
  | update_tab_label (fl : Nat)
  | show_files (fl : Nat) (dir : GnomeCmdDir)
  | select_row (fl : Nat) (row : Nat)
  | unselect_all (fl : Nat)
  | emit_dir_changed (dir : GnomeCmdDir)
  deriving DecidableEq, Repr

/-- The state of a `GnomeCmdFileSelector`: the pages of its notebook, the index of the
page that `list` points to (`none` for a null `list`), the fields of `Private` that the
embedded code uses, the text of `info_label`, and the calls made so far. -/
structure GnomeCmdFileSelector where
  tabs : List GnomeCmdFileList
  list : Option Nat
  dir_history : Option History
  active : Bool
  realized : Bool
  info_label : String
  log : List SelectorEvent
  deriving DecidableEq, Repr

/-- The file list that `list` points to, as `file_list ()` returns it. -/
def GnomeCmdFileSelector.file_list (s : GnomeCmdFileSelector) : Option GnomeCmdFileList :=
  match s.list with
  | none => none
  | some i => s.tabs[i]?

/-! ## `gnome-cmd-file-selector.cc` -/

/-- Embeds `GnomeCmdFileSelector::new_tab (dir, sort_col, sort_order, locked, activate)`:
a new file list is appended as the last page; with `activate` it becomes `list` and the
current page; with a directory it is bound to that directory. -/
def new_tab (s : GnomeCmdFileSelector) (dir : Option GnomeCmdDir)
    (sort_col sort_order : Nat) (locked activate : Bool) : GnomeCmdFileSelector :=
  let fl : GnomeCmdFileList :=
    { locked := locked, cwd := none, visible_files := [], marked_files := [],
      sort_col := sort_col, sort_order := sort_order }
  let n := s.tabs.length
  let fl1 := match dir with
    | some d => { fl with cwd := some d }
    | none => fl
  { s with
    tabs := s.tabs ++ [fl1],
    list := if activate then some n else s.list,
    log := s.log ++ [SelectorEvent.append_page n dir locked] ++
      (if activate then [SelectorEvent.set_current_page n] else []) }

/-- Modelled from the spec: the one-argument `new_tab (dir)` of the absent header, the
"opens a new tab" of activation routing: an unlocked tab on `dir`, sorted like the
current list, which becomes the active tab. -/
def new_tab_dir (s : GnomeCmdFileSelector) (dir : Option GnomeCmdDir) : GnomeCmdFileSelector :=
  match s.file_list with
  | some cur => new_tab s dir cur.sort_col cur.sort_order false true
  | none => new_tab s dir 0 0 false true

/-- Replaces the file list of page `i`. -/
def set_tab (s : GnomeCmdFileSelector) (i : Nat) (fl : GnomeCmdFileList) :
    GnomeCmdFileSelector :=
  { s with tabs := s.tabs.set i fl }

/-- Embeds `GnomeCmdFileSelector::do_file_specific_action (fl, f)`. The file list `fl` is
given by the index of its page; the call returns at once when that is no file list, when
`f` is null or when `f` has no `info`. -/
def do_file_specific_action (gio : Gio) (s : GnomeCmdFileSelector) (i : Nat)
    (f : Option GnomeCmdFile) : GnomeCmdFileSelector :=
  match s.tabs[i]?, f with
  | none, _ => s
  | some _, none => s
  | some fl, some f =>
    if f.info.isNone then s
    else if GetGfileAttributeUInt32 gio f Gio.standard_type = G_FILE_TYPE_DIRECTORY then
      if !fl.locked then
        let fl1 := fl.invalidate_tree_size
        let s1 := { set_tab s i fl1 with log := s.log ++ [SelectorEvent.invalidate_tree_size i] }
        if f.is_dotdot then
          { set_tab s1 i (fl1.goto_directory (some "..")) with
            log := s1.log ++ [SelectorEvent.goto_directory i (some "..")] }
        else
          { set_tab s1 i (fl1.set_directory (GNOME_CMD_DIR f)) with
            log := s1.log ++ [SelectorEvent.set_directory i (GNOME_CMD_DIR f)] }
      else
        new_tab_dir s (if f.is_dotdot then gnome_cmd_dir_get_parent fl.cwd else GNOME_CMD_DIR f)
    else s

/-- Modelled from the spec: `GnomeCmdFileSelector::goto_directory (dir)` of the absent
header, in-place navigation of the current file list. Null `list`: `none`. -/
def goto_directory (s : GnomeCmdFileSelector) (dir : Option String) :
    Option GnomeCmdFileSelector :=
  match s.list with
  | none => none
  | some i =>
    match s.tabs[i]? with
    | none => none
    | some fl =>
      some { set_tab s i (fl.goto_directory dir) with
             log := s.log ++ [SelectorEvent.goto_directory i dir] }

/-- The common body of `first`, `back`, `forward` and `last`, which differ in the guard
and in the `History` move only: return if the guard fails; lock the history; for a
locked list open the entry in a new tab, else go to it in place; unlock the history.
A null `dir_history` or a null `list` is dereferenced: `none`. -/
def history_jump (guard : History → Bool) (move : History → History × Option String)
    (s : GnomeCmdFileSelector) : Option GnomeCmdFileSelector :=
  match s.dir_history with
  | none => none
  | some h =>
    if !guard h then some s
    else
      let s1 := { s with dir_history := some h.lock }
      match s1.file_list with
      | none => none
      | some fl =>
        let m := move h.lock
        let s2 := { s1 with dir_history := some m.1 }
        let s3 := if fl.locked then some (new_tab_dir s2 (gnome_cmd_dir_new m.2))
                  else goto_directory s2 m.2
        match s3 with
        | none => none
        | some s4 => some { s4 with dir_history := s4.dir_history.map History.unlock }

/-- Embeds `GnomeCmdFileSelector::first`. -/
def first (s : GnomeCmdFileSelector) : Option GnomeCmdFileSelector :=
  history_jump History.can_back History.first s

/-- Embeds `GnomeCmdFileSelector::back`. -/
def back (s : GnomeCmdFileSelector) : Option GnomeCmdFileSelector :=
  history_jump History.can_back History.back s

/-- Embeds `GnomeCmdFileSelector::forward`. -/
def forward (s : GnomeCmdFileSelector) : Option GnomeCmdFileSelector :=
  history_jump History.can_forward History.forward s

/-- Embeds `GnomeCmdFileSelector::last`. -/
def last (s : GnomeCmdFileSelector) : Option GnomeCmdFileSelector :=
  history_jump History.can_forward History.last s

/-- Embeds `GnomeCmdFileSelector::can_back`. -/
def can_back (s : GnomeCmdFileSelector) : Bool :=
  match s.dir_history with
  | none => false
  | some h => h.can_back

/-- Embeds `GnomeCmdFileSelector::can_forward`. -/
def can_forward (s : GnomeCmdFileSelector) : Bool :=
  match s.dir_history with
  | none => false
  | some h => h.can_forward

/-- Embeds the case `GDK_Left`, `GDK_KP_Left`, `GDK_BackSpace` of
`GnomeCmdFileSelector::key_pressed` for a key without modifiers: go to the parent
directory. A null `list` is dereferenced: `none`. -/
def key_pressed_go_to_parent (s : GnomeCmdFileSelector) : Option GnomeCmdFileSelector :=
  match s.list with
  | none => none
  | some i =>
    match s.tabs[i]? with
    | none => none
    | some fl =>
      if !fl.locked then
        let fl1 := fl.invalidate_tree_size
        some { set_tab s i (fl1.goto_directory (some "..")) with
               log := s.log ++ [SelectorEvent.invalidate_tree_size i,
                                SelectorEvent.goto_directory i (some "..")] }
      else
        some (new_tab_dir s (gnome_cmd_dir_get_parent fl.cwd))

/-- The page that `new_tab_dir s target` appends: an unlocked, empty file list bound to
`target` and sorted like the current list of `s`. -/
def opened_tab (s : GnomeCmdFileSelector) (target : Option GnomeCmdDir) : GnomeCmdFileList :=
  { locked := false, cwd := target, visible_files := [], marked_files := [],
    sort_col := (s.file_list.map (fun l => l.sort_col)).getD 0,
    sort_order := (s.file_list.map (fun l => l.sort_order)).getD 0 }

/-- The selector `s` after `target` was opened in a new tab and nothing else was done:
the old pages are as they were, the new page is the last and the current one, and the
only calls made are those that append and select the new page. -/
def opened_in_new_tab (s : GnomeCmdFileSelector) (target : Option GnomeCmdDir) :
    GnomeCmdFileSelector :=
  { s with
    tabs := s.tabs ++ [opened_tab s target],
    list := some s.tabs.length,
    log := s.log ++ [SelectorEvent.append_page s.tabs.length target false,
                     SelectorEvent.set_current_page s.tabs.length] }

/-- The selector `s` after the file list of page `i` was replaced by `fl` and the calls
`calls` were made: no page is added and `list` is as it was. -/
def navigated_in_place (s : GnomeCmdFileSelector) (i : Nat) (fl : GnomeCmdFileList)
    (calls : List SelectorEvent) : GnomeCmdFileSelector :=
  { s with tabs := s.tabs.set i fl, log := s.log ++ calls }

/-! ## The selection label -/

/-- The six accumulators of `update_selected_files_label`. The byte totals are `guint64`
values; the counters are `gint` values, which stay far from the end of their range for
the files of a list. -/
structure LabelTotals where
  sel_bytes : Nat
  total_bytes : Nat
  num_files : Nat
  num_dirs : Nat
  num_sel_files : Nat
  num_sel_dirs : Nat
  deriving DecidableEq, Repr

/-- The accumulators as `update_selected_files_label` initialises them. -/
def LabelTotals.zero : LabelTotals :=
  { sel_bytes := 0, total_bytes := 0, num_files := 0, num_dirs := 0,
    num_sel_files := 0, num_sel_dirs := 0 }

/-- How sizes are displayed: `gnome_cmd_data.options.size_disp_mode`, the two values of
`GnomeCmdSizeDispMode` that the label code names, and the formatter `size2string` (their
declarations are not among the sources). -/
structure SizeDisplay where
  size_disp_mode : Nat
  GNOME_CMD_SIZE_DISP_MODE_POWERED : Nat
  GNOME_CMD_SIZE_DISP_MODE_GROUPED : Nat
  size2string : Nat → Nat → String

/-- Embeds the body of the first loop of `update_selected_files_label` for one visible
file: the accumulators and the entry afterwards, and the number of measurements GIO was
asked for. `none` when `info` of a regular file is null. -/
def count_visible_file (gio : Gio) (f : GnomeCmdFile) (t : LabelTotals) :
    Option (LabelTotals × GnomeCmdFile × Nat) :=
  if GetGfileAttributeUInt32 gio f Gio.standard_type = G_FILE_TYPE_DIRECTORY then
    if !f.is_dotdot then
      let t1 := { t with num_dirs := t.num_dirs + 1 }
      if has_tree_size f then
        match get_tree_size gio f with
        | none => none
        | some r =>
          some ({ t1 with total_bytes := (t1.total_bytes + r.value) % GUINT64_RANGE },
                r.file, r.measured)
      else some (t1, f, 0)
    else some (t, f, 0)
  else if GetGfileAttributeUInt32 gio f Gio.standard_type = G_FILE_TYPE_REGULAR then
    match f.info with
    | none => none
    | some info =>
      some ({ t with num_files := t.num_files + 1,
                     total_bytes := (t.total_bytes + info.size) % GUINT64_RANGE }, f, 0)
  else some (t, f, 0)

/-- Embeds the first loop of `update_selected_files_label`, over the visible files. -/
def count_visible_files (gio : Gio) :
    List GnomeCmdFile → LabelTotals → Option (LabelTotals × List GnomeCmdFile × Nat)
  | [], t => some (t, [], 0)
  | f :: fs, t =>
    match count_visible_file gio f t with
    | none => none
    | some r1 =>
      match count_visible_files gio fs r1.1 with
      | none => none
      | some r2 => some (r2.1, r1.2.1 :: r2.2.1, r1.2.2 + r2.2.2)

/-- Embeds the body of the second loop of `update_selected_files_label` for one marked
file. -/
def count_marked_file (gio : Gio) (f : GnomeCmdFile) (t : LabelTotals) :
    Option (LabelTotals × GnomeCmdFile × Nat) :=
  if GetGfileAttributeUInt32 gio f Gio.standard_type = G_FILE_TYPE_DIRECTORY then
    let t1 := { t with num_sel_dirs := t.num_sel_dirs + 1 }
    if has_tree_size f then
      match get_tree_size gio f with
      | none => none
      | some r =>
        some ({ t1 with sel_bytes := (t1.sel_bytes + r.value) % GUINT64_RANGE },
              r.file, r.measured)
    else some (t1, f, 0)
  else if GetGfileAttributeUInt32 gio f Gio.standard_type = G_FILE_TYPE_REGULAR then
    match f.info with
    | none => none
    | some info =>
      some ({ t with num_sel_files := t.num_sel_files + 1,
                     sel_bytes := (t.sel_bytes + info.size) % GUINT64_RANGE }, f, 0)
  else some (t, f, 0)

/-- Embeds the second loop of `update_selected_files_label`, over the marked files. -/
def count_marked_files (gio : Gio) :
    List GnomeCmdFile → LabelTotals → Option (LabelTotals × List GnomeCmdFile × Nat)
  | [], t => some (t, [], 0)
  | f :: fs, t =>
    match count_marked_file gio f t with
    | none => none
    | some r1 =>
      match count_marked_files gio fs r1.1 with
      | none => none
      | some r2 => some (r2.1, r1.2.1 :: r2.2.1, r1.2.2 + r2.2.2)

/-- Both loops of `update_selected_files_label` in their order, from zeroed accumulators:
the final accumulators, the visible and the marked files afterwards, and the number of
measurements GIO was asked for. -/
def count_files (gio : Gio) (visible marked : List GnomeCmdFile) :
    Option (LabelTotals × List GnomeCmdFile × List GnomeCmdFile × Nat) :=
  match count_visible_files gio visible LabelTotals.zero with
  | none => none
  | some r1 =>
    match count_marked_files gio marked r1.1 with
    | none => none
    | some r2 => some (r2.1, r1.2.1, r2.2.1, r1.2.2 + r2.2.2)

/-- Embeds the text that `update_selected_files_label` builds from the accumulators, with
the untranslated messages; `ngettext` takes the singular for the number one. -/
def format_info_label (d : SizeDisplay) (t : LabelTotals) : String :=
  let size_mode :=
    if d.size_disp_mode = d.GNOME_CMD_SIZE_DISP_MODE_POWERED
    then d.GNOME_CMD_SIZE_DISP_MODE_GROUPED else d.size_disp_mode
  let sel_str := d.size2string (t.sel_bytes / 1024) size_mode
  let total_str := d.size2string (t.total_bytes / 1024) size_mode
  let file_str := sel_str ++ " of " ++ total_str ++ " kB in " ++ toString t.num_sel_files
    ++ " of " ++ toString t.num_files ++ (if t.num_files = 1 then " file" else " files")
  file_str ++ ", " ++ toString t.num_sel_dirs ++ " of " ++ toString t.num_dirs
    ++ (if t.num_dirs = 1 then " dir selected" else " dirs selected")

/-- Embeds `GnomeCmdFileSelector::update_selected_files_label`. The lists of the model
hold the entries themselves, so the entries as the loops leave them are written back.
`none` for a null `list` or a null `info` of a regular file. -/
def update_selected_files_label (d : SizeDisplay) (gio : Gio) (s : GnomeCmdFileSelector) :
    Option GnomeCmdFileSelector :=
  match s.list with
  | none => none
  | some i =>
    match s.tabs[i]? with
    | none => none
    | some fl =>
      if fl.visible_files = [] then some s
      else
        match count_files gio fl.visible_files fl.marked_files with
        | none => none
        | some r =>
          some { set_tab s i { fl with visible_files := r.2.1, marked_files := r.2.2.1 } with
                 info_label := format_info_label d r.1,
                 log := s.log ++ [SelectorEvent.label_set_text (format_info_label d r.1)] }

/-- The bytes that a regular file adds to a total of the label: the size in its
metadata. Zero for any other entry. -/
def regular_bytes (gio : Gio) (f : GnomeCmdFile) : Nat :=
  if GetGfileAttributeUInt32 gio f Gio.standard_type = G_FILE_TYPE_REGULAR then
    (f.info.map (fun i => i.size)).getD 0
  else 0

/-- The bytes that a directory adds to a total of the label: its cached tree size, when
there is one and the entry is not `..`. Zero for any other entry. -/
def directory_bytes (gio : Gio) (f : GnomeCmdFile) : Nat :=
  if GetGfileAttributeUInt32 gio f Gio.standard_type = G_FILE_TYPE_DIRECTORY
      ∧ f.is_dotdot = false ∧ has_tree_size f = true then
    f.tree_size
  else 0

/-- Sum of `regular_bytes` over a list of entries. -/
def sum_regular_bytes (gio : Gio) (fs : List GnomeCmdFile) : Nat :=
  (fs.map (regular_bytes gio)).sum

/-- Sum of `directory_bytes` over a list of entries. -/
def sum_directory_bytes (gio : Gio) (fs : List GnomeCmdFile) : Nat :=
  (fs.map (directory_bytes gio)).sum

/-- The entry is one that GIO reports as a regular file. -/
def is_regular (gio : Gio) (f : GnomeCmdFile) : Bool :=
  decide (GetGfileAttributeUInt32 gio f Gio.standard_type = G_FILE_TYPE_REGULAR)

/-- The entry is one that GIO reports as a directory. -/
def is_directory (gio : Gio) (f : GnomeCmdFile) : Bool :=
  decide (GetGfileAttributeUInt32 gio f Gio.standard_type = G_FILE_TYPE_DIRECTORY)

/-- What the first loop of the label does to the accumulators for one visible file, in
closed form. -/
def visible_step (gio : Gio) (f : GnomeCmdFile) (t : LabelTotals) : LabelTotals :=
  { t with
    total_bytes :=
      (t.total_bytes + (regular_bytes gio f + directory_bytes gio f)) % GUINT64_RANGE,
    num_files := t.num_files + (if is_regular gio f then 1 else 0),
    num_dirs := t.num_dirs + (if is_directory gio f && !f.is_dotdot then 1 else 0) }

/-- What the second loop of the label does to the accumulators for one marked file, in
closed form. -/
def marked_step (gio : Gio) (f : GnomeCmdFile) (t : LabelTotals) : LabelTotals :=
  { t with
    sel_bytes :=
      (t.sel_bytes + (regular_bytes gio f + directory_bytes gio f)) % GUINT64_RANGE,
    num_sel_files := t.num_sel_files + (if is_regular gio f then 1 else 0),
    num_sel_dirs := t.num_sel_dirs + (if is_directory gio f then 1 else 0) }

/-- What the first loop of the label does to the accumulators for a list of visible
files, in closed form. -/
def visible_totals (gio : Gio) (fs : List GnomeCmdFile) (t : LabelTotals) : LabelTotals :=
  { t with
    total_bytes :=
      (t.total_bytes + (sum_regular_bytes gio fs + sum_directory_bytes gio fs)) % GUINT64_RANGE,
    num_files := t.num_files + (fs.filter (is_regular gio)).length,
    num_dirs := t.num_dirs +
      (fs.filter (fun f => is_directory gio f && !f.is_dotdot)).length }

/-- What the second loop of the label does to the accumulators for a list of marked
files, in closed form. -/
def marked_totals (gio : Gio) (fs : List GnomeCmdFile) (t : LabelTotals) : LabelTotals :=
  { t with
    sel_bytes :=
      (t.sel_bytes + (sum_regular_bytes gio fs + sum_directory_bytes gio fs)) % GUINT64_RANGE,
    num_sel_files := t.num_sel_files + (fs.filter (is_regular gio)).length,
    num_sel_dirs := t.num_sel_dirs + (fs.filter (is_directory gio)).length }

/-! ## Directory-changed notifications -/

/-- Modelled from the spec: `History::add` (the class is not among the sources), the
recording of a visited path in the "bounded" history: the path becomes the newest entry
after the current one, and only the newest `max` entries are kept. The lock flag is for
the callers to consult. -/
def History.add (h : History) (path : String) : History :=
  let e := h.ents.take (h.pos + 1) ++ [path]
  let e1 := e.drop (e.length - h.max)
  { h with ents := e1, pos := e1.length - 1 }

/-- Modelled from the spec: `GnomeCmdFileList::show_files`, after which the list displays
the given files of its directory, none of them marked. -/
def GnomeCmdFileList.show_files (fl : GnomeCmdFileList) (files : List GnomeCmdFile) :
    GnomeCmdFileList :=
  { fl with visible_files := files, marked_files := [] }

/-- What a pane works with besides its own state: the size display, what GIO reports,
and the files that a file list displays for a directory. -/
structure PaneWorld where
  display : SizeDisplay
  gio : Gio
  listing : GnomeCmdDir → List GnomeCmdFile

/-- Embeds `GnomeCmdFileSelector::update_files`; `get_directory ()` is the current
directory of `list`. `none` for a null `list`. -/
def update_files (w : PaneWorld) (s : GnomeCmdFileSelector) : Option GnomeCmdFileSelector :=
  match s.list with
  | none => none
  | some i =>
    match s.tabs[i]? with
    | none => none
    | some fl =>
      match fl.cwd with
      | none => some s
      | some dir =>
        let s1 := { set_tab s i (fl.show_files (w.listing dir)) with
                    log := s.log ++ [SelectorEvent.show_files i dir] }
        let s2 := if s1.realized then update_selected_files_label w.display w.gio s1
                  else some s1
        match s2 with
        | none => none
        | some s3 =>
          if s3.active then
            some { s3 with log := s3.log ++ [SelectorEvent.select_row i 0] }
          else some s3

/-- The history part of `on_list_dir_changed`: with a history that is not locked, the
path of the directory is added to it. -/
def record_dir_changed (s : GnomeCmdFileSelector) (dir : GnomeCmdDir) : GnomeCmdFileSelector :=
  match s.dir_history with
  | none => s
  | some h => if !h.locked then { s with dir_history := some (h.add dir) } else s

/-- Embeds `on_list_dir_changed (fl, dir, fs)`, the handler of the directory-changed
notification of the file list of page `fl`. The flag `sel_first_file` is set again when
it is read, so the row is selected exactly for an active selector. `none` when a null
pointer is dereferenced on the way. -/
def on_list_dir_changed (w : PaneWorld) (s : GnomeCmdFileSelector) (fl : Nat)
    (dir : GnomeCmdDir) : Option GnomeCmdFileSelector :=
  let s1 := record_dir_changed s dir
  if s1.list ≠ some fl then some s1
  else
    let s2 := { s1 with log := s1.log ++
      [SelectorEvent.update_direntry, SelectorEvent.update_vol_label] }
    match s2.tabs[fl]? with
    | none => none
    | some l =>
      if l.cwd ≠ some dir then some s2
      else
        let s3 := { s2 with log := s2.log ++ [SelectorEvent.update_tab_label fl] }
        match update_files w s3 with
        | none => none
        | some s4 =>
          let s5 := if !s4.active then
              { s4 with log := s4.log ++ [SelectorEvent.unselect_all fl] }
            else s4
          let s6 := if s5.active then
              { s5 with log := s5.log ++ [SelectorEvent.select_row fl 0] }
            else s5
          match update_selected_files_label w.display w.gio s6 with
          | none => none
          | some s7 => some { s7 with log := s7.log ++ [SelectorEvent.emit_dir_changed dir] }

/-- The handling, one after the other, of a list of directory-changed notifications,
each given by the page of the file list that raises it and the directory. -/
def deliver (w : PaneWorld) :
    List (Nat × GnomeCmdDir) → GnomeCmdFileSelector → Option GnomeCmdFileSelector
  | [], s => some s
  | n :: ns, s =>
    match on_list_dir_changed w s n.1 n.2 with
    | none => none
    | some s1 => deliver w ns s1

/-- The body of `first`, `back`, `forward` and `last` as in `history_jump`, together with
the directory-changed notifications that are raised while the navigation is under way,
before the history is unlocked: `raised` gives them for the state the navigation has
led to. -/
def history_jump_during (w : PaneWorld) (guard : History → Bool)
    (move : History → History × Option String)
    (raised : GnomeCmdFileSelector → List (Nat × GnomeCmdDir))
    (s : GnomeCmdFileSelector) : Option GnomeCmdFileSelector :=
  match s.dir_history with
  | none => none
  | some h =>
    if !guard h then some s
    else
      let s1 := { s with dir_history := some h.lock }
      match s1.file_list with
      | none => none
      | some fl =>
        let m := move h.lock
        let s2 := { s1 with dir_history := some m.1 }
        let s3 := if fl.locked then some (new_tab_dir s2 (gnome_cmd_dir_new m.2))
                  else goto_directory s2 m.2
        match s3 with
        | none => none
        | some s4 =>
          match deliver w (raised s4) s4 with
          | none => none
          | some s5 => some { s5 with dir_history := s5.dir_history.map History.unlock }

/-- The notification that the current file list raises for its current directory. -/
def raised_by_current_list (s : GnomeCmdFileSelector) : List (Nat × GnomeCmdDir) :=
  match s.list with
  | none => []
  | some i =>
    match s.tabs[i]? with
    | none => []
    | some fl =>
      match fl.cwd with
      | none => []
      | some dir => [(i, dir)]

/-- A directory visit in the current tab: the current file list is navigated in place to
the directory and its directory-changed notification is handled. -/
def visit (w : PaneWorld) (s : GnomeCmdFileSelector) (dir : GnomeCmdDir) :
    Option GnomeCmdFileSelector :=
  match s.list with
  | none => none
  | some i =>
    match s.tabs[i]? with
    | none => none
    | some fl =>
      on_list_dir_changed w
        { set_tab s i (fl.set_directory (some dir)) with
          log := s.log ++ [SelectorEvent.set_directory i (some dir)] } i dir

/-- A sequence of directory visits in the current tab, in list order. -/
def visits (w : PaneWorld) :
    List GnomeCmdDir → GnomeCmdFileSelector → Option GnomeCmdFileSelector
  | [], s => some s
  | d :: ds, s =>
    match visit w s d with
    | none => none
    | some s1 => visits w ds s1

/-- The same call made `n` times in a row. -/
def repeat_call (f : GnomeCmdFileSelector → Option GnomeCmdFileSelector) :
    Nat → GnomeCmdFileSelector → Option GnomeCmdFileSelector
  | 0, s => some s
  | n + 1, s =>
    match f s with
    | none => none
    | some s1 => repeat_call f n s1

/-- The call `back ()` with the notification of the current list handled while the
history is locked. -/
def back_during (w : PaneWorld) (s : GnomeCmdFileSelector) : Option GnomeCmdFileSelector :=
  history_jump_during w History.can_back History.back raised_by_current_list s

/-- The call `forward ()` with the notification of the current list handled while the
history is locked. -/
def forward_during (w : PaneWorld) (s : GnomeCmdFileSelector) :
    Option GnomeCmdFileSelector :=
  history_jump_during w History.can_forward History.forward raised_by_current_list s

/-- The current directory of the current file list. -/
def current_cwd (s : GnomeCmdFileSelector) : Option GnomeCmdDir :=
  match s.file_list with
  | none => none
  | some fl => fl.cwd

/-- What directory-changed notifications leave alone: which page is current, and the
current directory and lock flag of every page. -/
def pane_view (s : GnomeCmdFileSelector) : Option Nat × List (Option GnomeCmdDir × Bool) :=
  (s.list, s.tabs.map (fun l => (l.cwd, l.locked)))

/-- Every visible and every marked entry of the file list has metadata. -/
def list_has_info (l : GnomeCmdFileList) : Bool :=
  l.visible_files.all (fun f => f.info.isSome) && l.marked_files.all (fun f => f.info.isSome)

/-- Every entry of every file list of the selector has metadata. -/
def files_have_info (s : GnomeCmdFileSelector) : Bool :=
  s.tabs.all list_has_info

/-- Every entry that a file list displays for a directory has metadata. -/
def listing_has_info (w : PaneWorld) : Prop :=
  ∀ dir f, f ∈ w.listing dir → f.info.isSome = true

/-- The state of a pane in the replay of a sequence of visits `ds`: page `i` is current
and unlocked and is on the `k`-th visited directory, the history holds exactly the visited
directories, with the `k`-th as the current entry, and is not locked, and all entries of
the file lists have metadata. -/
def replay_state (i : Nat) (ds : List GnomeCmdDir) (max : Nat) (k : Nat)
    (s : GnomeCmdFileSelector) : Prop :=
  s.list = some i ∧
  (∃ fl, s.tabs[i]? = some fl ∧ fl.locked = false ∧ fl.cwd = ds[k]?) ∧
  s.dir_history = some { ents := ds, pos := k, is_locked := false, max := max } ∧
  files_have_info s = true

/-! ## Executability and the extension of an entry -/

/-- What `is_executable` reads from outside the entry: the ids of the current user
(`gcmd_owner.uid ()`, `gcmd_owner.gid ()`), the answer of `gnome_cmd_dir_is_local` for
a directory pointer (null included), and the three masks `GNOME_CMD_PERM_USER_EXEC`,
`GNOME_CMD_PERM_GROUP_EXEC`, `GNOME_CMD_PERM_OTHER_EXEC`, which are defined in a header
that is not among the sources. -/
structure ExecEnv where
  owner_uid : Nat
  owner_gid : Nat
  gnome_cmd_dir_is_local : Option GnomeCmdDir → Bool
  GNOME_CMD_PERM_USER_EXEC : Nat
  GNOME_CMD_PERM_GROUP_EXEC : Nat
  GNOME_CMD_PERM_OTHER_EXEC : Nat

/-- Embeds `GnomeCmdFile::is_local`: `gnome_cmd_dir_is_local (::get_parent_dir (this))`. -/
def is_local (env : ExecEnv) (f : GnomeCmdFile) : Bool :=
  env.gnome_cmd_dir_is_local (get_parent_dir f)

/-- Embeds `GnomeCmdFile::is_executable`. The result is `none` when the null `info` is
dereferenced, which happens only after the type test and the locality test passed. -/
def is_executable (gio : Gio) (env : ExecEnv) (f : GnomeCmdFile) : Option Bool :=
  if GetGfileAttributeUInt32 gio f Gio.standard_type ≠ G_FILE_TYPE_REGULAR then some false
  else if !is_local env f then some false
  else
    match f.info with
    | none => none
    | some info =>
      if env.owner_uid = info.uid ∧ info.permissions &&& env.GNOME_CMD_PERM_USER_EXEC ≠ 0 then
        some true
      else if env.owner_gid = info.gid ∧
          info.permissions &&& env.GNOME_CMD_PERM_GROUP_EXEC ≠ 0 then
        some true
      else if info.permissions &&& env.GNOME_CMD_PERM_OTHER_EXEC ≠ 0 then some true
      else some false

/-- The C function `strrchr` on the characters of a string: the part of `s` that starts
at the last occurrence of `c`, or `none` (a null pointer) when `c` does not occur. -/
def strrchr : List Char → Char → Option (List Char)
  | [], _ => none
  | x :: xs, c =>
    match strrchr xs c with
    | some r => some r
    | none => if x = c then some (x :: xs) else none

/-- Embeds `GnomeCmdFile::get_extension`; `none` is the null pointer. For a null `info`
the guard `g_return_val_if_fail (info != nullptr, nullptr)` answers null. -/
def get_extension (gio : Gio) (f : GnomeCmdFile) : Option String :=
  match f.info with
  | none => none
  | some info =>
    if GetGfileAttributeUInt32 gio f Gio.standard_type = G_FILE_TYPE_DIRECTORY then none
    else
      match strrchr info.name.data '.' with
      | some s => some (String.mk s.tail)
      | none => none

/-! ## `imageloader.cc` -/

/-- The state of one run of `gnome_cmd_file_selector_create_symlinks`: the variable
`choice`, the answers that the user has still to give to `run_simple_dialog` (the index
of the pressed button: `0` Skip, `1` Skip all, `2` Cancel, `3` Retry), the number of
`gnome_vfs_create_symbolic_link` calls made, the files for which such a call was made,
and the files for which `gnome_cmd_dir_file_created` was called. -/
structure SymlinkBatch where
  choice : Int
  answers : List Int
  calls : Nat
  attempted : List String
  created : List String
  deriving DecidableEq, Repr

/-- The state at the start of `gnome_cmd_file_selector_create_symlinks`: `choice = -1`. -/
def SymlinkBatch.start (answers : List Int) : SymlinkBatch :=
  { choice := -1, answers := answers, calls := 0, attempted := [], created := [] }

/-- Embeds the `do ... while (result != GNOME_VFS_OK && choice == 3)` loop for the file
`f`. `vfs n f` is the result of the `n`-th `gnome_vfs_create_symbolic_link` call of the
run. The result is `none` when a dialog is opened and no answer is left. -/
def create_symlink_do_while (vfs : Nat → String → GnomeVFSResult) (f : String) :
    List Int → Int → Nat → List String → List String → Option SymlinkBatch
  | answers, choice, calls, attempted, created =>
    if vfs calls f = GNOME_VFS_OK then
      some { choice := choice, answers := answers, calls := calls + 1,
             attempted := attempted ++ [f], created := created ++ [f] }
    else if choice ≠ 1 then
      match answers with
      | [] => none
      | a :: rest =>
        if a = 3 then
          create_symlink_do_while vfs f rest a (calls + 1) (attempted ++ [f]) created
        else
          some { choice := a, answers := rest, calls := calls + 1,
                 attempted := attempted ++ [f], created := created }
    else
      some { choice := choice, answers := answers, calls := calls + 1,
             attempted := attempted ++ [f], created := created }

/-- Embeds the `for` loop of `gnome_cmd_file_selector_create_symlinks` over `files`. -/
def create_symlinks_loop (vfs : Nat → String → GnomeVFSResult) :
    List String → SymlinkBatch → Option SymlinkBatch
  | [], st => some st
  | f :: files, st =>
    match create_symlink_do_while vfs f st.answers st.choice st.calls st.attempted
        st.created with
    | none => none
    | some st1 => create_symlinks_loop vfs files st1

/-- Embeds `gnome_cmd_file_selector_create_symlinks`. -/
def gnome_cmd_file_selector_create_symlinks (vfs : Nat → String → GnomeVFSResult)
    (files : List String) (answers : List Int) : Option SymlinkBatch :=
  create_symlinks_loop vfs files (SymlinkBatch.start answers)

/-! ## The settings store -/

/-- A `GVariant` of one of the classes that the embedded code tells apart; `other` stands
for every further type and carries its type string. -/
inductive GVariant where
  | int32 (v : Int)
  | uint32 (v : Nat)
  | string (s : String)
  | boolean (b : Bool)
  | other (type_string : String)
  deriving DecidableEq, Repr

/-- The values of `GVariantClass` that the embedded code tells apart. -/
inductive GVariantClass where
  | G_VARIANT_CLASS_INT32
  | G_VARIANT_CLASS_UINT32
  | G_VARIANT_CLASS_STRING
  | G_VARIANT_CLASS_BOOLEAN
  | G_VARIANT_CLASS_OTHER
  deriving DecidableEq, Repr

/-- The library function `g_variant_classify`. -/
def g_variant_classify : GVariant → GVariantClass
  | GVariant.int32 _ => GVariantClass.G_VARIANT_CLASS_INT32
  | GVariant.uint32 _ => GVariantClass.G_VARIANT_CLASS_UINT32
  | GVariant.string _ => GVariantClass.G_VARIANT_CLASS_STRING
  | GVariant.boolean _ => GVariantClass.G_VARIANT_CLASS_BOOLEAN
  | GVariant.other _ => GVariantClass.G_VARIANT_CLASS_OTHER

/-- A `GSettings` object as the embedded code sees it: the value stored under each key,
the default value of the schema, whether the store accepts a value for a key (the key is
writable and the value passes the checks of the schema), the table of each enumerated
key (`enum_value key nick`, `enum_nick key value`), and the writes made so far, in order.
The handlers that are connected to the change signals of a key are not part of the
store; where a write raises one, the embedded caller runs it. -/
structure GSettings where
  value : String → GVariant
  default_value : String → GVariant
  accepts : String → GVariant → Bool
  enum_value : String → String → Int
  enum_nick : String → Int → Option String
  writes : List (String × GVariant)

/-- The library function `g_settings_set_value`: the value is stored and TRUE returned
when the store accepts it, else nothing changes and FALSE is returned. -/
def g_settings_set_value (s : GSettings) (key : String) (v : GVariant) : GSettings × Bool :=
  if s.accepts key v then
    ({ s with value := fun k => if k = key then v else s.value k,
              writes := s.writes ++ [(key, v)] }, true)
  else (s, false)

/-- The library function `g_settings_get_int`; `none` for a key of another type, for
which the library aborts. -/
def g_settings_get_int (s : GSettings) (key : String) : Option Int :=
  match s.value key with
  | GVariant.int32 v => some v
  | _ => none

/-- The library function `g_settings_get_uint`. -/
def g_settings_get_uint (s : GSettings) (key : String) : Option Nat :=
  match s.value key with
  | GVariant.uint32 v => some (v % 2 ^ 32)
  | _ => none

/-- The library function `g_settings_get_string`. -/
def g_settings_get_string (s : GSettings) (key : String) : Option String :=
  match s.value key with
  | GVariant.string v => some v
  | _ => none

/-- The library function `g_settings_get_boolean`. -/
def g_settings_get_boolean (s : GSettings) (key : String) : Option Bool :=
  match s.value key with
  | GVariant.boolean v => some v
  | _ => none

/-- The library function `g_settings_get_enum`: the number of the stored nick. -/
def g_settings_get_enum (s : GSettings) (key : String) : Option Int :=
  match s.value key with
  | GVariant.string nick => some (s.enum_value key nick)
  | _ => none

/-- The library function `g_settings_set_int`. -/
def g_settings_set_int (s : GSettings) (key : String) (v : Int) : GSettings × Bool :=
  g_settings_set_value s key (GVariant.int32 v)

/-- The library function `g_settings_set_uint`. -/
def g_settings_set_uint (s : GSettings) (key : String) (v : Nat) : GSettings × Bool :=
  g_settings_set_value s key (GVariant.uint32 (v % 2 ^ 32))

/-- The library function `g_settings_set_string`. -/
def g_settings_set_string (s : GSettings) (key : String) (v : String) : GSettings × Bool :=
  g_settings_set_value s key (GVariant.string v)

/-- The library function `g_settings_set_boolean`, which takes a `gboolean` (an integer)
and stores whether it differs from zero. -/
def g_settings_set_boolean (s : GSettings) (key : String) (v : Int) : GSettings × Bool :=
  g_settings_set_value s key (GVariant.boolean (decide (v ≠ 0)))

/-- The library function `g_settings_set_enum`: FALSE for a number without a nick. -/
def g_settings_set_enum (s : GSettings) (key : String) (v : Int) : GSettings × Bool :=
  match s.enum_nick key v with
  | none => (s, false)
  | some nick => g_settings_set_value s key (GVariant.string nick)

/-- The conversion of a `guint` to a `gint`. -/
def guint_to_gint (u : Nat) : Int :=
  if u % 2 ^ 32 < 2 ^ 31 then ((u % 2 ^ 32 : Nat) : Int) else ((u % 2 ^ 32 : Nat) : Int) - 2 ^ 32

/-- The conversion of a `gint` to a `guint`. -/
def gint_to_guint (v : Int) : Nat :=
  (v % 2 ^ 32).toNat

/-- What the `gpointer value` of `set_gsettings_when_changed` points to: a 32-bit cell
(a `gint`, `guint` or `gboolean`, read as a `gint`) or a C string. -/
inductive Pointee where
  | word (v : Int)
  | text (s : String)
  deriving DecidableEq, Repr

/-- Embeds `GnomeCmdData::set_gsettings_enum_when_changed`. -/
def set_gsettings_enum_when_changed (s : GSettings) (key : String) (new_value : Int) :
    Option (GSettings × Bool) :=
  if g_variant_classify (s.default_value key) = GVariantClass.G_VARIANT_CLASS_STRING then
    match g_settings_get_enum s key with
    | none => none
    | some old_value =>
      if old_value ≠ new_value then some (g_settings_set_enum s key new_value)
      else some (s, true)
  else some (s, false)

/-- Embeds `GnomeCmdData::set_gsettings_when_changed`. The result is `none` when the cell
behind `value` is read as a type that it does not hold, or when the store is asked for a
value of a type that the key does not have. -/
def set_gsettings_when_changed (s : GSettings) (key : String) (value : Pointee) :
    Option (GSettings × Bool) :=
  match g_variant_classify (s.default_value key) with
  | GVariantClass.G_VARIANT_CLASS_INT32 =>
    match value, g_settings_get_int s key with
    | Pointee.word new_value, some old_value =>
      if old_value ≠ new_value then some (g_settings_set_int s key new_value)
      else some (s, true)
    | _, _ => none
  | GVariantClass.G_VARIANT_CLASS_UINT32 =>
    match value, g_settings_get_uint s key with
    | Pointee.word new_value, some old =>
      if guint_to_gint old ≠ new_value then
        some (g_settings_set_uint s key (gint_to_guint new_value))
      else some (s, true)
    | _, _ => none
  | GVariantClass.G_VARIANT_CLASS_STRING =>
    match value, g_settings_get_string s key with
    | Pointee.text new_value, some old_value =>
      if old_value ≠ new_value then some (g_settings_set_string s key new_value)
      else some (s, true)
    | _, _ => none
  | GVariantClass.G_VARIANT_CLASS_BOOLEAN =>
    match value, g_settings_get_boolean s key with
    | Pointee.word new_value, some old =>
      if (if old then (1 : Int) else 0) ≠ new_value then
        some (g_settings_set_boolean s key new_value)
      else some (s, true)
    | _, _ => none
  | GVariantClass.G_VARIANT_CLASS_OTHER => some (s, false)

/-! ## Colours -/

/-- The red, green and blue fields of a `GdkColor`. -/
structure GdkColor where
  red : Nat
  green : Nat
  blue : Nat
  deriving DecidableEq, Repr

/-- The helper `gdk_color_new`. -/
def gdk_color_new (r g b : Nat) : GdkColor :=
  { red := r, green := g, blue := b }

/-- The two GDK functions on colour strings: `gdk_color_parse` (the parsed colour, or
`none` when the string is not a colour specification) and `gdk_color_to_string`. -/
structure Gdk where
  gdk_color_parse : String → Option GdkColor
  gdk_color_to_string : GdkColor → String

/-- The call `gdk_color_parse (spec, color)`: on success `*color` is overwritten and TRUE
returned, else `*color` stays as it is and FALSE is returned. -/
def gdk_color_parse_into (gdk : Gdk) (spec : String) (color : GdkColor) : GdkColor × Bool :=
  match gdk.gdk_color_parse spec with
  | some c => (c, true)
  | none => (color, false)

/-- Embeds `GnomeCmdData::is_valid_color_string`; `none` is a null string. -/
def is_valid_color_string (gdk : Gdk) (colorstring : Option String) : Bool :=
  match colorstring with
  | none => false
  | some c => (gdk_color_parse_into gdk c (gdk_color_new 0 0 0)).2

/-- Embeds `GnomeCmdData::gnome_cmd_data_parse_color` for a non-null `color`: the colour
afterwards and the returned flag. -/
def gnome_cmd_data_parse_color (gdk : Gdk) (spec : Option String) (color : GdkColor) :
    GdkColor × Bool :=
  match spec with
  | none => (color, false)
  | some sp =>
    if is_valid_color_string gdk (some sp) = true then gdk_color_parse_into gdk sp color
    else (color, false)

/-- Embeds `GnomeCmdData::set_color_if_valid_key_value`: the colour afterwards, the store
afterwards and the returned flag. -/
def set_color_if_valid_key_value (gdk : Gdk) (color : GdkColor) (s : GSettings)
    (key : String) : Option (GdkColor × GSettings × Bool) :=
  match g_settings_get_string s key with
  | none => none
  | some colorstring_new =>
    if !is_valid_color_string gdk (some colorstring_new) then
      let colorstring_old := gdk.gdk_color_to_string color
      some (color, (g_settings_set_string s key colorstring_old).1, true)
    else
      some ((gnome_cmd_data_parse_color gdk (some colorstring_new) color).1, s, false)

/-- Embeds `GnomeCmdData::set_valid_color_string`: the store afterwards and the returned
flag. The result is `none` when the default value is read as a string that it is not. -/
def set_valid_color_string (gdk : Gdk) (s : GSettings) (key : String) :
    Option (GSettings × Bool) :=
  match g_settings_get_string s key with
  | none => none
  | some colorstring =>
    if !is_valid_color_string gdk (some colorstring) then
      match s.default_value key with
      | GVariant.string d => some ((g_settings_set_string s key d).1, true)
      | _ => none
    else some (s, false)

/-- The colours that `load_colors` fills: the eight colours of
`options.color_themes[GNOME_CMD_COLOR_CUSTOM]` (`norm_fg` to `curs_bg`) and the sixteen
colours of `options.ls_colors_palette` (`black_fg` to `white_bg`). -/
inductive ColorField where
  | norm_fg | norm_bg | alt_fg | alt_bg | sel_fg | sel_bg | curs_fg | curs_bg
  | black_fg | black_bg | red_fg | red_bg | green_fg | green_bg | yellow_fg | yellow_bg
  | blue_fg | blue_bg | magenta_fg | magenta_bg | cyan_fg | cyan_bg | white_fg | white_bg
  deriving DecidableEq, Repr

/-- The key of each colour, `GCMD_SETTINGS_COLORS_NORM_FG` to
`GCMD_SETTINGS_LS_COLORS_WHITE_BG`. The macros are defined in a header that is not
among the sources; the names are those under which `gcmd_connect_gsettings_signals`
connects the change handler of the same colour. -/
def ColorField.key : ColorField → String
  | ColorField.norm_fg => "custom-norm-fg"
  | ColorField.norm_bg => "custom-norm-bg"
  | ColorField.alt_fg => "custom-alt-fg"
  | ColorField.alt_bg => "custom-alt-bg"
  | ColorField.sel_fg => "custom-sel-fg"
  | ColorField.sel_bg => "custom-sel-bg"
  | ColorField.curs_fg => "custom-curs-fg"
  | ColorField.curs_bg => "custom-curs-bg"
  | ColorField.black_fg => "lscm-black-fg"
  | ColorField.black_bg => "lscm-black-bg"
  | ColorField.red_fg => "lscm-red-fg"
  | ColorField.red_bg => "lscm-red-bg"
  | ColorField.green_fg => "lscm-green-fg"
  | ColorField.green_bg => "lscm-green-bg"
  | ColorField.yellow_fg => "lscm-yellow-fg"
  | ColorField.yellow_bg => "lscm-yellow-bg"
  | ColorField.blue_fg => "lscm-blue-fg"
  | ColorField.blue_bg => "lscm-blue-bg"
  | ColorField.magenta_fg => "lscm-magenta-fg"
  | ColorField.magenta_bg => "lscm-magenta-bg"
  | ColorField.cyan_fg => "lscm-cyan-fg"
  | ColorField.cyan_bg => "lscm-cyan-bg"
  | ColorField.white_fg => "lscm-white-fg"
  | ColorField.white_bg => "lscm-white-bg"

/-- The colours in the order in which `load_colors` treats them. -/
def load_colors_order : List ColorField :=
  [ColorField.norm_fg, ColorField.norm_bg, ColorField.alt_fg, ColorField.alt_bg,
   ColorField.sel_fg, ColorField.sel_bg, ColorField.curs_fg, ColorField.curs_bg,
   ColorField.black_fg, ColorField.black_bg, ColorField.red_fg, ColorField.red_bg,
   ColorField.green_fg, ColorField.green_bg, ColorField.yellow_fg, ColorField.yellow_bg,
   ColorField.blue_fg, ColorField.blue_bg, ColorField.magenta_fg, ColorField.magenta_bg,
   ColorField.cyan_fg, ColorField.cyan_bg, ColorField.white_fg, ColorField.white_bg]

/-- The in-memory colours: the `GdkColor` that each field points to. -/
abbrev Colors := ColorField → GdkColor

/-- Embeds the handlers `on_custom_color_norm_fg_changed` to `on_ls_color_white_bg_changed`,
which `gcmd_connect_gsettings_signals` connects to `changed::<key>` of the colour `fld`,
as far as the store and the colours go: the call `set_color_if_valid_key_value (colour,
colors, key)`; what follows it there, the reads of the theme or of `use-ls-colors` and the
call `main_win->update_view ()`, touches neither.
The signal is raised inside every write to the key that the store accepts, so that a
write made by the handler itself runs the handler again; the first argument bounds the
depth of such runs, and the value is `none` when that bound is used up. -/
def on_color_changed (gdk : Gdk) : Nat → ColorField → GSettings → Colors →
    Option (GSettings × Colors)
  | 0, _, _, _ => none
  | fuel + 1, fld, s, colors =>
    match set_color_if_valid_key_value gdk (colors fld) s fld.key with
    | none => none
    | some (color1, s1, wrote) =>
      if wrote = true ∧
          s.accepts fld.key (GVariant.string (gdk.gdk_color_to_string (colors fld))) = true then
        on_color_changed gdk fuel fld s1 (fun x => if x = fld then color1 else colors x)
      else some (s1, fun x => if x = fld then color1 else colors x)

/-- Embeds one `if (set_valid_color_string (...) == FALSE) { ... }` block of
`load_colors`, for the colour `fld`. When `set_valid_color_string` resets the key and the
store accepts that write, `changed::<key>` is raised inside the write and the handler of
the colour runs, with the depth bound `fuel`, before `set_valid_color_string` returns
TRUE. -/
def load_color (gdk : Gdk) (fuel : Nat) (fld : ColorField) (s : GSettings)
    (colors : Colors) : Option (GSettings × Colors) :=
  match set_valid_color_string gdk s fld.key with
  | none => none
  | some (s1, was_reset) =>
    if was_reset = false then
      match g_settings_get_string s1 fld.key with
      | none => none
      | some colorstring =>
        some (s1, fun x =>
          if x = fld then (gnome_cmd_data_parse_color gdk (some colorstring) (colors fld)).1
          else colors x)
    else if s.accepts fld.key (s.default_value fld.key) = true then
      on_color_changed gdk fuel fld s1 colors
    else some (s1, colors)

/-- The blocks of `load_colors` for the colours of a list, one after the other. -/
def load_colors_of (gdk : Gdk) (fuel : Nat) : List ColorField → GSettings → Colors →
    Option (GSettings × Colors)
  | [], s, colors => some (s, colors)
  | fld :: rest, s, colors =>
    match load_color gdk fuel fld s colors with
    | none => none
    | some (s1, colors1) => load_colors_of gdk fuel rest s1 colors1

/-- Embeds `GnomeCmdData::load_colors`, with the handlers of the colour keys connected as
`gcmd_settings_init` leaves them; `fuel` bounds the depth of the handler runs inside one
write. -/
def load_colors (gdk : Gdk) (fuel : Nat) (s : GSettings) (colors : Colors) :
    Option (GSettings × Colors) :=
  load_colors_of gdk fuel load_colors_order s colors

/-- The colours as `GnomeCmdData::load` initialises them before it calls `load_colors`:
every one is `gdk_color_new (0,0,0)`. -/
def load_initial_colors : Colors :=
  fun _ => gdk_color_new 0 0 0

/-! ## Saving the tabs -/

/-- Value `LEFT` of `FileSelectorID` (the enumeration is defined in a header that is not
among the sources; `save_tabs` runs over the ids from `LEFT` to `RIGHT`). -/
def LEFT : Nat := 0

/-- Value `RIGHT` of `FileSelectorID`. -/
def RIGHT : Nat := 1

/-- One tuple that `save_tabs` adds to the array it stores: the real path of the
directory of the tab, the id of the pane, the sort column, the sort order and the lock
flag. -/
structure StoredTab where
  path : String
  fileSelectorId : Nat
  sort_column : Nat
  sort_order : Nat
  locked : Bool
  deriving DecidableEq, Repr

/-- What `save_tabs` reads besides the panes: the two options, whether the connection
`fl->con` of the tab `i` of the pane `id` is local (`gnome_cmd_con_is_local`), and the
real path of a directory (`get_real_path`). -/
structure TabsEnv where
  save_tabs_on_exit : Bool
  save_dirs_on_exit : Bool
  gnome_cmd_con_is_local : Nat → Nat → Bool
  get_real_path : GnomeCmdDir → String

/-- The tuple that `save_tabs` builds for the file list `fl` of the pane `id`, whose
directory is `cwd`: `(realPath, (guchar) fileSelectorId, sort column, sort order,
locked)`. -/
def stored_tab_of (env : TabsEnv) (id : Nat) (fl : GnomeCmdFileList) (cwd : GnomeCmdDir) :
    StoredTab :=
  { path := env.get_real_path cwd, fileSelectorId := id % 256,
    sort_column := fl.sort_col, sort_order := fl.sort_order, locked := fl.locked }

/-- The `g_variant_builder_add` call of `save_tabs` for the file list `fl` of the pane
`id`; `none` when the null `fl->cwd` is dereferenced. -/
def add_tab (env : TabsEnv) (id : Nat) (fl : GnomeCmdFileList) (builder : List StoredTab) :
    Option (List StoredTab) :=
  match fl.cwd with
  | none => none
  | some cwd => some (builder ++ [stored_tab_of env id fl cwd])

/-- Embeds the body of the inner loop of `save_tabs` for the tab `i` of the pane `id`,
whose file list is `fl`. -/
def save_tab (env : TabsEnv) (id : Nat) (fs : GnomeCmdFileSelector) (i : Nat)
    (fl : GnomeCmdFileList) (builder : List StoredTab) : Option (List StoredTab) :=
  if env.save_tabs_on_exit then
    if env.gnome_cmd_con_is_local id i then add_tab env id fl builder
    else some builder
  else
    if env.save_dirs_on_exit then
      if env.gnome_cmd_con_is_local id i && (decide (fs.list = some i) || fl.locked) then
        add_tab env id fl builder
      else some builder
    else
      if env.gnome_cmd_con_is_local id i && fl.locked then add_tab env id fl builder
      else some builder

/-- Embeds the inner loop of `save_tabs` over the tabs of the pane `id`, from the tab with
index `i` on. -/
def save_tabs_of_pane (env : TabsEnv) (id : Nat) (fs : GnomeCmdFileSelector) :
    Nat → List GnomeCmdFileList → List StoredTab → Option (List StoredTab)
  | _, [], builder => some builder
  | i, fl :: rest, builder =>
    match save_tab env id fs i fl builder with
    | none => none
    | some b => save_tabs_of_pane env id fs (i + 1) rest b

/-- Embeds the outer loop of `save_tabs` over the pane ids of a list. -/
def save_tabs_of_panes (env : TabsEnv) (main_win_fs : Nat → GnomeCmdFileSelector) :
    List Nat → List StoredTab → Option (List StoredTab)
  | [], builder => some builder
  | id :: ids, builder =>
    match save_tabs_of_pane env id (main_win_fs id) 0 (main_win_fs id).tabs builder with
    | none => none
    | some b => save_tabs_of_panes env main_win_fs ids b

/-- Embeds `save_tabs`: the array that is handed to `g_settings_set_value`. -/
def save_tabs (env : TabsEnv) (main_win_fs : Nat → GnomeCmdFileSelector) :
    Option (List StoredTab) :=
  save_tabs_of_panes env main_win_fs [LEFT, RIGHT] []

/-- The rule of claim C27 in its words: a tab is stored only if its connection is local,
and among the local tabs every tab with `save_tabs_on_exit`, otherwise with
`save_dirs_on_exit` the tabs that are the active tab of their pane or are locked,
otherwise the locked tabs. -/
def tab_is_stored (env : TabsEnv) (id : Nat) (fs : GnomeCmdFileSelector) (i : Nat)
    (fl : GnomeCmdFileList) : Bool :=
  env.gnome_cmd_con_is_local id i &&
    (if env.save_tabs_on_exit then true
     else if env.save_dirs_on_exit then decide (fs.list = some i) || fl.locked
     else fl.locked)

/-- The environment `env` with the two options replaced. -/
def TabsEnv.with_options (env : TabsEnv) (save_tabs_on_exit save_dirs_on_exit : Bool) :
    TabsEnv :=
  { env with save_tabs_on_exit := save_tabs_on_exit, save_dirs_on_exit := save_dirs_on_exit }

/-! ## Copying the options -/

/-- The fields of `GnomeCmdData::Options` that its copy constructor sets. The declaration
of the class is not among the sources: numbers, flags and enumerations are numbers here,
strings that are copied with `g_strdup` are optional texts, and values that are copied as
a whole (the colour themes, the palette, the filter, the list of favourite applications)
are kept as numbers that name them. `gcmd_settings` is a pointer. -/
structure Options where
  color_themes : List Nat
  left_mouse_button_mode : Nat
  left_mouse_button_unselects : Nat
  middle_mouse_button_mode : Nat
  right_mouse_button_mode : Nat
  select_dirs : Nat
  case_sens_sort : Nat
  quick_search : Nat
  quick_search_exact_match_begin : Nat
  quick_search_exact_match_end : Nat
  allow_multiple_instances : Nat
  save_dirs_on_exit : Nat
  save_tabs_on_exit : Nat
  save_dir_history_on_exit : Nat
  save_cmdline_history_on_exit : Nat
  save_search_history_on_exit : Nat
  symlink_prefix : Option String
  main_win_pos : Int × Int
  size_disp_mode : Nat
  perm_disp_mode : Nat
  date_format : Option String
  list_font : Option String
  list_row_height : Nat
  ext_disp_mode : Nat
  layout : Nat
  color_mode : Nat
  use_ls_colors : Nat
  ls_colors_palette : Nat
  icon_size : Nat
  icon_scale_quality : Nat
  theme_icon_dir : Option String
  always_show_tabs : Nat
  tab_lock_indicator : Nat
  confirm_delete : Nat
  confirm_delete_default : Nat
  confirm_copy_overwrite : Nat
  confirm_move_overwrite : Nat
  confirm_mouse_dnd : Nat
  filter : Nat
  backup_pattern : Option String
  backup_pattern_list : List String
  honor_expect_uris : Nat
  viewer : Option String
  use_internal_viewer : Nat
  editor : Option String
  differ : Option String
  sendto : Option String
  termopen : Option String
  termexec : Option String
  fav_apps : Nat
  device_only_icon : Nat
  skip_mounting : Nat
  gcmd_settings : Option Nat
  deriving DecidableEq, Repr

/-- Embeds the copy constructor `Options::Options (const Options &cfg)`. `patlist_new` is
the function of that name, whose code is not among the sources. -/
def Options.copy (patlist_new : Option String → List String) (cfg : Options) : Options :=
  { color_themes := cfg.color_themes,
    left_mouse_button_mode := cfg.left_mouse_button_mode,
    left_mouse_button_unselects := cfg.left_mouse_button_unselects,
    middle_mouse_button_mode := cfg.middle_mouse_button_mode,
    right_mouse_button_mode := cfg.right_mouse_button_mode,
    select_dirs := cfg.select_dirs,
    case_sens_sort := cfg.case_sens_sort,
    quick_search := cfg.quick_search,
    quick_search_exact_match_begin := cfg.quick_search_exact_match_begin,
    quick_search_exact_match_end := cfg.quick_search_exact_match_end,
    allow_multiple_instances := cfg.allow_multiple_instances,
    save_dirs_on_exit := cfg.save_dirs_on_exit,
    save_tabs_on_exit := cfg.save_tabs_on_exit,
    save_dir_history_on_exit := cfg.save_dir_history_on_exit,
    save_cmdline_history_on_exit := cfg.save_cmdline_history_on_exit,
    save_search_history_on_exit := cfg.save_search_history_on_exit,
    symlink_prefix := cfg.symlink_prefix,
    main_win_pos := (cfg.main_win_pos.1, cfg.main_win_pos.2),
    size_disp_mode := cfg.size_disp_mode,
    perm_disp_mode := cfg.perm_disp_mode,
    date_format := cfg.date_format,
    list_font := cfg.list_font,
    list_row_height := cfg.list_row_height,
    ext_disp_mode := cfg.ext_disp_mode,
    layout := cfg.layout,
    color_mode := cfg.color_mode,
    use_ls_colors := cfg.use_ls_colors,
    ls_colors_palette := cfg.ls_colors_palette,
    icon_size := cfg.icon_size,
    icon_scale_quality := cfg.icon_scale_quality,
    theme_icon_dir := cfg.theme_icon_dir,
    always_show_tabs := cfg.always_show_tabs,
    tab_lock_indicator := cfg.tab_lock_indicator,
    confirm_delete := cfg.confirm_delete,
    confirm_delete_default := cfg.confirm_delete_default,
    confirm_copy_overwrite := cfg.confirm_copy_overwrite,
    confirm_move_overwrite := cfg.confirm_move_overwrite,
    confirm_mouse_dnd := cfg.confirm_mouse_dnd,
    filter := cfg.filter,
    backup_pattern := cfg.backup_pattern,
    backup_pattern_list := patlist_new cfg.backup_pattern,
    honor_expect_uris := cfg.honor_expect_uris,
    viewer := cfg.viewer,
    use_internal_viewer := cfg.use_internal_viewer,
    editor := cfg.editor,
    differ := cfg.differ,
    sendto := cfg.sendto,
    termopen := cfg.termopen,
    termexec := cfg.termexec,
    fav_apps := cfg.fav_apps,
    device_only_icon := cfg.device_only_icon,
    skip_mounting := cfg.skip_mounting,
    gcmd_settings := none }

/-- Embeds `Options::operator = (const Options &cfg)` on the object `self`. `same_object`
is the outcome of the test `this == &cfg`. The destructor call `this->~Options ()`
frees the strings and lists that the assignments below replace; the fields that no
assignment names keep the value they have in `self`. -/
def Options.assign (patlist_new : Option String → List String) (self cfg : Options)
    (same_object : Bool) : Options :=
  if same_object then self
  else
    { self with
      color_themes := cfg.color_themes,
      left_mouse_button_mode := cfg.left_mouse_button_mode,
      left_mouse_button_unselects := cfg.left_mouse_button_unselects,
      middle_mouse_button_mode := cfg.middle_mouse_button_mode,
      right_mouse_button_mode := cfg.right_mouse_button_mode,
      select_dirs := cfg.select_dirs,
      case_sens_sort := cfg.case_sens_sort,
      quick_search := cfg.quick_search,
      quick_search_exact_match_begin := cfg.quick_search_exact_match_begin,
      quick_search_exact_match_end := cfg.quick_search_exact_match_end,
      allow_multiple_instances := cfg.allow_multiple_instances,
      save_dirs_on_exit := cfg.save_dirs_on_exit,
      save_tabs_on_exit := cfg.save_tabs_on_exit,
      save_dir_history_on_exit := cfg.save_dir_history_on_exit,
      save_cmdline_history_on_exit := cfg.save_cmdline_history_on_exit,
      save_search_history_on_exit := cfg.save_search_history_on_exit,
      symlink_prefix := cfg.symlink_prefix,
      main_win_pos := (cfg.main_win_pos.1, cfg.main_win_pos.2),
      size_disp_mode := cfg.size_disp_mode,
      perm_disp_mode := cfg.perm_disp_mode,
      date_format := cfg.date_format,
      list_font := cfg.list_font,
      list_row_height := cfg.list_row_height,
      ext_disp_mode := cfg.ext_disp_mode,
      layout := cfg.layout,
      color_mode := cfg.color_mode,
      use_ls_colors := cfg.use_ls_colors,
      ls_colors_palette := cfg.ls_colors_palette,
      icon_size := cfg.icon_size,
      icon_scale_quality := cfg.icon_scale_quality,
      theme_icon_dir := cfg.theme_icon_dir,
      always_show_tabs := cfg.always_show_tabs,
      tab_lock_indicator := cfg.tab_lock_indicator,
      confirm_delete := cfg.confirm_delete,
      confirm_copy_overwrite := cfg.confirm_copy_overwrite,
      confirm_move_overwrite := cfg.confirm_move_overwrite,
      confirm_mouse_dnd := cfg.confirm_mouse_dnd,
      filter := cfg.filter,
      backup_pattern := cfg.backup_pattern,
      backup_pattern_list := patlist_new cfg.backup_pattern,
      honor_expect_uris := cfg.honor_expect_uris,
      viewer := cfg.viewer,
      use_internal_viewer := cfg.use_internal_viewer,
      editor := cfg.editor,
      differ := cfg.differ,
      sendto := cfg.sendto,
      termopen := cfg.termopen,
      termexec := cfg.termexec,
      fav_apps := cfg.fav_apps,
      device_only_icon := cfg.device_only_icon,
      skip_mounting := cfg.skip_mounting,
      gcmd_settings := none }

/-! ## Profiles of the advanced rename tool -/

/-- A `GnomeCmd::ReplacePattern` as its constructor takes it: the pattern, the
replacement and the match-case flag. -/
structure ReplacePattern where
  pattern : String
  replacement : String
  match_case : Bool
  deriving DecidableEq, Repr

/-- The fields of `AdvrenameConfig::Profile` that are saved and loaded. -/
structure Profile where
  name : String
  template_string : String
  counter_start : Nat
  counter_step : Nat
  counter_width : Nat
  case_conversion : Nat
  trim_blanks : Nat
  regexes : List ReplacePattern
  deriving DecidableEq, Repr

/-- The part of `advrename_defaults` that is saved and loaded: the default profile and
the named profiles. -/
structure AdvrenameConfig where
  default_profile : Profile
  profiles : List Profile
  deriving DecidableEq, Repr

/-- One element of the array stored under `GCMD_SETTINGS_ADVRENAME_PROFILES`: the tuple
that `add_advrename_profile_to_gvariant_builder` builds, with its three arrays. -/
structure StoredProfile where
  name : String
  template_string : String
  counter_start : Nat
  counter_step : Nat
  counter_width : Nat
  case_conversion : Nat
  trim_blanks : Nat
  regexes_from : List String
  regexes_to : List String
  regexes_match_case : List Bool
  deriving DecidableEq, Repr

/-- Embeds `GnomeCmdData::add_advrename_profile_to_gvariant_builder`. -/
def add_advrename_profile_to_gvariant_builder (builder : List StoredProfile)
    (profile : Profile) : List StoredProfile :=
  builder ++
    [{ name := profile.name,
       template_string :=
         if profile.template_string.isEmpty then "$N" else profile.template_string,
       counter_start := profile.counter_start,
       counter_step := profile.counter_step,
       counter_width := profile.counter_width,
       case_conversion := profile.case_conversion,
       trim_blanks := profile.trim_blanks,
       regexes_from := profile.regexes.map (fun r => r.pattern),
       regexes_to := profile.regexes.map (fun r => r.replacement),
       regexes_match_case := profile.regexes.map (fun _ => true) }]

/-- Embeds `GnomeCmdData::save_advrename_profiles`: the array that is handed to
`g_settings_set_value`. -/
def save_advrename_profiles (advrename_defaults : AdvrenameConfig) : List StoredProfile :=
  advrename_defaults.profiles.foldl add_advrename_profile_to_gvariant_builder
    (add_advrename_profile_to_gvariant_builder [] advrename_defaults.default_profile)

/-- Embeds the loop of `load_advrename_profiles` that builds `profile.regexes` for the
indices from `ii` on: `regexes_to->at (ii)` and `regexes_match_case->at (ii)` throw for
an index outside the vector, which gives `none`. -/
def load_regexes (regexes_to : List String) (regexes_match_case : List Bool) :
    Nat → List String → Option (List ReplacePattern)
  | _, [] => some []
  | ii, pattern :: rest =>
    match regexes_to[ii]?, regexes_match_case[ii]? with
    | some replacement, some match_case =>
      match load_regexes regexes_to regexes_match_case (ii + 1) rest with
      | some rs =>
        some ({ pattern := pattern, replacement := replacement, match_case := match_case }
          :: rs)
      | none => none
    | _, _ => none

/-- Embeds `AdvrenameConfig::Profile::reset`: the profile that the call leaves. -/
def Profile.reset : Profile :=
  { name := "", template_string := "$N", counter_start := 1, counter_step := 1,
    counter_width := 0, case_conversion := 0, trim_blanks := 3, regexes := [] }

/-- Embeds the part of the loop body of `load_advrename_profiles` that builds the profile
of one stored tuple: `profile.reset ()`, the assignments of the seven scalar fields, and
the regexes pushed onto `profile.regexes`. -/
def load_profile (sp : StoredProfile) : Option Profile :=
  match load_regexes sp.regexes_to sp.regexes_match_case 0 sp.regexes_from with
  | none => none
  | some rs =>
    some { Profile.reset with
           name := sp.name, template_string := sp.template_string,
           counter_start := sp.counter_start, counter_step := sp.counter_step,
           counter_width := sp.counter_width, case_conversion := sp.case_conversion,
           trim_blanks := sp.trim_blanks, regexes := Profile.reset.regexes ++ rs }

/-- Embeds the `while` loop of `load_advrename_profiles` over the stored tuples, with
`profileNumber` counting them. -/
def load_stored_profiles : Nat → List StoredProfile → AdvrenameConfig →
    Option AdvrenameConfig
  | _, [], cfg => some cfg
  | profileNumber, sp :: rest, cfg =>
    match load_profile sp with
    | none => none
    | some profile =>
      if profileNumber = 0 then
        load_stored_profiles (profileNumber + 1) rest
          { cfg with default_profile := profile }
      else
        load_stored_profiles (profileNumber + 1) rest
          { cfg with profiles := cfg.profiles ++ [profile] }

/-- The two sample profiles that `load_advrename_profiles` adds for an empty array. -/
def new_user_profiles : List Profile :=
  [{ Profile.reset with
     name := "Audio Files",
     template_string := "$T(Audio.AlbumArtist) - $T(Audio.Title).$e",
     regexes := Profile.reset.regexes ++
       [{ pattern := "[ _]+", replacement := " ", match_case := false },
        { pattern := "[fF]eat\\.", replacement := "fr.", match_case := true }],
     counter_width := 1 },
   { Profile.reset with
     name := "CamelCase",
     regexes := Profile.reset.regexes ++
       [{ pattern := "\\s*\\b(\\w)(\\w*)\\b", replacement := "\\u\\1\\L\\2\\E",
          match_case := false },
        { pattern := "\\.(.+)$", replacement := ".\\L\\1", match_case := false }] }]

/-- Embeds `GnomeCmdData::load_advrename_profiles` for the array `stored`. -/
def load_advrename_profiles (stored : List StoredProfile)
    (cfg : AdvrenameConfig) : Option AdvrenameConfig :=
  match load_stored_profiles 0 stored cfg with
  | none => none
  | some cfg1 =>
    if stored.isEmpty then some { cfg1 with profiles := cfg1.profiles ++ new_user_profiles }
    else some cfg1

/-- What `load_profile` makes of the tuple that was saved for `p`: the profile `p` with
the template `$N` for an empty template, and with every match-case flag set. -/
def profile_after_round_trip (p : Profile) : Profile :=
  { p with
    template_string := if p.template_string.isEmpty then "$N" else p.template_string,
    regexes := Profile.reset.regexes ++ p.regexes.map (fun r => { r with match_case := true }) }

/-! ## Sample values -/

/-- Text functions for the examples: case folding is lower-casing, the other two
functions keep the text. -/
def sample_text : GLibText :=
  { get_utf8 := fun s => s,
    g_utf8_casefold := fun s => String.mk (s.data.map Char.toLower),
    g_utf8_collate_key_for_filename := fun s => s }

/-- A GIO that reports every file as a directory with the given disk usage. -/
def gio_directory (usage : Nat) : Gio :=
  { query_fails := fun _ => false,
    standard_type := fun _ => G_FILE_TYPE_DIRECTORY,
    standard_size := fun _ => 4096,
    disk_usage := fun _ => usage }

/-- Metadata of a directory named `Docs`. -/
def sample_dir_info : GnomeVFSFileInfo :=
  { name := "Docs", type := GNOME_VFS_FILE_TYPE_DIRECTORY, permissions := 493,
    uid := 1000, gid := 1000, size := 4096, mtime := 1600000000,
    mime_type := "inode/directory" }

/-- The entry `Docs` as listed in its parent directory `/home/user`. -/
def sample_dir_entry : GnomeCmdFile :=
  gnome_cmd_file_new sample_text false sample_dir_info (some "/home/user")

/-- The entry `Docs` as a directory object of its own, without a parent directory. -/
def sample_dir_object : GnomeCmdFile :=
  gnome_cmd_file_setup sample_text false (gnome_cmd_file_init true) sample_dir_info none

/-- A backing store that refuses every change with `GNOME_VFS_ERROR_GENERIC`. -/
def store_refusing : GnomeVFSFileInfo → Nat → GnomeVFSResult :=
  fun _ _ => 2

/-- A backing store that accepts every change. -/
def store_accepting : GnomeVFSFileInfo → Nat → GnomeVFSResult :=
  fun _ _ => GNOME_VFS_OK

/-- A lookup that fails with `GNOME_VFS_ERROR_NOT_FOUND` and leaves the info as it is. -/
def lookup_failing : Option GnomeVFSURI → GnomeVFSFileInfo → GnomeVFSResult × GnomeVFSFileInfo :=
  fun _ i => (1, i)

/-- A lookup on a file system where a directory exists under every child name of a
directory and nothing else is found: for the child `name` of a directory it succeeds and
reports a directory under that name, for any other URI it fails with
`GNOME_VFS_ERROR_NOT_FOUND`. -/
def lookup_directory : Option GnomeVFSURI → GnomeVFSFileInfo → GnomeVFSResult × GnomeVFSFileInfo :=
  fun uri i =>
    match uri with
    | some (GnomeVFSURI.child (some _) name) =>
      (GNOME_VFS_OK, { sample_dir_info with name := name })
    | _ => (1, i)

/-- A history of three visited directories, the current one being the newest. -/
def sample_history : History :=
  { ents := ["/home", "/home/user", "/home/user/Docs"], pos := 2, is_locked := false,
    max := 20 }

/-- A file list on `/home/user` that shows `Docs` with a cached tree size. -/
def sample_list (locked : Bool) : GnomeCmdFileList :=
  { locked := locked, cwd := some "/home/user",
    visible_files := [{ sample_dir_entry with tree_size := 8192 }], marked_files := [],
    sort_col := 1, sort_order := 0 }

/-- A selector with the single tab `sample_list locked` and the given history. -/
def sample_selector (locked : Bool) (h : Option History) : GnomeCmdFileSelector :=
  { tabs := [sample_list locked], list := some 0, dir_history := h, active := true,
    realized := true, info_label := "", log := [] }

/-- Metadata of the parent-navigation entry `..`. -/
def sample_dotdot_info : GnomeVFSFileInfo :=
  { sample_dir_info with name := ".." }

/-- The entry `..` as listed in `/home/user`, with a tree size left in its cache. -/
def sample_dotdot_entry : GnomeCmdFile :=
  { gnome_cmd_file_new sample_text false sample_dotdot_info (some "/home/user") with
    tree_size := 512 }

/-- A time `ms` milliseconds after the second 1600000000 of the epoch. -/
def sample_time (ms : Nat) : GTimeVal :=
  { tv_sec := 1600000000, tv_usec := 1000 * (ms : Int) }

/-- Metadata of a regular file named `notes.txt` of ten bytes. -/
def sample_file_info : GnomeVFSFileInfo :=
  { name := "notes.txt", type := 1, permissions := 420, uid := 1000, gid := 1000,
    size := 10, mtime := 1600000000, mime_type := "text/plain" }

/-- The entry `notes.txt` as listed in `/home/user`. -/
def sample_file_entry : GnomeCmdFile :=
  gnome_cmd_file_new sample_text false sample_file_info (some "/home/user")

/-- The entry `Docs` with a tree size of `8192` bytes in its cache. -/
def sample_cached_dir : GnomeCmdFile :=
  { sample_dir_entry with tree_size := 8192 }

/-- A GIO that reports `/home/user/notes.txt` as a regular file and every other file as a
directory. -/
def gio_by_name : Gio :=
  { query_fails := fun _ => false,
    standard_type := fun p =>
      if p = "/home/user/notes.txt" then G_FILE_TYPE_REGULAR else G_FILE_TYPE_DIRECTORY,
    standard_size := fun _ => 10,
    disk_usage := fun _ => 4096 }

/-- A size display for the examples: plain numbers. -/
def sample_display : SizeDisplay :=
  { size_disp_mode := 0, GNOME_CMD_SIZE_DISP_MODE_POWERED := 3,
    GNOME_CMD_SIZE_DISP_MODE_GROUPED := 2, size2string := fun n _ => toString n }

/-- A selector whose single, current list shows `visible` with `marked` marked, and whose
label reads `label`. -/
def sample_label_selector (visible marked : List GnomeCmdFile) (label : String) :
    GnomeCmdFileSelector :=
  { tabs := [{ locked := false, cwd := some "/home/user", visible_files := visible,
               marked_files := marked, sort_col := 1, sort_order := 0 }],
    list := some 0, dir_history := none, active := true, realized := true,
    info_label := label, log := [] }

/-- A world for the examples: every directory is displayed as holding `notes.txt`. -/
def sample_world : PaneWorld :=
  { display := sample_display, gio := gio_by_name, listing := fun _ => [sample_file_entry] }

/-- A selector with two tabs, the first one current and on `/home/user`, the second one
in the background on `/tmp`, and the history `sample_history`. -/
def sample_two_tabs : GnomeCmdFileSelector :=
  { tabs := [sample_list false,
             { locked := false, cwd := some "/tmp", visible_files := [], marked_files := [],
               sort_col := 1, sort_order := 0 }],
    list := some 0, dir_history := some sample_history, active := true, realized := true,
    info_label := "", log := [] }

/-- A selector with one unlocked tab and an empty history that keeps at most `max`
entries. -/
def sample_fresh_pane (max : Nat) : GnomeCmdFileSelector :=
  sample_selector false (some { ents := [], pos := 0, is_locked := false, max := max })

/-- An environment for the examples: the current user has uid and gid `1000`, every
directory is local, and the masks are the POSIX execute bits. -/
def sample_exec_env : ExecEnv :=
  { owner_uid := 1000, owner_gid := 1000, gnome_cmd_dir_is_local := fun _ => true,
    GNOME_CMD_PERM_USER_EXEC := 64, GNOME_CMD_PERM_GROUP_EXEC := 8,
    GNOME_CMD_PERM_OTHER_EXEC := 1 }

/-- A GIO that reports every file as a regular file. -/
def gio_regular : Gio :=
  { query_fails := fun _ => false,
    standard_type := fun _ => G_FILE_TYPE_REGULAR,
    standard_size := fun _ => 10,
    disk_usage := fun _ => 10 }

/-- The entry `.bashrc` in `/home/user`, with mode `0744`. -/
def sample_bashrc : GnomeCmdFile :=
  { info := some { name := ".bashrc", type := 1, permissions := 484, uid := 1000,
                   gid := 1000, size := 10, mtime := 1600000000,
                   mime_type := "text/plain" },
    collate_key := ".bashrc", is_dotdot := false, gFile := some "/home/user/.bashrc",
    is_dir_object := false, dir_handle := some (some "/home/user"),
    last_update := { tv_sec := 0, tv_usec := 0 }, ref_cnt := 0,
    tree_size := TREE_SIZE_UNKNOWN, g_ref_count := 1 }

/-- A file system on which every `gnome_vfs_create_symbolic_link` call fails. -/
def vfs_link_failing : Nat → String → GnomeVFSResult :=
  fun _ _ => GNOME_VFS_ERROR_CORRUPTED_DATA

/-- A GDK for the examples that knows two colour strings, the one of black and the one of
white, and writes every colour other than black as the string of white. -/
def sample_gdk : Gdk :=
  { gdk_color_parse := fun s =>
      if s = "#000000000000" then some (gdk_color_new 0 0 0)
      else if s = "#ffffffffffff" then some (gdk_color_new 65535 65535 65535)
      else none,
    gdk_color_to_string := fun c =>
      if c = gdk_color_new 0 0 0 then "#000000000000" else "#ffffffffffff" }

/-- A store for the examples. The key `custom-norm-fg` holds `stored`, `list-row-height`
holds the unsigned number `16`, `size-display-mode` the nick `powered` (number `2`), and
every other key the colour string of black; the default of every colour is white, and
every write is accepted. -/
def sample_settings (stored : String) : GSettings :=
  { value := fun k =>
      if k = "custom-norm-fg" then GVariant.string stored
      else if k = "list-row-height" then GVariant.uint32 16
      else if k = "size-display-mode" then GVariant.string "powered"
      else GVariant.string "#000000000000",
    default_value := fun k =>
      if k = "list-row-height" then GVariant.uint32 16
      else if k = "size-display-mode" then GVariant.string "powered"
      else GVariant.string "#ffffffffffff",
    accepts := fun _ _ => true,
    enum_value := fun _ nick => if nick = "powered" then 2 else 0,
    enum_nick := fun _ v => if v = 2 then some "powered" else if v = 0 then some "plain" else none,
    writes := [] }

/-- A pane with three tabs: the current one on `/home/user`, a locked one on `/srv` and an
unlocked one on `/tmp`. -/
def sample_three_tabs : GnomeCmdFileSelector :=
  { tabs := [{ locked := false, cwd := some "/home/user", visible_files := [],
               marked_files := [], sort_col := 1, sort_order := 0 },
             { locked := true, cwd := some "/srv", visible_files := [], marked_files := [],
               sort_col := 2, sort_order := 1 },
             { locked := false, cwd := some "/tmp", visible_files := [], marked_files := [],
               sort_col := 1, sort_order := 0 }],
    list := some 0, dir_history := none, active := true, realized := true,
    info_label := "", log := [] }

/-- Two panes that both look like `sample_three_tabs`. -/
def sample_panes : Nat → GnomeCmdFileSelector :=
  fun _ => sample_three_tabs

/-- An environment for `save_tabs` with the given options, in which every connection is
local and the real path of a directory is its path. -/
def sample_tabs_env (save_tabs_on_exit save_dirs_on_exit : Bool) : TabsEnv :=
  { save_tabs_on_exit := save_tabs_on_exit, save_dirs_on_exit := save_dirs_on_exit,
    gnome_cmd_con_is_local := fun _ _ => true, get_real_path := fun d => d }

/-- Options for the examples, with the given `confirm_delete_default`. -/
def sample_options (confirm_delete_default : Nat) : Options :=
  { color_themes := [0, 1, 2], left_mouse_button_mode := 0,
    left_mouse_button_unselects := 1, middle_mouse_button_mode := 0,
    right_mouse_button_mode := 0, select_dirs := 1, case_sens_sort := 1, quick_search := 0,
    quick_search_exact_match_begin := 1, quick_search_exact_match_end := 0,
    allow_multiple_instances := 0, save_dirs_on_exit := 1, save_tabs_on_exit := 1,
    save_dir_history_on_exit := 1, save_cmdline_history_on_exit := 1,
    save_search_history_on_exit := 1, symlink_prefix := none, main_win_pos := (0, 0),
    size_disp_mode := 3, perm_disp_mode := 0, date_format := some "%x %R",
    list_font := some "Sans 10", list_row_height := 16, ext_disp_mode := 2, layout := 2,
    color_mode := 1, use_ls_colors := 0, ls_colors_palette := 0, icon_size := 16,
    icon_scale_quality := 2, theme_icon_dir := none, always_show_tabs := 0,
    tab_lock_indicator := 0, confirm_delete := 1,
    confirm_delete_default := confirm_delete_default, confirm_copy_overwrite := 1,
    confirm_move_overwrite := 1, confirm_mouse_dnd := 1, filter := 0,
    backup_pattern := some "*~;*.bak", backup_pattern_list := ["*~", "*.bak"],
    honor_expect_uris := 0, viewer := some "gedit", use_internal_viewer := 1,
    editor := some "gedit", differ := some "meld", sendto := none, termopen := none,
    termexec := none, fav_apps := 0, device_only_icon := 0, skip_mounting := 0,
    gcmd_settings := some 1 }

/-- A default profile with one regex that does not match case, and no named profile. -/
def sample_advrename_config : AdvrenameConfig :=
  { default_profile :=
      { Profile.reset with
        regexes := [{ pattern := "[ _]+", replacement := " ", match_case := false }] },
    profiles := [] }

/-! # Theorems -/

/-! ## Reference counting -/

theorem run_ref_calls_append (xs ys : List RefCall) (f : GnomeCmdFile) :
    run_ref_calls (xs ++ ys) f = run_ref_calls ys (run_ref_calls xs f) := by
  induction xs generalizing f with
  | nil => rfl
  | cons c cs ih => cases c <;> simp [run_ref_calls, ih]

theorem run_refs_count (m : Nat) (f : GnomeCmdFile) (h : 0 ≤ f.ref_cnt) :
    (run_ref_calls (List.replicate m RefCall.ref) f).ref_cnt = f.ref_cnt + m ∧
    (run_ref_calls (List.replicate m RefCall.ref) f).g_ref_count =
      f.g_ref_count + (if f.ref_cnt = 0 ∧ 0 < m then 1 else 0) := by
  induction m generalizing f with
  | zero => simp [run_ref_calls]
  | succ m ih =>
    have hr : f.ref.ref_cnt = f.ref_cnt + 1 := by
      unfold GnomeCmdFile.ref g_object_ref
      dsimp only
      split <;> rfl
    have hg : f.ref.g_ref_count = f.g_ref_count + (if f.ref_cnt = 0 then 1 else 0) := by
      unfold GnomeCmdFile.ref g_object_ref
      dsimp only
      by_cases h0 : f.ref_cnt = 0
      · simp [h0]
      · have : ¬ (f.ref_cnt + 1 = 1) := by omega
        simp [h0, this]
    have ih1 := ih f.ref (by omega)
    simp only [List.replicate_succ, run_ref_calls]
    rw [ih1.1, ih1.2, hr, hg]
    refine ⟨by push_cast; ring, ?_⟩
    by_cases h0 : f.ref_cnt = 0
    · have : ¬ (f.ref_cnt + 1 = 0 ∧ 0 < m) := by omega
      simp [h0]
    · have : ¬ (f.ref_cnt + 1 = 0 ∧ 0 < m) := by omega
      simp [h0, this]

theorem run_unrefs_count (m : Nat) (f : GnomeCmdFile) :
    (run_ref_calls (List.replicate m RefCall.unref) f).g_ref_count =
      f.g_ref_count - (m - (f.ref_cnt - 1).toNat) := by
  induction m generalizing f with
  | zero => simp [run_ref_calls]
  | succ m ih =>
    have hr : f.unref.ref_cnt = f.ref_cnt - 1 := by
      unfold GnomeCmdFile.unref g_object_unref
      dsimp only
      split <;> rfl
    have hg : f.unref.g_ref_count = f.g_ref_count - (if f.ref_cnt - 1 < 1 then 1 else 0) := by
      unfold GnomeCmdFile.unref g_object_unref
      dsimp only
      split <;> simp
    simp only [List.replicate_succ, run_ref_calls]
    rw [ih f.unref, hr, hg]
    by_cases hc : f.ref_cnt - 1 < 1
    · rw [if_pos hc]; omega
    · rw [if_neg hc]; omega

/-- C1. A newly created entry that is referenced `n` times and then released `n + 1`
times is finalized exactly by the last release: after the first `k` calls of that
sequence the object is destroyed if and only if all `2 n + 1` calls have been made. -/
theorem ref_unref_destroys_at_last_release (g : GLibText) (case_sens_sort : Bool)
    (info : GnomeVFSFileInfo) (dir : Option GnomeCmdDir) (n k : Nat) :
    destroyed (run_ref_calls ((ref_then_unref n).take k)
        (gnome_cmd_file_new g case_sens_sort info dir)) = true ↔ 2 * n + 1 ≤ k := by
  set f0 := gnome_cmd_file_new g case_sens_sort info dir with hf0
  have hc : f0.ref_cnt = 0 := by
    simp only [hf0, gnome_cmd_file_new, gnome_cmd_file_setup, gnome_cmd_file_init]
    cases dir <;> dsimp only <;> split <;> rfl
  have hg : f0.g_ref_count = 1 := by
    simp only [hf0, gnome_cmd_file_new, gnome_cmd_file_setup, gnome_cmd_file_init]
    cases dir <;> dsimp only <;> split <;> rfl
  have htake : (ref_then_unref n).take k =
      List.replicate (min k n) RefCall.ref ++
        List.replicate (min (k - n) (n + 1)) RefCall.unref := by
    simp [ref_then_unref, List.take_append_eq_append_take, List.take_replicate]
  rw [htake, run_ref_calls_append]
  have h1 := run_refs_count (min k n) f0 (by omega)
  have h2 := run_unrefs_count (min (k - n) (n + 1))
    (run_ref_calls (List.replicate (min k n) RefCall.ref) f0)
  simp only [destroyed, beq_iff_eq]
  rw [h2, h1.1, h1.2, hc, hg]
  by_cases hk : 0 < min k n
  · rw [if_pos ⟨rfl, hk⟩]; omega
  · rw [if_neg (by tauto)]; omega

/-! ## The cached tree size -/

theorem attribute_of_gFile (gio : Gio) (f f1 : GnomeCmdFile) (a : Gio → GFile → Nat)
    (h : f1.gFile = f.gFile) :
    GetGfileAttributeUInt32 gio f1 a = GetGfileAttributeUInt32 gio f a := by
  simp [GetGfileAttributeUInt32, h]

theorem get_tree_size_of_cached (gio : Gio) (f : GnomeCmdFile)
    (hdir : GetGfileAttributeUInt32 gio f Gio.standard_type = G_FILE_TYPE_DIRECTORY)
    (hdd : f.is_dotdot = false) (hc : f.tree_size ≠ TREE_SIZE_UNKNOWN) :
    get_tree_size gio f = some { value := f.tree_size, file := f, measured := 0 } := by
  simp [get_tree_size, hdir, hdd, hc]

theorem get_tree_size_of_unknown (gio : Gio) (f : GnomeCmdFile) (p : GFile)
    (hdir : GetGfileAttributeUInt32 gio f Gio.standard_type = G_FILE_TYPE_DIRECTORY)
    (hdd : f.is_dotdot = false) (hc : f.tree_size = TREE_SIZE_UNKNOWN)
    (hp : f.gFile = some p) :
    get_tree_size gio f = some
      { value := gio.disk_usage p % GUINT64_RANGE,
        file := { f with tree_size := gio.disk_usage p % GUINT64_RANGE },
        measured := 1 } := by
  simp [get_tree_size, hdir, hdd, hc, calc_tree_size, hp]

theorem gFile_of_directory (gio : Gio) (f : GnomeCmdFile)
    (hdir : GetGfileAttributeUInt32 gio f Gio.standard_type = G_FILE_TYPE_DIRECTORY) :
    ∃ p, f.gFile = some p := by
  cases hg : f.gFile with
  | none => simp [GetGfileAttributeUInt32, hg, G_FILE_TYPE_DIRECTORY] at hdir
  | some p => exact ⟨p, rfl⟩

/-- C2, as stated, fails: an entry with an unknown tree size whose subtree is measured
as `2 ^ 64 - 1` keeps the "unknown" value in its cache, so the second call measures
again and returns what the filesystem reports then (here `0`). -/
theorem get_tree_size_twice_differs_at_reserved_value :
    GetGfileAttributeUInt32 (gio_directory TREE_SIZE_UNKNOWN) sample_dir_entry
        Gio.standard_type = G_FILE_TYPE_DIRECTORY ∧
    GetGfileAttributeUInt32 (gio_directory 0) sample_dir_entry
        Gio.standard_type = G_FILE_TYPE_DIRECTORY ∧
    sample_dir_entry.is_dotdot = false ∧
    (get_tree_size_twice (gio_directory TREE_SIZE_UNKNOWN) (gio_directory 0)
        sample_dir_entry).map (fun r => (r.1.value, r.2.value, r.2.measured)) =
      some (18446744073709551615, 0, 1) := by
  decide

/-- C2, amended. For a directory entry that is not `..`, if the cache is valid already or
the size measured by the first call is not the reserved value `2 ^ 64 - 1`, two
consecutive `get_tree_size` calls return the same value and the second call neither
measures the subtree nor changes the entry, whatever the filesystem reports then. -/
theorem get_tree_size_twice_same (gio1 gio2 : Gio) (f : GnomeCmdFile)
    (hdir1 : GetGfileAttributeUInt32 gio1 f Gio.standard_type = G_FILE_TYPE_DIRECTORY)
    (hdir2 : GetGfileAttributeUInt32 gio2 f Gio.standard_type = G_FILE_TYPE_DIRECTORY)
    (hdd : f.is_dotdot = false)
    (hval : has_tree_size f = true ∨
      ∀ p, f.gFile = some p → gio1.disk_usage p % GUINT64_RANGE ≠ TREE_SIZE_UNKNOWN) :
    ∃ r1 r2, get_tree_size_twice gio1 gio2 f = some (r1, r2) ∧
      r2.value = r1.value ∧ r2.measured = 0 ∧ r2.file = r1.file := by
  by_cases hc : f.tree_size = TREE_SIZE_UNKNOWN
  · obtain ⟨p, hp⟩ := gFile_of_directory gio1 f hdir1
    have hm : gio1.disk_usage p % GUINT64_RANGE ≠ TREE_SIZE_UNKNOWN := by
      rcases hval with h | h
      · simp [has_tree_size, hc] at h
      · exact h p hp
    have e1 := get_tree_size_of_unknown gio1 f p hdir1 hdd hc hp
    have e2 := get_tree_size_of_cached gio2
      { f with tree_size := gio1.disk_usage p % GUINT64_RANGE }
      ((attribute_of_gFile gio2 f _ _ rfl).trans hdir2) hdd hm
    have ht : get_tree_size_twice gio1 gio2 f = some
        ({ value := gio1.disk_usage p % GUINT64_RANGE,
           file := { f with tree_size := gio1.disk_usage p % GUINT64_RANGE },
           measured := 1 },
         { value := gio1.disk_usage p % GUINT64_RANGE,
           file := { f with tree_size := gio1.disk_usage p % GUINT64_RANGE },
           measured := 0 }) := by
      simp only [get_tree_size_twice, e1, e2]
    exact ⟨_, _, ht, rfl, rfl, rfl⟩
  · have e1 := get_tree_size_of_cached gio1 f hdir1 hdd hc
    have e2 := get_tree_size_of_cached gio2 f hdir2 hdd hc
    have ht : get_tree_size_twice gio1 gio2 f = some
        ({ value := f.tree_size, file := f, measured := 0 },
         { value := f.tree_size, file := f, measured := 0 }) := by
      simp only [get_tree_size_twice, e1, e2]
    exact ⟨_, _, ht, rfl, rfl, rfl⟩

theorem get_tree_size_twice_same_witness :
    ∃ r1 r2, get_tree_size_twice (gio_directory 8192) (gio_directory 0) sample_dir_entry
        = some (r1, r2) ∧ r2.value = r1.value ∧ r2.measured = 0 ∧ r2.file = r1.file :=
  get_tree_size_twice_same (gio_directory 8192) (gio_directory 0) sample_dir_entry
    (by decide) (by decide) (by decide) (Or.inr (fun _ _ => show 8192 % GUINT64_RANGE ≠ TREE_SIZE_UNKNOWN by decide))

/-- C3, as stated, fails: when the subtree is measured as `2 ^ 64 - 1`, the call after
`invalidate_tree_size` does measure, but the value it caches is the "unknown" value,
so `has_tree_size` is still false. -/
theorem has_tree_size_false_after_measuring_reserved_value :
    GetGfileAttributeUInt32 (gio_directory TREE_SIZE_UNKNOWN) sample_dir_entry
        Gio.standard_type = G_FILE_TYPE_DIRECTORY ∧
    sample_dir_entry.is_dotdot = false ∧
    (get_tree_size (gio_directory TREE_SIZE_UNKNOWN)
        (invalidate_tree_size sample_dir_entry)).map
      (fun r => (r.value, r.measured, has_tree_size r.file)) =
      some (18446744073709551615, 1, false) := by
  decide

/-- C3, amended. For a directory entry that is not `..`: `invalidate_tree_size` changes
nothing but the cached value, which becomes the "unknown" value (`has_tree_size` is
false); the next `get_tree_size` measures the subtree once, returns the measured size
and caches it; and if that size is not the reserved value `2 ^ 64 - 1`, `has_tree_size`
is true afterwards. -/
theorem get_tree_size_after_invalidate (gio : Gio) (f : GnomeCmdFile) (p : GFile)
    (hdir : GetGfileAttributeUInt32 gio f Gio.standard_type = G_FILE_TYPE_DIRECTORY)
    (hdd : f.is_dotdot = false) (hp : f.gFile = some p)
    (hm : gio.disk_usage p % GUINT64_RANGE ≠ TREE_SIZE_UNKNOWN) :
    invalidate_tree_size f = { f with tree_size := TREE_SIZE_UNKNOWN } ∧
    has_tree_size (invalidate_tree_size f) = false ∧
    get_tree_size gio (invalidate_tree_size f) = some
      { value := gio.disk_usage p % GUINT64_RANGE,
        file := { f with tree_size := gio.disk_usage p % GUINT64_RANGE },
        measured := 1 } ∧
    has_tree_size { f with tree_size := gio.disk_usage p % GUINT64_RANGE } = true := by
  refine ⟨rfl, by simp [has_tree_size, invalidate_tree_size], ?_, ?_⟩
  · have e := get_tree_size_of_unknown gio (invalidate_tree_size f) p
      ((attribute_of_gFile gio f _ _ rfl).trans hdir) hdd rfl hp
    simpa [invalidate_tree_size] using e
  · simpa [has_tree_size] using hm

theorem get_tree_size_after_invalidate_witness :
    has_tree_size (invalidate_tree_size sample_dir_entry) = false ∧
    get_tree_size (gio_directory 8192) (invalidate_tree_size sample_dir_entry) = some
      { value := 8192, file := { sample_dir_entry with tree_size := 8192 }, measured := 1 } :=
  have h := get_tree_size_after_invalidate (gio_directory 8192) sample_dir_entry
    "/home/user/Docs" (by decide) (by decide) (by decide) (by decide)
  ⟨h.2.1, h.2.2.1⟩

/-! ## Rename -/

/-- C4. The code does not report a failed rename: for every entry with metadata and
every new name, when `g_file_set_display_name` fails, `rename` returns `GNOME_VFS_OK`
(and leaves the entry as it was, with no notification). -/
theorem rename_returns_ok_when_display_name_fails (g : GLibText) (case_sens_sort : Bool)
    (f : GnomeCmdFile) (info : GnomeVFSFileInfo) (new_name : String)
    (get_file_info : Option GnomeVFSURI → GnomeVFSFileInfo →
      GnomeVFSResult × GnomeVFSFileInfo) :
    rename g case_sens_sort { f with info := some info } new_name none get_file_info =
      { result := GNOME_VFS_OK, file := { f with info := some info }, notifications := [] } := by
  rfl

/-- C5, as stated, fails: when the display name was changed and the file-info lookup
that follows fails, `rename` returns the lookup's error while `gFile` already is the
handle of the renamed file. -/
theorem rename_replaces_gFile_when_lookup_fails :
    (rename sample_text false sample_dir_entry "Papers" (some "/home/user/Papers")
        lookup_failing).result = 1 ∧
    sample_dir_entry.gFile = some "/home/user/Docs" ∧
    (rename sample_text false sample_dir_entry "Papers" (some "/home/user/Papers")
        lookup_failing).file.gFile = some "/home/user/Papers" := by
  decide

/-- C5, amended. Whenever the display-name change fails or `rename` returns an error,
`info` and `collate_key` are the same as before the call and no notification is sent.
`gFile` is the same as before when the display-name change fails (then the whole entry
is unchanged); when the change succeeded on an entry with metadata, `gFile` is the
handle of the renamed file. -/
theorem rename_failure_keeps_info_and_key (g : GLibText) (case_sens_sort : Bool)
    (f : GnomeCmdFile) (new_name : String) (set_display_name : Option GFile)
    (get_file_info : Option GnomeVFSURI → GnomeVFSFileInfo →
      GnomeVFSResult × GnomeVFSFileInfo)
    (hfail : set_display_name = none ∨
      (rename g case_sens_sort f new_name set_display_name get_file_info).result
        ≠ GNOME_VFS_OK) :
    (rename g case_sens_sort f new_name set_display_name get_file_info).file.info = f.info ∧
    (rename g case_sens_sort f new_name set_display_name get_file_info).file.collate_key
      = f.collate_key ∧
    (rename g case_sens_sort f new_name set_display_name get_file_info).notifications = [] ∧
    (set_display_name = none →
      (rename g case_sens_sort f new_name set_display_name get_file_info).file = f) ∧
    (∀ newgFile, set_display_name = some newgFile → f.info ≠ none →
      (rename g case_sens_sort f new_name set_display_name get_file_info).file.gFile
        = some newgFile) := by
  cases hi : f.info with
  | none => simp [rename, hi]
  | some info =>
    cases set_display_name with
    | none => simp [rename, hi]
    | some newgFile =>
      simp only [rename, hi] at hfail ⊢
      split
      · rename_i hok
        exfalso
        rcases hfail with h | h
        · cases h
        · rw [if_pos hok] at h
          exact h hok.1
      · simp

theorem rename_failure_keeps_info_and_key_witness :
    (rename sample_text false sample_dir_entry "Papers" (some "/home/user/Papers")
        lookup_failing).file.info = sample_dir_entry.info ∧
    (rename sample_text false sample_dir_entry "Papers" (some "/home/user/Papers")
        lookup_failing).file.collate_key = sample_dir_entry.collate_key :=
  have h := rename_failure_keeps_info_and_key sample_text false sample_dir_entry "Papers"
    (some "/home/user/Papers") lookup_failing (Or.inr (by decide))
  ⟨h.1, h.2.1⟩

/-- C6. For an entry with metadata that is listed in a directory or is a directory
object, on a file system where nothing is found under the old path of a renamed directory
object and where a lookup reports an entry under the name it was asked for: whenever the
underlying rename succeeds and `rename` returns `GNOME_VFS_OK`, the entry has a parent
directory, the same object (every other field as before, `gFile` the renamed handle)
holds the snapshot that the lookup of the child `new_name` returned, whose name is
`new_name`, and `collate_key` is the key computed from `new_name` under the configured
case policy (case-folded exactly when `case_sens_sort` is off), which is the key that
`gnome_cmd_file_new` gives an entry created from the same snapshot. -/
theorem rename_success_updates_info_and_key (g : GLibText) (case_sens_sort : Bool)
    (f : GnomeCmdFile) (info : GnomeVFSFileInfo) (new_name : String) (newgFile : GFile)
    (get_file_info : Option GnomeVFSURI → GnomeVFSFileInfo →
      GnomeVFSResult × GnomeVFSFileInfo)
    (hinfo : f.info = some info)
    (hdom : has_parent_dir f = true ∨ f.is_dir_object = true)
    (hold : (get_file_info (some GnomeVFSURI.own_path) (rename_new_info new_name)).1
      ≠ GNOME_VFS_OK)
    (hname : ∀ dir,
      (get_file_info (some (GnomeVFSURI.child (some dir) new_name))
        (rename_new_info new_name)).1 = GNOME_VFS_OK →
      (get_file_info (some (GnomeVFSURI.child (some dir) new_name))
        (rename_new_info new_name)).2.name = new_name)
    (hok : (rename g case_sens_sort f new_name (some newgFile) get_file_info).result
      = GNOME_VFS_OK) :
    ∃ dir snapshot, get_parent_dir f = some dir ∧
      snapshot = (get_file_info (some (GnomeVFSURI.child (some dir) new_name))
        (rename_new_info new_name)).2 ∧
      snapshot.name = new_name ∧
      (rename g case_sens_sort f new_name (some newgFile) get_file_info).file =
        { f with gFile := some newgFile, info := some snapshot,
                 collate_key := compute_collate_key g case_sens_sort new_name } ∧
      (rename g case_sens_sort f new_name (some newgFile) get_file_info).file.collate_key =
        (if case_sens_sort then g.g_utf8_collate_key_for_filename (g.get_utf8 new_name)
         else g.g_utf8_collate_key_for_filename (g.g_utf8_casefold (g.get_utf8 new_name))) ∧
      (∀ d, (rename g case_sens_sort f new_name (some newgFile) get_file_info).file.collate_key =
        (gnome_cmd_file_new g case_sens_sort snapshot d).collate_key) := by
  obtain ⟨fi, ck, dd, gf, ido, dh, lu, rc, ts, grc⟩ := f
  dsimp only at hinfo
  subst hinfo
  rcases dh with _ | _ | d
  · rcases hdom with h | h
    · simp [has_parent_dir] at h
    · dsimp only at h
      subst h
      exfalso
      apply hold
      simpa [rename, get_uri, has_parent_dir] using hok
  · rcases hdom with h | h
    · simp [has_parent_dir] at h
    · dsimp only at h
      subst h
      exfalso
      apply hold
      simpa [rename, get_uri, has_parent_dir] using hok
  · have hlook : (get_file_info (some (GnomeVFSURI.child (some d) new_name))
        (rename_new_info new_name)).1 = GNOME_VFS_OK := by
      by_contra hne
      simp [rename, get_uri, has_parent_dir, get_parent_dir, hne] at hok
    have hn := hname d hlook
    refine ⟨d, _, rfl, rfl, hn, ?_, ?_, ?_⟩
    · simp [rename, get_uri, has_parent_dir, get_parent_dir, hlook, update_info, hn]
    · cases case_sens_sort <;>
        simp [rename, get_uri, has_parent_dir, get_parent_dir, hlook, update_info,
          compute_collate_key, hn]
    · intro dir
      have hf : (rename g case_sens_sort
          { info := some info, collate_key := ck, is_dotdot := dd, gFile := gf,
            is_dir_object := ido, dir_handle := some (some d), last_update := lu,
            ref_cnt := rc, tree_size := ts, g_ref_count := grc }
          new_name (some newgFile) get_file_info).file.collate_key =
          compute_collate_key g case_sens_sort
            (get_file_info (some (GnomeVFSURI.child (some d) new_name))
              (rename_new_info new_name)).2.name := by
        simp [rename, get_uri, has_parent_dir, get_parent_dir, hlook, update_info]
      rw [hf]
      simp only [gnome_cmd_file_new, gnome_cmd_file_setup]
      cases dir <;> dsimp only <;> split <;> rfl

theorem rename_success_updates_info_and_key_witness :
    ∃ dir snapshot, get_parent_dir sample_dir_entry = some dir ∧
      snapshot = (lookup_directory (some (GnomeVFSURI.child (some dir) "Papers"))
        (rename_new_info "Papers")).2 ∧
      snapshot.name = "Papers" ∧
      (rename sample_text false sample_dir_entry "Papers" (some "/home/user/Papers")
          lookup_directory).file =
        { sample_dir_entry with
            gFile := some "/home/user/Papers", info := some snapshot,
            collate_key := compute_collate_key sample_text false "Papers" } ∧
      (rename sample_text false sample_dir_entry "Papers" (some "/home/user/Papers")
          lookup_directory).file.collate_key =
        (if false = true then
          sample_text.g_utf8_collate_key_for_filename (sample_text.get_utf8 "Papers")
         else sample_text.g_utf8_collate_key_for_filename
          (sample_text.g_utf8_casefold (sample_text.get_utf8 "Papers"))) ∧
      (∀ d, (rename sample_text false sample_dir_entry "Papers" (some "/home/user/Papers")
          lookup_directory).file.collate_key =
        (gnome_cmd_file_new sample_text false snapshot d).collate_key) :=
  rename_success_updates_info_and_key sample_text false sample_dir_entry
    sample_dir_info "Papers" "/home/user/Papers" lookup_directory
    (by decide) (by decide) (by decide) (fun _ _ => rfl) (by decide)

/-- On the directory object `Docs` without a parent directory `rename` asks for the
object's own path, where nothing is found after the rename: it returns the error of the
lookup. -/
theorem rename_without_parent_looks_up_own_path :
    has_parent_dir sample_dir_object = false ∧
    get_uri { sample_dir_object with gFile := some "/home/user/Papers" } (some "Papers") =
      some GnomeVFSURI.own_path ∧
    (rename sample_text false sample_dir_object "Papers" (some "/home/user/Papers")
        lookup_directory).result = 1 := by
  decide

/-! ## Permissions and ownership -/

/-- C7, as stated, fails: when the backing store refuses the change, `chmod` and `chown`
return its error, yet the cached snapshot already holds the requested permissions and
owner ids and the parent directory is sent a file-changed notification. -/
theorem chmod_chown_change_snapshot_on_failure :
    (sample_dir_entry.info.map (fun i => (i.permissions, i.uid, i.gid))) =
      some (493, 1000, 1000) ∧
    (chmod store_refusing sample_dir_entry 511).result = 2 ∧
    ((chmod store_refusing sample_dir_entry 511).file.info.map (fun i => i.permissions)) =
      some 511 ∧
    (chmod store_refusing sample_dir_entry 511).notifications =
      [DirNotification.file_changed "/home/user" "Docs"] ∧
    (chown store_refusing sample_dir_entry 0 0).result = 2 ∧
    ((chown store_refusing sample_dir_entry 0 0).file.info.map (fun i => (i.uid, i.gid))) =
      some (0, 0) ∧
    (chown store_refusing sample_dir_entry 0 0).notifications =
      [DirNotification.file_changed "/home/user" "Docs"] := by
  decide

/-- C7, amended. For every entry with metadata, `chmod (perm)` and `chown (uid, gid)`
return exactly the result of the backing store, which is handed the snapshot with the
requested values. Whatever that result is, the cached snapshot afterwards holds the
requested permissions, respectively the requested group id and the requested user id
(the user id stays as it was when `uid` is `(uid_t) -1`), nothing else of the entry
changes, and a file-changed notification is sent to the parent directory exactly when
the entry has a parent directory. -/
theorem chmod_chown_result_and_snapshot (store : GnomeVFSFileInfo → Nat → GnomeVFSResult)
    (f : GnomeCmdFile) (info : GnomeVFSFileInfo) (perm uid gid : Nat)
    (hinfo : f.info = some info) :
    (chmod store f perm).result =
      store { info with permissions := perm } GNOME_VFS_SET_FILE_INFO_PERMISSIONS ∧
    (chmod store f perm).file = { f with info := some { info with permissions := perm } } ∧
    (chmod store f perm).notifications =
      (match f.dir_handle with
       | some (some dir) => [DirNotification.file_changed dir info.name]
       | _ => []) ∧
    (chown store f uid gid).result =
      store { info with uid := if uid ≠ UID_NONE then uid else info.uid, gid := gid }
        GNOME_VFS_SET_FILE_INFO_OWNER ∧
    (chown store f uid gid).file =
      { f with info := some ({ info with
          uid := if uid ≠ UID_NONE then uid else info.uid, gid := gid }) } ∧
    (chown store f uid gid).notifications =
      (match f.dir_handle with
       | some (some dir) => [DirNotification.file_changed dir info.name]
       | _ => []) := by
  obtain ⟨fi, ck, dd, gf, ido, dh, lu, rc, ts, grc⟩ := f
  dsimp only at hinfo
  subst hinfo
  by_cases hu : uid = UID_NONE <;>
    rcases dh with _ | _ | d <;>
      simp [chmod, chown, notify_file_changed, has_parent_dir, get_parent_dir, hu]

theorem chmod_chown_result_and_snapshot_witness :
    (chmod store_accepting sample_dir_entry 511).result = GNOME_VFS_OK ∧
    (chmod store_accepting sample_dir_entry 511).file =
      { sample_dir_entry with info := some { sample_dir_info with permissions := 511 } } ∧
    (chmod store_accepting sample_dir_entry 511).notifications =
      [DirNotification.file_changed "/home/user" "Docs"] :=
  have h := chmod_chown_result_and_snapshot store_accepting sample_dir_entry sample_dir_info
    511 0 0 (by decide)
  ⟨h.1, h.2.1, h.2.2.1⟩

/-! ## Activation routing and locked tabs -/

theorem new_tab_dir_eq (s : GnomeCmdFileSelector) (target : Option GnomeCmdDir) :
    new_tab_dir s target = opened_in_new_tab s target := by
  unfold new_tab_dir opened_in_new_tab opened_tab new_tab
  cases hfl : s.file_list <;> cases target <;> simp

theorem opened_in_new_tab_keeps_page (s : GnomeCmdFileSelector)
    (target : Option GnomeCmdDir) (i : Nat) (fl : GnomeCmdFileList)
    (hfl : s.tabs[i]? = some fl) :
    (opened_in_new_tab s target).tabs[i]? = some fl := by
  have hi : i < s.tabs.length := by
    rcases Nat.lt_or_ge i s.tabs.length with h | h
    · exact h
    · rw [List.getElem?_eq_none h] at hfl; cases hfl
  show (s.tabs ++ [opened_tab s target])[i]? = some fl
  rw [List.getElem?_append_left hi]
  exact hfl

theorem visible_files_set_directory (fl : GnomeCmdFileList) (dir : Option GnomeCmdDir) :
    (fl.set_directory dir).visible_files = fl.visible_files := by
  cases dir <;> rfl

theorem visible_files_goto_directory (fl : GnomeCmdFileList) (dir : Option String) :
    (fl.goto_directory dir).visible_files = fl.visible_files := by
  cases dir with
  | none => rfl
  | some d =>
    simp only [GnomeCmdFileList.goto_directory]
    split
    · exact visible_files_set_directory _ _
    · split <;> exact visible_files_set_directory _ _

theorem invalidated_list_has_no_tree_size (fl : GnomeCmdFileList) (g : GnomeCmdFile)
    (hg : g ∈ fl.invalidate_tree_size.visible_files) : has_tree_size g = false := by
  simp only [GnomeCmdFileList.invalidate_tree_size, List.mem_map] at hg
  obtain ⟨g0, _, rfl⟩ := hg
  simp [has_tree_size, invalidate_tree_size]

theorem do_file_specific_action_locked (gio : Gio) (s : GnomeCmdFileSelector) (i : Nat)
    (fl : GnomeCmdFileList) (f : GnomeCmdFile)
    (hfl : s.tabs[i]? = some fl) (hinfo : f.info.isSome = true)
    (hdir : GetGfileAttributeUInt32 gio f Gio.standard_type = G_FILE_TYPE_DIRECTORY)
    (hl : fl.locked = true) :
    do_file_specific_action gio s i (some f) =
      opened_in_new_tab s
        (if f.is_dotdot then gnome_cmd_dir_get_parent fl.cwd else GNOME_CMD_DIR f) := by
  have hnone : f.info.isNone = false := by
    cases hf : f.info with
    | none => rw [hf] at hinfo; cases hinfo
    | some _ => rfl
  simp only [do_file_specific_action, hfl, hnone, hdir, hl, new_tab_dir_eq]
  simp

/-- C8. `do_file_specific_action (fl, f)` for a file list `fl` (page `i`) and an entry `f`
with metadata. If `f` is a directory and `fl` is locked, the result is `s` with a new tab
opened on the target (the parent of `fl`'s current directory for `..`, else `f`): page
`i` still is `fl` and no navigation call is made. If `f` is a directory and `fl` is not
locked, no page is added, the calls made are `invalidate_tree_size` then the navigation
call (`goto_directory ("..")` for `..`, else `set_directory (f)`), page `i` is the
invalidated and navigated `fl`, and none of its files has a cached tree size. If `f` is
not a directory, nothing changes. -/
theorem do_file_specific_action_routing (gio : Gio) (s : GnomeCmdFileSelector) (i : Nat)
    (fl : GnomeCmdFileList) (f : GnomeCmdFile)
    (hfl : s.tabs[i]? = some fl) (hinfo : f.info.isSome = true) :
    (GetGfileAttributeUInt32 gio f Gio.standard_type = G_FILE_TYPE_DIRECTORY →
      (fl.locked = true →
        do_file_specific_action gio s i (some f) =
          opened_in_new_tab s
            (if f.is_dotdot then gnome_cmd_dir_get_parent fl.cwd else GNOME_CMD_DIR f) ∧
        (do_file_specific_action gio s i (some f)).tabs[i]? = some fl) ∧
      (fl.locked = false →
        do_file_specific_action gio s i (some f) =
          navigated_in_place s i
            (if f.is_dotdot then fl.invalidate_tree_size.goto_directory (some "..")
             else fl.invalidate_tree_size.set_directory (GNOME_CMD_DIR f))
            [SelectorEvent.invalidate_tree_size i,
             if f.is_dotdot then SelectorEvent.goto_directory i (some "..")
             else SelectorEvent.set_directory i (GNOME_CMD_DIR f)] ∧
        (do_file_specific_action gio s i (some f)).tabs.length = s.tabs.length ∧
        ∀ fl1, (do_file_specific_action gio s i (some f)).tabs[i]? = some fl1 →
          ∀ g ∈ fl1.visible_files, has_tree_size g = false)) ∧
    (GetGfileAttributeUInt32 gio f Gio.standard_type ≠ G_FILE_TYPE_DIRECTORY →
      do_file_specific_action gio s i (some f) = s) := by
  have hnone : f.info.isNone = false := by
    cases hf : f.info with
    | none => rw [hf] at hinfo; cases hinfo
    | some _ => rfl
  have hi : i < s.tabs.length := by
    rcases Nat.lt_or_ge i s.tabs.length with h | h
    · exact h
    · rw [List.getElem?_eq_none h] at hfl; cases hfl
  refine ⟨fun hdir => ⟨fun hl => ?_, fun hl => ?_⟩, fun hdir => ?_⟩
  · have e : do_file_specific_action gio s i (some f) =
        opened_in_new_tab s
          (if f.is_dotdot then gnome_cmd_dir_get_parent fl.cwd else GNOME_CMD_DIR f) := by
      simp only [do_file_specific_action, hfl, hnone, hdir, hl, new_tab_dir_eq]
      simp
    exact ⟨e, by rw [e]; exact opened_in_new_tab_keeps_page s _ i fl hfl⟩
  · have e : do_file_specific_action gio s i (some f) =
        navigated_in_place s i
          (if f.is_dotdot then fl.invalidate_tree_size.goto_directory (some "..")
           else fl.invalidate_tree_size.set_directory (GNOME_CMD_DIR f))
          [SelectorEvent.invalidate_tree_size i,
           if f.is_dotdot then SelectorEvent.goto_directory i (some "..")
           else SelectorEvent.set_directory i (GNOME_CMD_DIR f)] := by
      simp only [do_file_specific_action, hfl, hnone, hdir, hl, navigated_in_place, set_tab]
      cases f.is_dotdot <;> simp [List.set_set]
    refine ⟨e, by rw [e]; simp [navigated_in_place], ?_⟩
    intro fl1 h1 g hg
    rw [e] at h1
    simp only [navigated_in_place, List.getElem?_set_self hi, Option.some.injEq] at h1
    subst h1
    have hv : (if f.is_dotdot then fl.invalidate_tree_size.goto_directory (some "..")
        else fl.invalidate_tree_size.set_directory (GNOME_CMD_DIR f)).visible_files =
        fl.invalidate_tree_size.visible_files := by
      split
      · exact visible_files_goto_directory _ _
      · exact visible_files_set_directory _ _
    rw [hv] at hg
    exact invalidated_list_has_no_tree_size fl g hg
  · simp [do_file_specific_action, hfl, hnone, hdir]

theorem do_file_specific_action_routing_witness :
    do_file_specific_action (gio_directory 0) (sample_selector true (some sample_history)) 0
        (some sample_dir_entry) =
      opened_in_new_tab (sample_selector true (some sample_history))
        (some "/home/user/Docs") ∧
    do_file_specific_action (gio_directory 0) (sample_selector false (some sample_history)) 0
        (some sample_dir_entry) =
      navigated_in_place (sample_selector false (some sample_history)) 0
        { locked := false, cwd := some "/home/user/Docs",
          visible_files := [sample_dir_entry], marked_files := [],
          sort_col := 1, sort_order := 0 }
        [SelectorEvent.invalidate_tree_size 0,
         SelectorEvent.set_directory 0 (some "/home/user/Docs")] :=
  ⟨((do_file_specific_action_routing (gio_directory 0)
        (sample_selector true (some sample_history)) 0 (sample_list true) sample_dir_entry
        (by decide) (by decide)).1 (by decide)).1 (by decide) |>.1,
   (((do_file_specific_action_routing (gio_directory 0)
        (sample_selector false (some sample_history)) 0 (sample_list false) sample_dir_entry
        (by decide) (by decide)).1 (by decide)).2 (by decide) |>.1).trans (by decide)⟩

theorem history_jump_locked (guard : History → Bool)
    (move : History → History × Option String) (s : GnomeCmdFileSelector)
    (fl : GnomeCmdFileList) (h : History)
    (hfl : s.file_list = some fl) (hlocked : fl.locked = true)
    (hh : s.dir_history = some h) (hg : guard h = true) :
    history_jump guard move s = some
      { opened_in_new_tab s (gnome_cmd_dir_new (move h.lock).2) with
        dir_history := some (move h.lock).1.unlock } := by
  have hfl1 : GnomeCmdFileSelector.file_list { s with dir_history := some h.lock } = some fl :=
    hfl
  simp only [history_jump, hh, hg, hfl1, hlocked, new_tab_dir_eq]
  simp [opened_in_new_tab, opened_tab, GnomeCmdFileSelector.file_list]

theorem history_jump_guard_fails (guard : History → Bool)
    (move : History → History × Option String) (s : GnomeCmdFileSelector) (h : History)
    (hh : s.dir_history = some h) (hg : guard h = false) :
    history_jump guard move s = some s := by
  simp [history_jump, hh, hg]

theorem history_jump_locked_keeps_page (guard : History → Bool)
    (move : History → History × Option String) (s r : GnomeCmdFileSelector) (i : Nat)
    (fl : GnomeCmdFileList) (hlist : s.list = some i) (hfl : s.tabs[i]? = some fl)
    (hlocked : fl.locked = true) (hr : history_jump guard move s = some r) :
    r.tabs[i]? = some fl := by
  have hcur : s.file_list = some fl := by
    simp [GnomeCmdFileSelector.file_list, hlist, hfl]
  cases hh : s.dir_history with
  | none => simp [history_jump, hh] at hr
  | some h =>
    cases hg : guard h with
    | false =>
      rw [history_jump_guard_fails guard move s h hh hg] at hr
      cases hr
      exact hfl
    | true =>
      rw [history_jump_locked guard move s fl h hcur hlocked hh hg] at hr
      cases hr
      exact opened_in_new_tab_keeps_page s _ i fl hfl

/-- C9. A locked file list is not navigated in place. Let `fl` be locked. Then
`do_file_specific_action (fl, f)` on a directory `f`, the go-to-parent key on the current
list `fl`, and each of `first`, `back`, `forward`, `last` that has a history whose guard
passes, give the selector in which the target was opened in a new tab: the old pages,
`fl` and its current directory among them, are unchanged and the only calls made append
and select the new page (for the history jumps the history has moved and is unlocked
again). When the guard of a history jump fails nothing changes at all. And whatever
the state of the history, no outcome of these calls has another file list on the page
of `fl`. -/
theorem locked_list_opens_new_tab (gio : Gio) (s : GnomeCmdFileSelector) (i : Nat)
    (fl : GnomeCmdFileList) (hfl : s.tabs[i]? = some fl) (hlocked : fl.locked = true) :
    (∀ f : GnomeCmdFile, f.info.isSome = true →
      GetGfileAttributeUInt32 gio f Gio.standard_type = G_FILE_TYPE_DIRECTORY →
      do_file_specific_action gio s i (some f) =
        opened_in_new_tab s
          (if f.is_dotdot then gnome_cmd_dir_get_parent fl.cwd else GNOME_CMD_DIR f)) ∧
    (s.list = some i →
      key_pressed_go_to_parent s = some (opened_in_new_tab s (gnome_cmd_dir_get_parent fl.cwd)) ∧
      ∀ h, s.dir_history = some h →
        (first s = if h.can_back then some
            { opened_in_new_tab s (gnome_cmd_dir_new h.lock.first.2) with
              dir_history := some h.lock.first.1.unlock } else some s) ∧
        (back s = if h.can_back then some
            { opened_in_new_tab s (gnome_cmd_dir_new h.lock.back.2) with
              dir_history := some h.lock.back.1.unlock } else some s) ∧
        (forward s = if h.can_forward then some
            { opened_in_new_tab s (gnome_cmd_dir_new h.lock.forward.2) with
              dir_history := some h.lock.forward.1.unlock } else some s) ∧
        (last s = if h.can_forward then some
            { opened_in_new_tab s (gnome_cmd_dir_new h.lock.last.2) with
              dir_history := some h.lock.last.1.unlock } else some s)) ∧
    (∀ target, (opened_in_new_tab s target).tabs[i]? = some fl ∧
      (opened_in_new_tab s target).tabs.take s.tabs.length = s.tabs) ∧
    (s.list = some i → ∀ r,
      (first s = some r ∨ back s = some r ∨ forward s = some r ∨ last s = some r ∨
        key_pressed_go_to_parent s = some r) → r.tabs[i]? = some fl) := by
  refine ⟨fun f hinfo hdir => ?_, fun hlist => ⟨?_, fun h hh => ?_⟩, fun target => ⟨?_, ?_⟩,
    fun hlist r hr => ?_⟩
  rotate_right
  · rcases hr with hr | hr | hr | hr | hr
    · exact history_jump_locked_keeps_page _ _ s r i fl hlist hfl hlocked hr
    · exact history_jump_locked_keeps_page _ _ s r i fl hlist hfl hlocked hr
    · exact history_jump_locked_keeps_page _ _ s r i fl hlist hfl hlocked hr
    · exact history_jump_locked_keeps_page _ _ s r i fl hlist hfl hlocked hr
    · simp only [key_pressed_go_to_parent, hlist, hfl, hlocked, new_tab_dir_eq] at hr
      simp only [Bool.not_true, Bool.false_eq_true, if_false, Option.some.injEq] at hr
      subst hr
      exact opened_in_new_tab_keeps_page s _ i fl hfl
  · exact do_file_specific_action_locked gio s i fl f hfl hinfo hdir hlocked
  · simp [key_pressed_go_to_parent, hlist, hfl, hlocked, new_tab_dir_eq]
  · have hcur : s.file_list = some fl := by
      simp [GnomeCmdFileSelector.file_list, hlist, hfl]
    refine ⟨?_, ?_, ?_, ?_⟩
    · cases hg : h.can_back
      · simpa using history_jump_guard_fails _ History.first s h hh hg
      · simpa using history_jump_locked _ History.first s fl h hcur hlocked hh hg
    · cases hg : h.can_back
      · simpa using history_jump_guard_fails _ History.back s h hh hg
      · simpa using history_jump_locked _ History.back s fl h hcur hlocked hh hg
    · cases hg : h.can_forward
      · simpa using history_jump_guard_fails _ History.forward s h hh hg
      · simpa using history_jump_locked _ History.forward s fl h hcur hlocked hh hg
    · cases hg : h.can_forward
      · simpa using history_jump_guard_fails _ History.last s h hh hg
      · simpa using history_jump_locked _ History.last s fl h hcur hlocked hh hg
  · exact opened_in_new_tab_keeps_page s target i fl hfl
  · simp [opened_in_new_tab]

theorem locked_list_opens_new_tab_witness :
    back (sample_selector true (some sample_history)) = some
      { opened_in_new_tab (sample_selector true (some sample_history)) (some "/home/user") with
        dir_history := some { sample_history with pos := 1 } } ∧
    key_pressed_go_to_parent (sample_selector true (some sample_history)) = some
      (opened_in_new_tab (sample_selector true (some sample_history)) (some "/home")) :=
  have h := locked_list_opens_new_tab (gio_directory 0)
    (sample_selector true (some sample_history)) 0 (sample_list true) (by decide) (by decide)
  ⟨((h.2.1 rfl).2 sample_history rfl).2.1.trans (by decide),
   (h.2.1 rfl).1.trans (by decide)⟩

/-! ## History jumps without a history -/

theorem back_forward_keep_state_when_guard_fails (s : GnomeCmdFileSelector) (h : History)
    (hh : s.dir_history = some h) :
    (can_back s = false → back s = some s) ∧
    (can_forward s = false → forward s = some s) := by
  constructor
  · intro hc
    have hg : h.can_back = false := by simpa [can_back, hh] using hc
    exact history_jump_guard_fails _ _ s h hh hg
  · intro hc
    have hg : h.can_forward = false := by simpa [can_forward, hh] using hc
    exact history_jump_guard_fails _ _ s h hh hg

/-- C10. On a selector without a history object `can_back ()` and `can_forward ()` return
false, yet `back ()` and `forward ()` are no no-ops: they dereference the null
`dir_history` (outcome `none`). -/
theorem back_forward_dereference_null_history (s : GnomeCmdFileSelector) :
    can_back { s with dir_history := none } = false ∧
    back { s with dir_history := none } = none ∧
    can_forward { s with dir_history := none } = false ∧
    forward { s with dir_history := none } = none := by
  exact ⟨rfl, rfl, rfl, rfl⟩

/-! ## Rate limiting of updates -/

theorem tv2ms_of_range (t : GTimeVal) (h0 : 0 ≤ tv2ms_exact t)
    (h1 : tv2ms_exact t < (GULONG_RANGE : Int)) : (tv2ms t : Int) = tv2ms_exact t := by
  unfold tv2ms
  rw [Int.emod_eq_of_lt h0 h1]
  exact Int.toNat_of_nonneg h0

theorem needs_update_true (r : Nat) (now : GTimeVal) (f : GnomeCmdFile)
    (hl0 : 0 ≤ tv2ms_exact f.last_update) (hn1 : tv2ms_exact now < (GULONG_RANGE : Int))
    (h : tv2ms_exact now - tv2ms_exact f.last_update > (r : Int)) :
    needs_update r now f = (true, { f with last_update := now }) := by
  have hn0 : 0 ≤ tv2ms_exact now := by omega
  have hl1 : tv2ms_exact f.last_update < (GULONG_RANGE : Int) := by omega
  have e1 := tv2ms_of_range now hn0 hn1
  have e2 := tv2ms_of_range f.last_update hl0 hl1
  have hR : (GULONG_RANGE : Int) = 18446744073709551616 := by
    simp [GULONG_RANGE]
  have hRn : GULONG_RANGE = 18446744073709551616 := by simp [GULONG_RANGE]
  have hc : (tv2ms now + GULONG_RANGE - tv2ms f.last_update) % GULONG_RANGE > r := by
    rw [hRn]
    omega
  simp only [needs_update]
  rw [if_pos hc]

theorem needs_update_false (r : Nat) (now : GTimeVal) (f : GnomeCmdFile)
    (hl0 : 0 ≤ tv2ms_exact f.last_update) (hn1 : tv2ms_exact now < (GULONG_RANGE : Int))
    (hle : tv2ms_exact f.last_update ≤ tv2ms_exact now)
    (h : tv2ms_exact now - tv2ms_exact f.last_update ≤ (r : Int)) :
    needs_update r now f = (false, f) := by
  have hn0 : 0 ≤ tv2ms_exact now := by omega
  have hl1 : tv2ms_exact f.last_update < (GULONG_RANGE : Int) := by omega
  have e1 := tv2ms_of_range now hn0 hn1
  have e2 := tv2ms_of_range f.last_update hl0 hl1
  have hR : (GULONG_RANGE : Int) = 18446744073709551616 := by
    simp [GULONG_RANGE]
  have hRn : GULONG_RANGE = 18446744073709551616 := by simp [GULONG_RANGE]
  have hc : ¬ ((tv2ms now + GULONG_RANGE - tv2ms f.last_update) % GULONG_RANGE > r) := by
    rw [hRn]
    omega
  simp only [needs_update]
  rw [if_neg hc]

/-- C14. Let the last approved time of `f` be `t0`, the interval be `r`, and let the
times involved have millisecond values in the range of `gulong`. A call at `t1` with
`ms(t1) - ms(t0) > r` returns TRUE and records `t1`; a following call at `t2` with
`ms(t1) ≤ ms(t2)` and `ms(t2) - ms(t1) ≤ r` returns FALSE and leaves the entry, with the
recorded time `t1`, as it is; a later call at `t3` with `ms(t3) - ms(t1) > r` returns
TRUE and records `t3`. Here `ms(t) = tv_sec*1000 + tv_usec/1000`. -/
theorem needs_update_rate_limit (r : Nat) (f : GnomeCmdFile) (t1 t2 t3 : GTimeVal)
    (h0 : 0 ≤ tv2ms_exact f.last_update)
    (h1 : tv2ms_exact t1 < (GULONG_RANGE : Int))
    (h2 : tv2ms_exact t2 < (GULONG_RANGE : Int))
    (h3 : tv2ms_exact t3 < (GULONG_RANGE : Int))
    (hfirst : tv2ms_exact t1 - tv2ms_exact f.last_update > (r : Int))
    (hafter : tv2ms_exact t1 ≤ tv2ms_exact t2)
    (hwithin : tv2ms_exact t2 - tv2ms_exact t1 ≤ (r : Int))
    (hlater : tv2ms_exact t3 - tv2ms_exact t1 > (r : Int)) :
    needs_update r t1 f = (true, { f with last_update := t1 }) ∧
    needs_update r t2 (needs_update r t1 f).2 = (false, { f with last_update := t1 }) ∧
    needs_update r t3 (needs_update r t2 (needs_update r t1 f).2).2 =
      (true, { f with last_update := t3 }) := by
  have e1 := needs_update_true r t1 f h0 h1 hfirst
  have ht1 : 0 ≤ tv2ms_exact t1 := by omega
  have e2 := needs_update_false r t2 { f with last_update := t1 } ht1 h2 hafter hwithin
  have e3 := needs_update_true r t3 { f with last_update := t1 } ht1 h3 hlater
  refine ⟨e1, ?_, ?_⟩
  · rw [e1]; exact e2
  · rw [e1, e2]; exact e3

theorem needs_update_rate_limit_witness :
    needs_update 10 (sample_time 1000) sample_dir_entry =
      (true, { sample_dir_entry with last_update := sample_time 1000 }) ∧
    needs_update 10 (sample_time 1005)
        (needs_update 10 (sample_time 1000) sample_dir_entry).2 =
      (false, { sample_dir_entry with last_update := sample_time 1000 }) ∧
    needs_update 10 (sample_time 1011)
        (needs_update 10 (sample_time 1005)
          (needs_update 10 (sample_time 1000) sample_dir_entry).2).2 =
      (true, { sample_dir_entry with last_update := sample_time 1011 }) :=
  needs_update_rate_limit 10 sample_dir_entry (sample_time 1000) (sample_time 1005)
    (sample_time 1011) (by decide) (by decide) (by decide) (by decide) (by decide)
    (by decide) (by decide) (by decide)

/-! ## The configured update interval -/

/-- C15. After construction `gui_update_rate` is `100`. `load ()` assigns the stored
value as it is: for the stored values `5` and `60000` the field afterwards is `5`,
below `MIN_GUI_UPDATE_RATE`, respectively `60000`, above `MAX_GUI_UPDATE_RATE`. -/
theorem load_does_not_bound_gui_update_rate :
    GnomeCmdData.create.gui_update_rate = 100 ∧
    (GnomeCmdData.create.load_gui_update_rate 5).gui_update_rate = 5 ∧
    (GnomeCmdData.create.load_gui_update_rate 5).gui_update_rate < MIN_GUI_UPDATE_RATE ∧
    (GnomeCmdData.create.load_gui_update_rate 60000).gui_update_rate = 60000 ∧
    MAX_GUI_UPDATE_RATE < (GnomeCmdData.create.load_gui_update_rate 60000).gui_update_rate := by
  decide

/-! ## Releasing after the last release -/

/-- A newly created entry that was referenced `n` times and released `n + 1` times is
finalized. -/
theorem new_entry_destroyed_after_releases (g : GLibText) (case_sens_sort : Bool)
    (info : GnomeVFSFileInfo) (dir : Option GnomeCmdDir) (n : Nat) :
    destroyed (run_ref_calls (ref_then_unref n)
      (gnome_cmd_file_new g case_sens_sort info dir)) = true := by
  set f0 := gnome_cmd_file_new g case_sens_sort info dir with hf0
  have hc : f0.ref_cnt = 0 := by
    simp only [hf0, gnome_cmd_file_new, gnome_cmd_file_setup, gnome_cmd_file_init]
    cases dir <;> dsimp only <;> split <;> rfl
  have hg : f0.g_ref_count = 1 := by
    simp only [hf0, gnome_cmd_file_new, gnome_cmd_file_setup, gnome_cmd_file_init]
    cases dir <;> dsimp only <;> split <;> rfl
  unfold ref_then_unref
  rw [run_ref_calls_append]
  have h1 := run_refs_count n f0 (by omega)
  have h2 := run_unrefs_count (n + 1) (run_ref_calls (List.replicate n RefCall.ref) f0)
  simp only [destroyed, beq_iff_eq]
  rw [h2, h1.1, h1.2, hc, hg]
  by_cases hk : 0 < n
  · rw [if_pos ⟨rfl, hk⟩]; omega
  · rw [if_neg (by tauto)]; omega

/-- C19, as stated, fails: the entry `Docs` is finalized by the release of its creation
reference, with nothing left to release; a further `unref ()` on it is not stopped by a
failed assertion, it accesses the freed private part. -/
theorem unref_after_last_release_is_not_refused :
    destroyed sample_dir_entry = false ∧
    unref_call sample_dir_entry = UnrefOutcome.released sample_dir_entry.unref ∧
    destroyed sample_dir_entry.unref = true ∧
    unref_call sample_dir_entry.unref = UnrefOutcome.freed_memory_access ∧
    unref_call sample_dir_entry.unref ≠ UnrefOutcome.assertion_failed := by
  decide

/-- C19, amended. `unref ()` has no check of the count. On an object that is finalized,
all its references having been released, the call is not stopped by an assertion: it
accesses the freed private part. On a live object the call always runs: it takes
`ref_cnt` down by one, whatever the count is, and releases one reference of the
underlying object exactly when the new count is below `1`. A newly created entry that
was referenced `n` times and released `n + 1` times is such a finalized object. -/
theorem unref_after_last_release (f : GnomeCmdFile) (hd : destroyed f = true) :
    unref_call f = UnrefOutcome.freed_memory_access ∧
    unref_call f ≠ UnrefOutcome.assertion_failed ∧
    (∀ g : GnomeCmdFile, unref_call g ≠ UnrefOutcome.assertion_failed) ∧
    (∀ (t : GLibText) (case_sens_sort : Bool) (info : GnomeVFSFileInfo)
        (dir : Option GnomeCmdDir) (n : Nat),
      unref_call (run_ref_calls (ref_then_unref n)
        (gnome_cmd_file_new t case_sens_sort info dir)) = UnrefOutcome.freed_memory_access) ∧
    (∀ g : GnomeCmdFile, destroyed g = false →
      unref_call g = UnrefOutcome.released g.unref ∧
      g.unref.ref_cnt = g.ref_cnt - 1 ∧
      g.unref.g_ref_count = (if g.ref_cnt - 1 < 1 then g.g_ref_count - 1 else g.g_ref_count)) := by
  have hcall : unref_call f = UnrefOutcome.freed_memory_access := by
    unfold unref_call
    rw [if_pos hd]
  refine ⟨hcall, ?_, ?_, ?_, ?_⟩
  · rw [hcall]
    exact fun h => UnrefOutcome.noConfusion h
  · intro g
    unfold unref_call
    split
    · exact fun h => UnrefOutcome.noConfusion h
    · exact fun h => UnrefOutcome.noConfusion h
  · intro t case_sens_sort info dir n
    unfold unref_call
    rw [if_pos (new_entry_destroyed_after_releases t case_sens_sort info dir n)]
  · intro g hg
    refine ⟨?_, ?_, ?_⟩
    · unfold unref_call
      rw [hg]
      rfl
    · unfold GnomeCmdFile.unref g_object_unref
      dsimp only
      split <;> rfl
    · unfold GnomeCmdFile.unref g_object_unref
      dsimp only
      split <;> rfl

theorem unref_after_last_release_witness :
    destroyed sample_dir_entry.unref = true ∧
    unref_call sample_dir_entry.unref = UnrefOutcome.freed_memory_access ∧
    unref_call sample_dir_entry.unref ≠ UnrefOutcome.assertion_failed :=
  ⟨by decide,
    (unref_after_last_release sample_dir_entry.unref (by decide)).1,
    (unref_after_last_release sample_dir_entry.unref (by decide)).2.1⟩

/-! ## The parent-navigation entry -/

/-- C20. `is_dotdot` is set at creation exactly when the metadata is that of a directory
named `..`; and for every entry with `is_dotdot` set that GIO reports as a directory,
`get_tree_size ()` returns `0`, asks for no measurement and leaves the entry, its cached
tree size included, unchanged. -/
theorem get_tree_size_of_dotdot (g : GLibText) (case_sens_sort : Bool)
    (info : GnomeVFSFileInfo) (dir : Option GnomeCmdDir) (gio : Gio) (f : GnomeCmdFile)
    (hdir : GetGfileAttributeUInt32 gio f Gio.standard_type = G_FILE_TYPE_DIRECTORY)
    (hdd : f.is_dotdot = true) :
    ((gnome_cmd_file_new g case_sens_sort info dir).is_dotdot = true ↔
      (info.type = GNOME_VFS_FILE_TYPE_DIRECTORY ∧ info.name = "..")) ∧
    get_tree_size gio f = some { value := 0, file := f, measured := 0 } := by
  constructor
  · have e : (gnome_cmd_file_new g case_sens_sort info dir).is_dotdot =
        (decide (info.type = GNOME_VFS_FILE_TYPE_DIRECTORY) && decide (info.name = "..")) := by
      simp only [gnome_cmd_file_new, gnome_cmd_file_setup, gnome_cmd_file_init]
      cases dir <;> dsimp only <;> split <;> rfl
    rw [e]
    simp
  · simp [get_tree_size, hdir, hdd]

theorem get_tree_size_of_dotdot_witness :
    sample_dotdot_entry.is_dotdot = true ∧
    sample_dotdot_entry.tree_size = 512 ∧
    get_tree_size (gio_directory 8192) sample_dotdot_entry =
      some { value := 0, file := sample_dotdot_entry, measured := 0 } :=
  ⟨by decide, by decide,
   (get_tree_size_of_dotdot sample_text false sample_dotdot_info (some "/home/user")
      (gio_directory 8192) sample_dotdot_entry (by decide) (by decide)).2⟩

/-! ## The selection label -/

theorem file_type_constants :
    G_FILE_TYPE_DIRECTORY ≠ G_FILE_TYPE_REGULAR ∧ G_FILE_TYPE_REGULAR ≠ G_FILE_TYPE_DIRECTORY := by
  decide

theorem count_visible_file_eq (gio : Gio) (f : GnomeCmdFile) (t : LabelTotals)
    (r : LabelTotals × GnomeCmdFile × Nat) (ht : t.total_bytes < GUINT64_RANGE)
    (h : count_visible_file gio f t = some r) : r = (visible_step gio f t, f, 0) := by
  have hm : t.total_bytes % GUINT64_RANGE = t.total_bytes := Nat.mod_eq_of_lt ht
  have hn1 := file_type_constants.1
  have hn2 := file_type_constants.2
  unfold count_visible_file at h
  by_cases hd : GetGfileAttributeUInt32 gio f Gio.standard_type = G_FILE_TYPE_DIRECTORY
  · cases hdd : f.is_dotdot
    · by_cases hc : f.tree_size = TREE_SIZE_UNKNOWN
      · have hh : has_tree_size f = false := by simp [has_tree_size, hc]
        simp [hd, hdd, hh] at h
        subst h
        simp [visible_step, regular_bytes, directory_bytes, is_regular, is_directory,
          hd, hdd, hh, hn1, hm]
      · have hh : has_tree_size f = true := by simp [has_tree_size, hc]
        simp [hd, hdd, hh, get_tree_size_of_cached gio f hd hdd hc] at h
        subst h
        simp [visible_step, regular_bytes, directory_bytes, is_regular, is_directory,
          hd, hdd, hh, hn1]
    · simp [hd, hdd] at h
      subst h
      simp [visible_step, regular_bytes, directory_bytes, is_regular, is_directory,
        hd, hdd, hn1, hm]
  · by_cases hr : GetGfileAttributeUInt32 gio f Gio.standard_type = G_FILE_TYPE_REGULAR
    · cases hi : f.info with
      | none => simp [hr, hn2, hi] at h
      | some info =>
        simp [hr, hn2, hi] at h
        subst h
        simp [visible_step, regular_bytes, directory_bytes, is_regular, is_directory,
          hr, hn2, hi]
    · simp [hd, hr] at h
      subst h
      simp [visible_step, regular_bytes, directory_bytes, is_regular, is_directory,
        hd, hr, hm]

theorem count_marked_file_eq (gio : Gio) (f : GnomeCmdFile) (t : LabelTotals)
    (r : LabelTotals × GnomeCmdFile × Nat) (ht : t.sel_bytes < GUINT64_RANGE)
    (h : count_marked_file gio f t = some r) : r = (marked_step gio f t, f, 0) := by
  have hm : t.sel_bytes % GUINT64_RANGE = t.sel_bytes := Nat.mod_eq_of_lt ht
  have hn1 := file_type_constants.1
  have hn2 := file_type_constants.2
  unfold count_marked_file at h
  by_cases hd : GetGfileAttributeUInt32 gio f Gio.standard_type = G_FILE_TYPE_DIRECTORY
  · by_cases hc : f.tree_size = TREE_SIZE_UNKNOWN
    · have hh : has_tree_size f = false := by simp [has_tree_size, hc]
      simp [hd, hh] at h
      subst h
      simp [marked_step, regular_bytes, directory_bytes, is_regular, is_directory,
        hd, hh, hn1, hm]
    · have hh : has_tree_size f = true := by simp [has_tree_size, hc]
      cases hdd : f.is_dotdot
      · simp [hd, hh, get_tree_size_of_cached gio f hd hdd hc] at h
        subst h
        simp [marked_step, regular_bytes, directory_bytes, is_regular, is_directory,
          hd, hdd, hh, hn1]
      · have e : get_tree_size gio f = some { value := 0, file := f, measured := 0 } := by
          simp [get_tree_size, hd, hdd]
        simp [hd, hh, e] at h
        subst h
        simp [marked_step, regular_bytes, directory_bytes, is_regular, is_directory,
          hd, hdd, hh, hn1, hm]
  · by_cases hr : GetGfileAttributeUInt32 gio f Gio.standard_type = G_FILE_TYPE_REGULAR
    · cases hi : f.info with
      | none => simp [hr, hn2, hi] at h
      | some info =>
        simp [hr, hn2, hi] at h
        subst h
        simp [marked_step, regular_bytes, directory_bytes, is_regular, is_directory,
          hr, hn2, hi]
    · simp [hd, hr] at h
      subst h
      simp [marked_step, regular_bytes, directory_bytes, is_regular, is_directory,
        hd, hr, hm]

theorem visible_totals_cons (gio : Gio) (f : GnomeCmdFile) (fs : List GnomeCmdFile)
    (t : LabelTotals) :
    visible_totals gio fs (visible_step gio f t) = visible_totals gio (f :: fs) t := by
  simp only [visible_totals, visible_step, sum_regular_bytes, sum_directory_bytes,
    List.map_cons, List.sum_cons, List.filter_cons]
  have e1 : ((t.total_bytes + (regular_bytes gio f + directory_bytes gio f)) % GUINT64_RANGE +
      ((List.map (regular_bytes gio) fs).sum + (List.map (directory_bytes gio) fs).sum)) %
        GUINT64_RANGE =
      (t.total_bytes + (regular_bytes gio f + (List.map (regular_bytes gio) fs).sum +
        (directory_bytes gio f + (List.map (directory_bytes gio) fs).sum))) % GUINT64_RANGE := by
    rw [Nat.mod_add_mod]
    congr 1
    omega
  rw [e1]
  congr 1
  · cases is_regular gio f
    · simp
    · simp; omega
  · cases (is_directory gio f && !f.is_dotdot)
    · simp
    · simp; omega

theorem marked_totals_cons (gio : Gio) (f : GnomeCmdFile) (fs : List GnomeCmdFile)
    (t : LabelTotals) :
    marked_totals gio fs (marked_step gio f t) = marked_totals gio (f :: fs) t := by
  simp only [marked_totals, marked_step, sum_regular_bytes, sum_directory_bytes,
    List.map_cons, List.sum_cons, List.filter_cons]
  have e1 : ((t.sel_bytes + (regular_bytes gio f + directory_bytes gio f)) % GUINT64_RANGE +
      ((List.map (regular_bytes gio) fs).sum + (List.map (directory_bytes gio) fs).sum)) %
        GUINT64_RANGE =
      (t.sel_bytes + (regular_bytes gio f + (List.map (regular_bytes gio) fs).sum +
        (directory_bytes gio f + (List.map (directory_bytes gio) fs).sum))) % GUINT64_RANGE := by
    rw [Nat.mod_add_mod]
    congr 1
    omega
  rw [e1]
  congr 1
  · cases is_regular gio f
    · simp
    · simp; omega
  · cases is_directory gio f
    · simp
    · simp; omega

theorem guint64_range_pos : 0 < GUINT64_RANGE := by
  decide

theorem count_visible_files_eq (gio : Gio) (fs : List GnomeCmdFile) (t : LabelTotals)
    (r : LabelTotals × List GnomeCmdFile × Nat) (ht : t.total_bytes < GUINT64_RANGE)
    (h : count_visible_files gio fs t = some r) : r = (visible_totals gio fs t, fs, 0) := by
  induction fs generalizing t r with
  | nil =>
    simp only [count_visible_files, Option.some.injEq] at h
    subst h
    simp [visible_totals, sum_regular_bytes, sum_directory_bytes, Nat.mod_eq_of_lt ht]
  | cons f fs ih =>
    simp only [count_visible_files] at h
    cases h1 : count_visible_file gio f t with
    | none => simp [h1] at h
    | some r1 =>
      have e1 := count_visible_file_eq gio f t r1 ht h1
      subst e1
      have ht1 : (visible_step gio f t).total_bytes < GUINT64_RANGE :=
        Nat.mod_lt _ guint64_range_pos
      cases h2 : count_visible_files gio fs (visible_step gio f t) with
      | none => simp [h1, h2] at h
      | some r2 =>
        have e2 := ih (visible_step gio f t) r2 ht1 h2
        subst e2
        simp only [h1, h2, Option.some.injEq] at h
        subst h
        simp [visible_totals_cons]

theorem count_marked_files_eq (gio : Gio) (fs : List GnomeCmdFile) (t : LabelTotals)
    (r : LabelTotals × List GnomeCmdFile × Nat) (ht : t.sel_bytes < GUINT64_RANGE)
    (h : count_marked_files gio fs t = some r) : r = (marked_totals gio fs t, fs, 0) := by
  induction fs generalizing t r with
  | nil =>
    simp only [count_marked_files, Option.some.injEq] at h
    subst h
    simp [marked_totals, sum_regular_bytes, sum_directory_bytes, Nat.mod_eq_of_lt ht]
  | cons f fs ih =>
    simp only [count_marked_files] at h
    cases h1 : count_marked_file gio f t with
    | none => simp [h1] at h
    | some r1 =>
      have e1 := count_marked_file_eq gio f t r1 ht h1
      subst e1
      have ht1 : (marked_step gio f t).sel_bytes < GUINT64_RANGE :=
        Nat.mod_lt _ guint64_range_pos
      cases h2 : count_marked_files gio fs (marked_step gio f t) with
      | none => simp [h1, h2] at h
      | some r2 =>
        have e2 := ih (marked_step gio f t) r2 ht1 h2
        subst e2
        simp only [h1, h2, Option.some.injEq] at h
        subst h
        simp [marked_totals_cons]

theorem count_visible_file_total (gio : Gio) (f : GnomeCmdFile) (t : LabelTotals)
    (hinfo : f.info.isSome = true) : ∃ r, count_visible_file gio f t = some r := by
  obtain ⟨info, hi⟩ := Option.isSome_iff_exists.mp hinfo
  unfold count_visible_file
  by_cases hd : GetGfileAttributeUInt32 gio f Gio.standard_type = G_FILE_TYPE_DIRECTORY
  · cases hdd : f.is_dotdot
    · by_cases hc : f.tree_size = TREE_SIZE_UNKNOWN
      · have hh : has_tree_size f = false := by simp [has_tree_size, hc]
        simp [hd, hdd, hh]
      · have hh : has_tree_size f = true := by simp [has_tree_size, hc]
        simp [hd, hdd, hh, get_tree_size_of_cached gio f hd hdd hc]
    · simp [hd, hdd]
  · by_cases hr : GetGfileAttributeUInt32 gio f Gio.standard_type = G_FILE_TYPE_REGULAR
    · simp [hr, file_type_constants.2, hi]
    · simp [hd, hr]

theorem count_marked_file_total (gio : Gio) (f : GnomeCmdFile) (t : LabelTotals)
    (hinfo : f.info.isSome = true) : ∃ r, count_marked_file gio f t = some r := by
  obtain ⟨info, hi⟩ := Option.isSome_iff_exists.mp hinfo
  unfold count_marked_file
  by_cases hd : GetGfileAttributeUInt32 gio f Gio.standard_type = G_FILE_TYPE_DIRECTORY
  · by_cases hc : f.tree_size = TREE_SIZE_UNKNOWN
    · have hh : has_tree_size f = false := by simp [has_tree_size, hc]
      simp [hd, hh]
    · have hh : has_tree_size f = true := by simp [has_tree_size, hc]
      cases hdd : f.is_dotdot
      · simp [hd, hh, get_tree_size_of_cached gio f hd hdd hc]
      · have e : get_tree_size gio f = some { value := 0, file := f, measured := 0 } := by
          simp [get_tree_size, hd, hdd]
        simp [hd, hh, e]
  · by_cases hr : GetGfileAttributeUInt32 gio f Gio.standard_type = G_FILE_TYPE_REGULAR
    · simp [hr, file_type_constants.2, hi]
    · simp [hd, hr]

theorem count_visible_files_total (gio : Gio) (fs : List GnomeCmdFile) (t : LabelTotals)
    (hinfo : ∀ f ∈ fs, f.info.isSome = true) : ∃ r, count_visible_files gio fs t = some r := by
  induction fs generalizing t with
  | nil => exact ⟨_, rfl⟩
  | cons f fs ih =>
    obtain ⟨r1, h1⟩ := count_visible_file_total gio f t (hinfo f (List.mem_cons_self _ _))
    obtain ⟨r2, h2⟩ := ih r1.1 (fun g hg => hinfo g (List.mem_cons_of_mem _ hg))
    exact ⟨(r2.1, r1.2.1 :: r2.2.1, r1.2.2 + r2.2.2), by simp only [count_visible_files, h1, h2]⟩

theorem count_marked_files_total (gio : Gio) (fs : List GnomeCmdFile) (t : LabelTotals)
    (hinfo : ∀ f ∈ fs, f.info.isSome = true) : ∃ r, count_marked_files gio fs t = some r := by
  induction fs generalizing t with
  | nil => exact ⟨_, rfl⟩
  | cons f fs ih =>
    obtain ⟨r1, h1⟩ := count_marked_file_total gio f t (hinfo f (List.mem_cons_self _ _))
    obtain ⟨r2, h2⟩ := ih r1.1 (fun g hg => hinfo g (List.mem_cons_of_mem _ hg))
    exact ⟨(r2.1, r1.2.1 :: r2.2.1, r1.2.2 + r2.2.2), by simp only [count_marked_files, h1, h2]⟩

theorem count_files_eq (gio : Gio) (visible marked : List GnomeCmdFile)
    (r : LabelTotals × List GnomeCmdFile × List GnomeCmdFile × Nat)
    (h : count_files gio visible marked = some r) :
    r = (marked_totals gio marked (visible_totals gio visible LabelTotals.zero),
         visible, marked, 0) := by
  simp only [count_files] at h
  cases h1 : count_visible_files gio visible LabelTotals.zero with
  | none => simp [h1] at h
  | some r1 =>
    have e1 := count_visible_files_eq gio visible LabelTotals.zero r1 (by decide) h1
    subst e1
    cases h2 : count_marked_files gio marked (visible_totals gio visible LabelTotals.zero) with
    | none => simp [h1, h2] at h
    | some r2 =>
      have e2 := count_marked_files_eq gio marked _ r2
        (show (0 : Nat) < GUINT64_RANGE from guint64_range_pos) h2
      subst e2
      simp only [h1, h2, Option.some.injEq] at h
      subst h
      rfl

theorem count_files_total (gio : Gio) (visible marked : List GnomeCmdFile)
    (hv : ∀ f ∈ visible, f.info.isSome = true) (hm : ∀ f ∈ marked, f.info.isSome = true) :
    count_files gio visible marked =
      some (marked_totals gio marked (visible_totals gio visible LabelTotals.zero),
            visible, marked, 0) := by
  obtain ⟨r1, h1⟩ := count_visible_files_total gio visible LabelTotals.zero hv
  obtain ⟨r2, h2⟩ := count_marked_files_total gio marked r1.1 hm
  have h : count_files gio visible marked = some (r2.1, r1.2.1, r2.2.1, r1.2.2 + r2.2.2) := by
    simp only [count_files, h1, h2]
  rw [h, count_files_eq gio visible marked _ h]

theorem set_tab_same (s : GnomeCmdFileSelector) (i : Nat) (fl : GnomeCmdFileList)
    (hfl : s.tabs[i]? = some fl) : s.tabs.set i fl = s.tabs := by
  apply List.ext_getElem?
  intro j
  by_cases hj : i = j
  · subst hj
    have hi : i < s.tabs.length := by
      rcases Nat.lt_or_ge i s.tabs.length with h | h
      · exact h
      · rw [List.getElem?_eq_none h] at hfl; cases hfl
    rw [List.getElem?_set_self hi, hfl]
  · rw [List.getElem?_set_ne hj]

theorem update_selected_files_label_eq (d : SizeDisplay) (gio : Gio)
    (s r : GnomeCmdFileSelector) (i : Nat) (fl : GnomeCmdFileList)
    (hlist : s.list = some i) (hfl : s.tabs[i]? = some fl) (hne : fl.visible_files ≠ [])
    (h : update_selected_files_label d gio s = some r) :
    r = { s with
      info_label := format_info_label d
        (marked_totals gio fl.marked_files (visible_totals gio fl.visible_files LabelTotals.zero)),
      log := s.log ++ [SelectorEvent.label_set_text (format_info_label d
        (marked_totals gio fl.marked_files
          (visible_totals gio fl.visible_files LabelTotals.zero)))] } := by
  simp only [update_selected_files_label, hlist, hfl, hne, if_false] at h
  cases hc : count_files gio fl.visible_files fl.marked_files with
  | none => simp [hc] at h
  | some c =>
    have e := count_files_eq gio fl.visible_files fl.marked_files c hc
    subst e
    simp only [hc, Option.some.injEq] at h
    subst h
    simp [set_tab, set_tab_same s i fl hfl]

theorem update_selected_files_label_total (d : SizeDisplay) (gio : Gio)
    (s : GnomeCmdFileSelector) (i : Nat) (fl : GnomeCmdFileList)
    (hl : s.list = some i) (hfl : s.tabs[i]? = some fl)
    (hv : ∀ f ∈ fl.visible_files, f.info.isSome = true)
    (hm : ∀ f ∈ fl.marked_files, f.info.isSome = true) :
    ∃ r, update_selected_files_label d gio s = some r := by
  by_cases hne : fl.visible_files = []
  · exact ⟨s, by simp [update_selected_files_label, hl, hfl, hne]⟩
  · have hc := count_files_total gio fl.visible_files fl.marked_files hv hm
    cases hu : update_selected_files_label d gio s with
    | some r => exact ⟨r, rfl⟩
    | none => simp [update_selected_files_label, hl, hfl, hne, hc] at hu

/-- C16. The two loops of `update_selected_files_label`, whenever they run to their end,
leave every visible and every marked entry as it was and ask GIO for no measurement;
the all-visible byte total is the sum, modulo `2 ^ 64`, of what the visible entries
contribute and the selected byte total that of what the marked entries contribute,
where a directory without a cached tree size contributes zero. The refresh changes no
file list of the selector, hence no tree-size cache; and it runs to its end when all
entries of the current list have metadata. -/
theorem label_uses_cached_tree_sizes_only (d : SizeDisplay) (gio : Gio)
    (s : GnomeCmdFileSelector) :
    (∀ visible marked r, count_files gio visible marked = some r →
      r.2.1 = visible ∧ r.2.2.1 = marked ∧ r.2.2.2 = 0 ∧
      r.1.total_bytes =
        (sum_regular_bytes gio visible + sum_directory_bytes gio visible) % GUINT64_RANGE ∧
      r.1.sel_bytes =
        (sum_regular_bytes gio marked + sum_directory_bytes gio marked) % GUINT64_RANGE) ∧
    (∀ f, is_directory gio f = true → has_tree_size f = false →
      regular_bytes gio f = 0 ∧ directory_bytes gio f = 0) ∧
    (∀ r, update_selected_files_label d gio s = some r → r.tabs = s.tabs) ∧
    (∀ i fl, s.list = some i → s.tabs[i]? = some fl →
      (∀ f ∈ fl.visible_files, f.info.isSome = true) →
      (∀ f ∈ fl.marked_files, f.info.isSome = true) →
      ∃ r, update_selected_files_label d gio s = some r) := by
  refine ⟨?_, ?_, ?_, ?_⟩
  · intro visible marked r h
    have e := count_files_eq gio visible marked r h
    subst e
    simp [marked_totals, visible_totals, LabelTotals.zero]
  · intro f hd hc
    have hd1 : GetGfileAttributeUInt32 gio f Gio.standard_type = G_FILE_TYPE_DIRECTORY := by
      simpa [is_directory] using hd
    simp [regular_bytes, directory_bytes, hd1, hc, file_type_constants.1]
  · intro r h
    cases hl : s.list with
    | none => simp [update_selected_files_label, hl] at h
    | some i =>
      cases hfl : s.tabs[i]? with
      | none => simp [update_selected_files_label, hl, hfl] at h
      | some fl =>
        by_cases hne : fl.visible_files = []
        · simp only [update_selected_files_label, hl, hfl, hne, if_true,
            Option.some.injEq] at h
          subst h
          rfl
        · rw [update_selected_files_label_eq d gio s r i fl hl hfl hne h]
  · intro i fl hl hfl hv hm
    by_cases hne : fl.visible_files = []
    · exact ⟨s, by simp [update_selected_files_label, hl, hfl, hne]⟩
    · have hc := count_files_total gio fl.visible_files fl.marked_files hv hm
      cases hu : update_selected_files_label d gio s with
      | some r => exact ⟨r, rfl⟩
      | none => simp [update_selected_files_label, hl, hfl, hne, hc] at hu

theorem label_uses_cached_tree_sizes_only_witness :
    (count_files gio_by_name [sample_file_entry, sample_dir_entry] [sample_dir_entry]).map
        (fun r => (r.1.total_bytes, r.1.sel_bytes, r.2.2.2)) = some (10, 0, 0) ∧
    regular_bytes gio_by_name sample_dir_entry = 0 ∧
    directory_bytes gio_by_name sample_dir_entry = 0 :=
  have h := label_uses_cached_tree_sizes_only sample_display gio_by_name
    (sample_label_selector [sample_file_entry, sample_dir_entry] [sample_dir_entry] "")
  ⟨by decide, h.2.1 sample_dir_entry (by decide) (by decide)⟩

theorem sum_regular_bytes_filter (gio : Gio) (fs : List GnomeCmdFile) :
    sum_regular_bytes gio (fs.filter (is_regular gio)) = sum_regular_bytes gio fs := by
  induction fs with
  | nil => rfl
  | cons f fs ih =>
    simp only [sum_regular_bytes] at ih
    by_cases hr : GetGfileAttributeUInt32 gio f Gio.standard_type = G_FILE_TYPE_REGULAR
    · have h1 : is_regular gio f = true := by simp [is_regular, hr]
      simp [sum_regular_bytes, List.filter_cons, h1, ih]
    · have h1 : is_regular gio f = false := by simp [is_regular, hr]
      simp [sum_regular_bytes, List.filter_cons, h1, ih, regular_bytes, hr]

theorem sum_directory_bytes_filter (gio : Gio) (fs : List GnomeCmdFile) :
    sum_directory_bytes gio (fs.filter (is_regular gio)) = 0 := by
  induction fs with
  | nil => rfl
  | cons f fs ih =>
    simp only [sum_directory_bytes] at ih
    by_cases hr : GetGfileAttributeUInt32 gio f Gio.standard_type = G_FILE_TYPE_REGULAR
    · have h1 : is_regular gio f = true := by simp [is_regular, hr]
      simp [sum_directory_bytes, List.filter_cons, h1, ih, directory_bytes, hr,
        file_type_constants.2]
    · have h1 : is_regular gio f = false := by simp [is_regular, hr]
      simp [sum_directory_bytes, List.filter_cons, h1, ih]

theorem filter_directory_of_regular (gio : Gio) (fs : List GnomeCmdFile) :
    (fs.filter (is_regular gio)).filter (is_directory gio) = [] := by
  rw [List.filter_filter, List.filter_eq_nil_iff]
  intro f _
  by_cases hr : GetGfileAttributeUInt32 gio f Gio.standard_type = G_FILE_TYPE_REGULAR
  · simp [is_directory, hr, file_type_constants.2]
  · simp [is_regular, hr]

/-- C17, as stated, fails: with `notes.txt` (10 bytes) and the directory `Docs` (cached
tree size 8192) visible and exactly the regular file marked, the selected file count
equals the visible file count, but the selected byte total is `10` while the
all-visible byte total is `8202`. -/
theorem selected_bytes_differ_from_visible_bytes :
    [sample_file_entry, sample_cached_dir].filter (is_regular gio_by_name) =
      [sample_file_entry] ∧
    (count_files gio_by_name [sample_file_entry, sample_cached_dir] [sample_file_entry]).map
        (fun r => (r.1.num_sel_files, r.1.num_files, r.1.sel_bytes, r.1.total_bytes)) =
      some (1, 1, 10, 8202) := by
  decide

/-- C17, amended. When the marked files are exactly the visible regular files (all with
metadata), the loops of `update_selected_files_label` run to their end with: the
selected file count equal to the visible file count; no selected directory; the
selected byte total equal to the sum of the sizes of the visible regular files; and the
all-visible byte total equal to the selected byte total plus the cached tree sizes of
the visible directories other than `..` (sums modulo `2 ^ 64`). So the two byte totals
are equal when those cached tree sizes add up to zero. -/
theorem selected_totals_when_regular_files_marked (gio : Gio) (visible : List GnomeCmdFile)
    (hinfo : ∀ f ∈ visible, f.info.isSome = true) :
    ∃ r, count_files gio visible (visible.filter (is_regular gio)) = some r ∧
      r.1.num_sel_files = r.1.num_files ∧
      r.1.num_sel_dirs = 0 ∧
      r.1.sel_bytes = sum_regular_bytes gio visible % GUINT64_RANGE ∧
      r.1.total_bytes = (r.1.sel_bytes + sum_directory_bytes gio visible) % GUINT64_RANGE ∧
      (sum_directory_bytes gio visible = 0 → r.1.sel_bytes = r.1.total_bytes) := by
  have hm : ∀ f ∈ visible.filter (is_regular gio), f.info.isSome = true :=
    fun f hf => hinfo f (List.mem_of_mem_filter hf)
  have hc := count_files_total gio visible (visible.filter (is_regular gio)) hinfo hm
  refine ⟨_, hc, ?_, ?_, ?_, ?_, ?_⟩
  · simp [marked_totals, visible_totals, LabelTotals.zero, List.filter_filter]
  · simp only [marked_totals, visible_totals, LabelTotals.zero, filter_directory_of_regular,
      List.length_nil, Nat.add_zero]
  · simp [marked_totals, visible_totals, LabelTotals.zero, sum_regular_bytes_filter,
      sum_directory_bytes_filter]
  · simp [marked_totals, visible_totals, LabelTotals.zero, sum_regular_bytes_filter,
      sum_directory_bytes_filter]
  · intro h0
    simp [marked_totals, visible_totals, LabelTotals.zero, sum_regular_bytes_filter,
      sum_directory_bytes_filter, h0]

theorem selected_totals_when_regular_files_marked_witness :
    ∃ r, count_files gio_by_name [sample_file_entry, sample_cached_dir]
        ([sample_file_entry, sample_cached_dir].filter (is_regular gio_by_name)) = some r ∧
      r.1.num_sel_files = r.1.num_files ∧
      r.1.num_sel_dirs = 0 ∧
      r.1.sel_bytes =
        sum_regular_bytes gio_by_name [sample_file_entry, sample_cached_dir] % GUINT64_RANGE ∧
      r.1.total_bytes =
        (r.1.sel_bytes + sum_directory_bytes gio_by_name [sample_file_entry, sample_cached_dir])
          % GUINT64_RANGE ∧
      (sum_directory_bytes gio_by_name [sample_file_entry, sample_cached_dir] = 0 →
        r.1.sel_bytes = r.1.total_bytes) :=
  selected_totals_when_regular_files_marked gio_by_name [sample_file_entry, sample_cached_dir]
    (by decide)

/-- C18, as stated, fails: for an empty visible set `update_selected_files_label` returns
at once, so the label keeps the text of the earlier state instead of the text for the
current, empty sets. -/
theorem label_keeps_old_text_for_empty_list :
    update_selected_files_label sample_display gio_by_name
        (sample_label_selector [] [] "0 of 8 kB in 0 of 1 file, 0 of 1 dir selected") =
      some (sample_label_selector [] [] "0 of 8 kB in 0 of 1 file, 0 of 1 dir selected") ∧
    format_info_label sample_display LabelTotals.zero =
      "0 of 0 kB in 0 of 0 files, 0 of 0 dirs selected" := by
  decide

/-- C18, amended. For a non-empty visible set whose entries and marked entries have
metadata, `update_selected_files_label` sets the info label to the text built from the
counts and sizes of the current visible and marked sets, and changes nothing else of
the selector. For an empty visible set it changes nothing: the label keeps its text. -/
theorem label_shows_current_totals (d : SizeDisplay) (gio : Gio) (s : GnomeCmdFileSelector)
    (i : Nat) (fl : GnomeCmdFileList) (hlist : s.list = some i) (hfl : s.tabs[i]? = some fl) :
    (fl.visible_files = [] → update_selected_files_label d gio s = some s) ∧
    (fl.visible_files ≠ [] →
      (∀ f ∈ fl.visible_files, f.info.isSome = true) →
      (∀ f ∈ fl.marked_files, f.info.isSome = true) →
      (count_files gio fl.visible_files fl.marked_files).map (fun r => r.1) = some
        (marked_totals gio fl.marked_files
          (visible_totals gio fl.visible_files LabelTotals.zero)) ∧
      update_selected_files_label d gio s = some { s with
        info_label := format_info_label d
          (marked_totals gio fl.marked_files
            (visible_totals gio fl.visible_files LabelTotals.zero)),
        log := s.log ++ [SelectorEvent.label_set_text (format_info_label d
          (marked_totals gio fl.marked_files
            (visible_totals gio fl.visible_files LabelTotals.zero)))] }) := by
  refine ⟨fun he => ?_, fun hne hv hm => ⟨?_, ?_⟩⟩
  · simp [update_selected_files_label, hlist, hfl, he]
  · rw [count_files_total gio fl.visible_files fl.marked_files hv hm]
    rfl
  · obtain ⟨r, hr⟩ := update_selected_files_label_total d gio s i fl hlist hfl hv hm
    rw [hr, update_selected_files_label_eq d gio s r i fl hlist hfl hne hr]

theorem label_shows_current_totals_witness :
    update_selected_files_label sample_display gio_by_name
        (sample_label_selector [sample_file_entry, sample_cached_dir] [sample_file_entry] "") =
      some { sample_label_selector [sample_file_entry, sample_cached_dir]
               [sample_file_entry] "" with
        info_label := "0 of 8 kB in 1 of 1 file, 0 of 1 dir selected",
        log := [SelectorEvent.label_set_text
          "0 of 8 kB in 1 of 1 file, 0 of 1 dir selected"] } :=
  (((label_shows_current_totals sample_display gio_by_name
      (sample_label_selector [sample_file_entry, sample_cached_dir] [sample_file_entry] "")
      0 _ rfl rfl).2 (by decide) (by decide) (by decide)).2).trans (by decide)

/-! ## Directory-changed notifications -/

theorem list_set_same {α : Type} (l : List α) (i : Nat) (a : α) (h : l[i]? = some a) :
    l.set i a = l := by
  apply List.ext_getElem?
  intro j
  by_cases hj : i = j
  · subst hj
    have hi : i < l.length := by
      rcases Nat.lt_or_ge i l.length with h1 | h1
      · exact h1
      · rw [List.getElem?_eq_none h1] at h; cases h
    rw [List.getElem?_set_self hi, h]
  · rw [List.getElem?_set_ne hj]

theorem pane_view_set_tab (s : GnomeCmdFileSelector) (i : Nat) (fl fl1 : GnomeCmdFileList)
    (hfl : s.tabs[i]? = some fl) (hc : fl1.cwd = fl.cwd) (hk : fl1.locked = fl.locked) :
    pane_view (set_tab s i fl1) = pane_view s := by
  simp only [pane_view, set_tab, List.map_set, hc, hk]
  rw [list_set_same]
  simp [hfl]

theorem update_selected_files_label_frame (d : SizeDisplay) (gio : Gio)
    (s r : GnomeCmdFileSelector) (h : update_selected_files_label d gio s = some r) :
    r.tabs = s.tabs ∧ r.list = s.list ∧ r.dir_history = s.dir_history ∧
    r.active = s.active ∧ r.realized = s.realized := by
  cases hl : s.list with
  | none => simp [update_selected_files_label, hl] at h
  | some i =>
    cases hfl : s.tabs[i]? with
    | none => simp [update_selected_files_label, hl, hfl] at h
    | some fl =>
      by_cases hne : fl.visible_files = []
      · simp only [update_selected_files_label, hl, hfl, hne, if_true,
          Option.some.injEq] at h
        rw [← h]
        exact ⟨rfl, hl, rfl, rfl, rfl⟩
      · rw [update_selected_files_label_eq d gio s r i fl hl hfl hne h]
        exact ⟨rfl, hl, rfl, rfl, rfl⟩

theorem pane_view_of_eq (s r : GnomeCmdFileSelector) (h1 : r.tabs = s.tabs)
    (h2 : r.list = s.list) : pane_view r = pane_view s := by
  simp [pane_view, h1, h2]

theorem files_have_info_set_tab (s : GnomeCmdFileSelector) (i : Nat) (l : GnomeCmdFileList)
    (hs : files_have_info s = true) (hl : list_has_info l = true) :
    files_have_info (set_tab s i l) = true := by
  simp only [files_have_info, set_tab, List.all_eq_true] at hs ⊢
  intro x hx
  rcases List.mem_or_eq_of_mem_set hx with h | h
  · exact hs x h
  · rw [h]; exact hl

theorem files_have_info_of_tabs (s r : GnomeCmdFileSelector) (h : r.tabs = s.tabs)
    (hs : files_have_info s = true) : files_have_info r = true := by
  simpa [files_have_info, h] using hs

theorem list_has_info_of_tab (s : GnomeCmdFileSelector) (i : Nat) (l : GnomeCmdFileList)
    (hs : files_have_info s = true) (hl : s.tabs[i]? = some l) :
    (∀ f ∈ l.visible_files, f.info.isSome = true) ∧
    (∀ f ∈ l.marked_files, f.info.isSome = true) := by
  simp only [files_have_info, List.all_eq_true] at hs
  have h := hs l (List.getElem?_mem hl)
  simpa [list_has_info, List.all_eq_true] using h

theorem list_has_info_show_files (w : PaneWorld) (fl : GnomeCmdFileList) (dir : GnomeCmdDir)
    (hw : listing_has_info w) : list_has_info (fl.show_files (w.listing dir)) = true := by
  simp only [list_has_info, GnomeCmdFileList.show_files, List.all_nil, Bool.and_true,
    List.all_eq_true]
  exact fun f hf => hw dir f hf

theorem update_selected_files_label_ne_none (d : SizeDisplay) (gio : Gio)
    (s : GnomeCmdFileSelector) (i : Nat) (fl : GnomeCmdFileList)
    (hl : s.list = some i) (hfl : s.tabs[i]? = some fl) (hs : files_have_info s = true) :
    update_selected_files_label d gio s ≠ none := by
  have hh := list_has_info_of_tab s i fl hs hfl
  obtain ⟨r, hr⟩ := update_selected_files_label_total d gio s i fl hl hfl hh.1 hh.2
  rw [hr]
  exact fun h => Option.noConfusion h

theorem update_files_frame (w : PaneWorld) (s r : GnomeCmdFileSelector)
    (h : update_files w s = some r) :
    pane_view r = pane_view s ∧ r.dir_history = s.dir_history ∧
    r.active = s.active ∧ r.realized = s.realized ∧
    (files_have_info s = true → listing_has_info w → files_have_info r = true) := by
  unfold update_files at h
  cases hl : s.list with
  | none => simp [hl] at h
  | some i =>
    cases hfl : s.tabs[i]? with
    | none => simp [hl, hfl] at h
    | some fl =>
      cases hc : fl.cwd with
      | none =>
        simp only [hl, hfl, hc, Option.some.injEq] at h
        rw [← h]
        exact ⟨rfl, rfl, rfl, rfl, fun hs _ => hs⟩
      | some dir =>
        simp only [hl, hfl, hc] at h
        have hv1 : pane_view (set_tab s i (fl.show_files (w.listing dir))) = pane_view s :=
          pane_view_set_tab s i fl _ hfl rfl rfl
        have hi1 : files_have_info s = true → listing_has_info w →
            files_have_info (set_tab s i (fl.show_files (w.listing dir))) = true :=
          fun hs hw => files_have_info_set_tab s i _ hs (list_has_info_show_files w fl dir hw)
        split at h
        · cases h
        · rename_i s3 hs3
          have hcore : pane_view s3 = pane_view s ∧ s3.dir_history = s.dir_history ∧
              s3.active = s.active ∧ s3.realized = s.realized ∧
              (files_have_info s = true → listing_has_info w →
                files_have_info s3 = true) := by
            split at hs3
            · have hf := update_selected_files_label_frame _ _ _ _ hs3
              exact ⟨(pane_view_of_eq _ _ hf.1 hf.2.1).trans hv1, hf.2.2.1, hf.2.2.2.1,
                hf.2.2.2.2,
                fun hs hw => files_have_info_of_tabs _ _ hf.1 (hi1 hs hw)⟩
            · simp only [Option.some.injEq] at hs3
              rw [← hs3]
              exact ⟨hv1, rfl, rfl, rfl, hi1⟩
          split at h
          · simp only [Option.some.injEq] at h
            rw [← h]
            exact hcore
          · simp only [Option.some.injEq] at h
            rw [← h]
            exact hcore

theorem update_files_ne_none (w : PaneWorld) (s : GnomeCmdFileSelector) (i : Nat)
    (fl : GnomeCmdFileList) (hl : s.list = some i) (hfl : s.tabs[i]? = some fl)
    (hs : files_have_info s = true) (hw : listing_has_info w) :
    update_files w s ≠ none := by
  have hi : i < s.tabs.length := by
    rcases Nat.lt_or_ge i s.tabs.length with h1 | h1
    · exact h1
    · rw [List.getElem?_eq_none h1] at hfl; cases hfl
  intro hu
  unfold update_files at hu
  cases hc : fl.cwd with
  | none => simp [hl, hfl, hc] at hu
  | some dir =>
    simp only [hl, hfl, hc] at hu
    have hinv1 : files_have_info (set_tab s i (fl.show_files (w.listing dir))) = true :=
      files_have_info_set_tab s i _ hs (list_has_info_show_files w fl dir hw)
    split at hu
    · rename_i hs3
      split at hs3
      · exact update_selected_files_label_ne_none _ _ _ i (fl.show_files (w.listing dir))
          (by simpa [set_tab] using hl) (by simp [set_tab, List.getElem?_set_self hi])
          (by exact hinv1) hs3
      · cases hs3
    · split at hu <;> cases hu

theorem record_dir_changed_frame (s : GnomeCmdFileSelector) (dir : GnomeCmdDir) :
    (record_dir_changed s dir).tabs = s.tabs ∧ (record_dir_changed s dir).list = s.list := by
  unfold record_dir_changed
  cases s.dir_history with
  | none => exact ⟨rfl, rfl⟩
  | some h => cases hk : h.locked <;> simp [hk]

theorem on_list_dir_changed_frame (w : PaneWorld) (s r : GnomeCmdFileSelector) (fl : Nat)
    (dir : GnomeCmdDir) (h : on_list_dir_changed w s fl dir = some r) :
    pane_view r = pane_view s ∧
    r.dir_history = (record_dir_changed s dir).dir_history ∧
    (files_have_info s = true → listing_has_info w → files_have_info r = true) := by
  have e := record_dir_changed_frame s dir
  have ev : pane_view (record_dir_changed s dir) = pane_view s :=
    pane_view_of_eq _ _ e.1 e.2
  have ei : files_have_info s = true → files_have_info (record_dir_changed s dir) = true :=
    fun hs => files_have_info_of_tabs _ _ e.1 hs
  unfold on_list_dir_changed at h
  generalize record_dir_changed s dir = s1 at h ev ei ⊢
  dsimp only at h
  split at h
  · simp only [Option.some.injEq] at h
    rw [← h]
    exact ⟨ev, rfl, fun hs _ => ei hs⟩
  · split at h
    · cases h
    · split at h
      · simp only [Option.some.injEq] at h
        rw [← h]
        exact ⟨ev, rfl, fun hs _ => ei hs⟩
      · split at h
        · cases h
        · rename_i s4 h4
          have f4 := update_files_frame w _ s4 h4
          split at h
          · cases h
          · rename_i s7 h7
            have f7 := update_selected_files_label_frame _ _ _ _ h7
            simp only [Option.some.injEq] at h
            rw [← h]
            cases ha : s4.active
            · simp only [ha, Bool.not_false, if_true, Bool.false_eq_true, if_false] at f7
              exact ⟨(pane_view_of_eq _ _ f7.1 f7.2.1).trans (f4.1.trans ev),
                f7.2.2.1.trans f4.2.1,
                fun hs hw => files_have_info_of_tabs _ _ f7.1 (f4.2.2.2.2 (ei hs) hw)⟩
            · simp only [ha, Bool.not_true, Bool.false_eq_true, if_false, if_true] at f7
              exact ⟨(pane_view_of_eq _ _ f7.1 f7.2.1).trans (f4.1.trans ev),
                f7.2.2.1.trans f4.2.1,
                fun hs hw => files_have_info_of_tabs _ _ f7.1 (f4.2.2.2.2 (ei hs) hw)⟩

theorem pane_view_list (s r : GnomeCmdFileSelector) (h : pane_view r = pane_view s) :
    r.list = s.list :=
  congrArg Prod.fst h

theorem pane_view_tab_some (s r : GnomeCmdFileSelector) (h : pane_view r = pane_view s)
    (i : Nat) (l : GnomeCmdFileList) (hl : s.tabs[i]? = some l) :
    ∃ l1, r.tabs[i]? = some l1 ∧ l1.cwd = l.cwd ∧ l1.locked = l.locked := by
  have h2 : r.tabs.map (fun l => (l.cwd, l.locked)) = s.tabs.map (fun l => (l.cwd, l.locked)) :=
    congrArg Prod.snd h
  have h3 : (r.tabs.map (fun l => (l.cwd, l.locked)))[i]? =
      (s.tabs.map (fun l => (l.cwd, l.locked)))[i]? := by rw [h2]
  rw [List.getElem?_map, List.getElem?_map, hl] at h3
  cases hr : r.tabs[i]? with
  | none => rw [hr] at h3; cases h3
  | some l1 =>
    rw [hr] at h3
    simp only [Option.map_some', Option.some.injEq, Prod.mk.injEq] at h3
    exact ⟨l1, rfl, h3.1, h3.2⟩

theorem pane_view_length (s r : GnomeCmdFileSelector) (h : pane_view r = pane_view s) :
    r.tabs.length = s.tabs.length := by
  have h2 : r.tabs.map (fun l => (l.cwd, l.locked)) = s.tabs.map (fun l => (l.cwd, l.locked)) :=
    congrArg Prod.snd h
  have h3 := congrArg List.length h2
  simpa using h3

theorem on_list_dir_changed_ne_none (w : PaneWorld) (s : GnomeCmdFileSelector) (fl : Nat)
    (dir : GnomeCmdDir) (hvalid : fl < s.tabs.length)
    (hs : files_have_info s = true) (hw : listing_has_info w) :
    on_list_dir_changed w s fl dir ≠ none := by
  have e := record_dir_changed_frame s dir
  have ei : files_have_info (record_dir_changed s dir) = true :=
    files_have_info_of_tabs _ _ e.1 hs
  have et : fl < (record_dir_changed s dir).tabs.length := by rw [e.1]; exact hvalid
  intro hu
  unfold on_list_dir_changed at hu
  generalize record_dir_changed s dir = s1 at hu ei et
  dsimp only at hu
  split at hu
  · cases hu
  · rename_i hlist
    have hl1 : s1.list = some fl := by
      by_contra hne
      exact hlist hne
    split at hu
    · rename_i hnone
      rw [List.getElem?_eq_getElem et] at hnone
      cases hnone
    · rename_i l hl
      split at hu
      · cases hu
      · split at hu
        · rename_i h4
          exact update_files_ne_none w _ fl l (by exact hl1) (by exact hl) (by exact ei) hw h4
        · rename_i s4 h4
          have f4 := update_files_frame w _ s4 h4
          have hl4 : s4.list = some fl := (pane_view_list _ _ f4.1).trans hl1
          obtain ⟨l4, hl4t, _, _⟩ := pane_view_tab_some _ s4 f4.1 fl l hl
          have hi4 : files_have_info s4 = true := f4.2.2.2.2 ei hw
          split at hu
          · rename_i h7
            cases ha : s4.active
            · simp only [ha, Bool.not_false, if_true, Bool.false_eq_true, if_false] at h7
              exact update_selected_files_label_ne_none _ _ _ fl l4 (by exact hl4)
                (by exact hl4t) (by exact hi4) h7
            · simp only [ha, Bool.not_true, Bool.false_eq_true, if_false, if_true] at h7
              exact update_selected_files_label_ne_none _ _ _ fl l4 (by exact hl4)
                (by exact hl4t) (by exact hi4) h7
          · cases hu

theorem on_list_dir_changed_spec (w : PaneWorld) (s : GnomeCmdFileSelector) (fl : Nat)
    (dir : GnomeCmdDir) (hvalid : fl < s.tabs.length)
    (hs : files_have_info s = true) (hw : listing_has_info w) :
    ∃ r, on_list_dir_changed w s fl dir = some r ∧
      pane_view r = pane_view s ∧
      r.dir_history = (record_dir_changed s dir).dir_history ∧
      files_have_info r = true := by
  cases h : on_list_dir_changed w s fl dir with
  | none => exact absurd h (on_list_dir_changed_ne_none w s fl dir hvalid hs hw)
  | some r =>
    have f := on_list_dir_changed_frame w s r fl dir h
    exact ⟨r, rfl, f.1, f.2.1, f.2.2 hs hw⟩

theorem update_selected_files_label_log (d : SizeDisplay) (gio : Gio)
    (s r : GnomeCmdFileSelector) (h : update_selected_files_label d gio s = some r) :
    ∃ l, r.log = s.log ++ l := by
  cases hl : s.list with
  | none => simp [update_selected_files_label, hl] at h
  | some i =>
    cases hfl : s.tabs[i]? with
    | none => simp [update_selected_files_label, hl, hfl] at h
    | some fl =>
      by_cases hne : fl.visible_files = []
      · simp only [update_selected_files_label, hl, hfl, hne, if_true,
          Option.some.injEq] at h
        rw [← h]
        exact ⟨[], by simp⟩
      · rw [update_selected_files_label_eq d gio s r i fl hl hfl hne h]
        exact ⟨_, rfl⟩

theorem update_files_tabs (w : PaneWorld) (s r : GnomeCmdFileSelector) (i : Nat)
    (fl : GnomeCmdFileList) (dir : GnomeCmdDir) (hl : s.list = some i)
    (hfl : s.tabs[i]? = some fl) (hc : fl.cwd = some dir)
    (h : update_files w s = some r) :
    r.tabs = s.tabs.set i (fl.show_files (w.listing dir)) ∧ ∃ l, r.log = s.log ++ l := by
  unfold update_files at h
  simp only [hl, hfl, hc] at h
  split at h
  · cases h
  · rename_i s3 hs3
    have hcore : s3.tabs = s.tabs.set i (fl.show_files (w.listing dir)) ∧
        ∃ l, s3.log = s.log ++ l := by
      split at hs3
      · have hf := update_selected_files_label_frame _ _ _ _ hs3
        obtain ⟨l, hlog⟩ := update_selected_files_label_log _ _ _ _ hs3
        exact ⟨hf.1, [SelectorEvent.show_files i dir] ++ l, by
          rw [hlog, List.append_assoc]⟩
      · simp only [Option.some.injEq] at hs3
        rw [← hs3]
        exact ⟨rfl, _, rfl⟩
    obtain ⟨ht, l, hlog⟩ := hcore
    split at h
    · simp only [Option.some.injEq] at h
      rw [← h]
      exact ⟨ht, l ++ [SelectorEvent.select_row i 0], by
        simp only [hlog, List.append_assoc]⟩
    · simp only [Option.some.injEq] at h
      rw [← h]
      exact ⟨ht, l, hlog⟩

/-- C13, as stated, fails: a notification from the background tab (page 1, the current
page being 0) for its directory `/tmp` adds `/tmp` to the history of the pane; nothing
else changes. -/
theorem background_notification_is_recorded :
    sample_two_tabs.list = some 0 ∧
    on_list_dir_changed sample_world sample_two_tabs 1 "/tmp" =
      some { sample_two_tabs with
        dir_history := some { sample_history with
          ents := ["/home", "/home/user", "/home/user/Docs", "/tmp"], pos := 3 } } := by
  decide

/-- C13, amended. On a directory-changed notification from the file list of page `fl` for
`dir`: the path is recorded in the history whenever there is a history that is not
locked, whichever list raised the notification. If `fl` is not the current list, nothing
else happens. If `fl` is the current list but its current directory is not `dir`, only
the directory entry and the volume label are refreshed besides. If `fl` is the current
list and its current directory is `dir` (all entries having metadata), the tab label is
refreshed, the pane-level signal is emitted, and when the directory is displayed with
files the info label is set to the totals of those files. -/
theorem on_list_dir_changed_effects (w : PaneWorld) (s : GnomeCmdFileSelector) (fl : Nat)
    (dir : GnomeCmdDir) :
    (∀ h, s.dir_history = some h → h.is_locked = false →
      (record_dir_changed s dir).dir_history = some (h.add dir)) ∧
    (∀ h, s.dir_history = some h → h.is_locked = true → record_dir_changed s dir = s) ∧
    (s.dir_history = none → record_dir_changed s dir = s) ∧
    (s.list ≠ some fl →
      on_list_dir_changed w s fl dir = some (record_dir_changed s dir) ∧
      (record_dir_changed s dir).log = s.log ∧
      (record_dir_changed s dir).info_label = s.info_label) ∧
    (∀ l, s.list = some fl → s.tabs[fl]? = some l → l.cwd ≠ some dir →
      on_list_dir_changed w s fl dir = some
        { record_dir_changed s dir with
          log := s.log ++ [SelectorEvent.update_direntry, SelectorEvent.update_vol_label] } ∧
      (record_dir_changed s dir).info_label = s.info_label) ∧
    (∀ l, s.list = some fl → s.tabs[fl]? = some l → l.cwd = some dir →
      files_have_info s = true → listing_has_info w →
      ∃ r, on_list_dir_changed w s fl dir = some r ∧
        r.dir_history = (record_dir_changed s dir).dir_history ∧
        SelectorEvent.update_tab_label fl ∈ r.log ∧
        SelectorEvent.emit_dir_changed dir ∈ r.log ∧
        (w.listing dir ≠ [] →
          r.info_label = format_info_label w.display
            (marked_totals w.gio [] (visible_totals w.gio (w.listing dir) LabelTotals.zero)) ∧
          SelectorEvent.label_set_text r.info_label ∈ r.log)) := by
  have e := record_dir_changed_frame s dir
  have elog : (record_dir_changed s dir).log = s.log ∧
      (record_dir_changed s dir).info_label = s.info_label := by
    unfold record_dir_changed
    cases s.dir_history with
    | none => exact ⟨rfl, rfl⟩
    | some h => cases hk : h.locked <;> simp [hk]
  refine ⟨?_, ?_, ?_, ?_, ?_, ?_⟩
  · intro h hh hk
    simp [record_dir_changed, hh, History.locked, hk]
  · intro h hh hk
    simp [record_dir_changed, hh, History.locked, hk]
  · intro hh
    simp [record_dir_changed, hh]
  · intro hne
    refine ⟨?_, elog.1, elog.2⟩
    have hne1 : (record_dir_changed s dir).list ≠ some fl := by rw [e.2]; exact hne
    simp only [on_list_dir_changed]
    rw [if_pos hne1]
  · intro l hl hfl hc
    refine ⟨?_, elog.2⟩
    have hl1 : ¬ ((record_dir_changed s dir).list ≠ some fl) := by rw [e.2]; simp [hl]
    have ht1 : (record_dir_changed s dir).tabs[fl]? = some l := by rw [e.1]; exact hfl
    simp only [on_list_dir_changed]
    rw [if_neg hl1]
    simp only [ht1]
    rw [if_pos hc, elog.1]
  · intro l hl hfl hc hs hw
    have hvalid : fl < s.tabs.length := by
      rcases Nat.lt_or_ge fl s.tabs.length with h1 | h1
      · exact h1
      · rw [List.getElem?_eq_none h1] at hfl; cases hfl
    obtain ⟨r, hr, -, hhist, -⟩ := on_list_dir_changed_spec w s fl dir hvalid hs hw
    refine ⟨r, hr, hhist, ?_⟩
    have hl1 : ¬ ((record_dir_changed s dir).list ≠ some fl) := by rw [e.2]; simp [hl]
    have hl2 : (record_dir_changed s dir).list = some fl := by rw [e.2]; exact hl
    have ht1 : (record_dir_changed s dir).tabs[fl]? = some l := by rw [e.1]; exact hfl
    have hc1 : ¬ (l.cwd ≠ some dir) := by simp [hc]
    unfold on_list_dir_changed at hr
    generalize record_dir_changed s dir = s1 at hr hl1 hl2 ht1
    dsimp only at hr
    rw [if_neg hl1] at hr
    simp only [ht1] at hr
    rw [if_neg hc1] at hr
    split at hr
    · cases hr
    · rename_i s4 h4
      obtain ⟨ht4, l4, hlog4⟩ := update_files_tabs w _ s4 fl l dir (by exact hl2)
        (by exact ht1) hc h4
      have f4 := update_files_frame w _ s4 h4
      have hl4 : s4.list = some fl := (pane_view_list _ _ f4.1).trans hl2
      have hi1 : fl < s1.tabs.length := by
        rcases Nat.lt_or_ge fl s1.tabs.length with h1 | h1
        · exact h1
        · rw [List.getElem?_eq_none h1] at ht1; cases ht1
      have hfl4 : s4.tabs[fl]? = some (l.show_files (w.listing dir)) := by
        rw [ht4]
        exact List.getElem?_set_self hi1
      split at hr
      · cases hr
      · rename_i s7 h7
        simp only [Option.some.injEq] at hr
        obtain ⟨l7, hlog7⟩ := update_selected_files_label_log _ _ _ _ h7
        have hmem : ∀ x, x ∈ s4.log → x ∈ r.log := by
          intro x hx
          rw [← hr]
          cases ha : s4.active
          · simp only [ha, Bool.not_false, if_true, Bool.false_eq_true, if_false] at hlog7
            simp [hlog7, hx]
          · simp only [ha, Bool.not_true, Bool.false_eq_true, if_false, if_true] at hlog7
            simp [hlog7, hx]
        refine ⟨hmem _ (by simp [hlog4]), by rw [← hr]; simp, ?_⟩
        intro hne
        have hne1 : (l.show_files (w.listing dir)).visible_files ≠ [] := hne
        have heq : s7.info_label = format_info_label w.display
            (marked_totals w.gio [] (visible_totals w.gio (w.listing dir) LabelTotals.zero)) ∧
            SelectorEvent.label_set_text s7.info_label ∈ s7.log := by
          cases ha : s4.active
          · simp only [ha, Bool.not_false, if_true, Bool.false_eq_true, if_false] at h7
            have e7 := update_selected_files_label_eq _ _ _ s7 fl
              (l.show_files (w.listing dir)) (by exact hl4) (by exact hfl4) hne1 h7
            rw [e7]
            simp [GnomeCmdFileList.show_files]
          · simp only [ha, Bool.not_true, Bool.false_eq_true, if_false, if_true] at h7
            have e7 := update_selected_files_label_eq _ _ _ s7 fl
              (l.show_files (w.listing dir)) (by exact hl4) (by exact hfl4) hne1 h7
            rw [e7]
            simp [GnomeCmdFileList.show_files]
        rw [← hr]
        exact ⟨heq.1, by simp [heq.2]⟩

theorem sample_world_has_info : listing_has_info sample_world := by
  intro dir f hf
  simp only [sample_world, List.mem_singleton] at hf
  rw [hf]
  decide

theorem on_list_dir_changed_effects_witness :
    on_list_dir_changed sample_world sample_two_tabs 1 "/tmp" =
      some (record_dir_changed sample_two_tabs "/tmp") ∧
    ∃ r, on_list_dir_changed sample_world sample_two_tabs 0 "/home/user" = some r ∧
      r.dir_history = (record_dir_changed sample_two_tabs "/home/user").dir_history ∧
      SelectorEvent.update_tab_label 0 ∈ r.log ∧
      SelectorEvent.emit_dir_changed "/home/user" ∈ r.log ∧
      (sample_world.listing "/home/user" ≠ [] →
        r.info_label = format_info_label sample_world.display
          (marked_totals sample_world.gio []
            (visible_totals sample_world.gio (sample_world.listing "/home/user")
              LabelTotals.zero)) ∧
        SelectorEvent.label_set_text r.info_label ∈ r.log) :=
  have h := on_list_dir_changed_effects sample_world sample_two_tabs
  ⟨((h 1 "/tmp").2.2.2.1 (by decide)).1,
   (h 0 "/home/user").2.2.2.2.2 (sample_list false) (by decide) (by decide) (by decide)
     (by decide) sample_world_has_info⟩

/-! ## History jumps and notifications -/

theorem marked_files_set_directory (fl : GnomeCmdFileList) (dir : Option GnomeCmdDir) :
    (fl.set_directory dir).marked_files = fl.marked_files := by
  cases dir <;> rfl

theorem marked_files_goto_directory (fl : GnomeCmdFileList) (dir : Option String) :
    (fl.goto_directory dir).marked_files = fl.marked_files := by
  cases dir with
  | none => rfl
  | some d =>
    simp only [GnomeCmdFileList.goto_directory]
    split
    · exact marked_files_set_directory _ _
    · split <;> exact marked_files_set_directory _ _

theorem list_has_info_goto_directory (fl : GnomeCmdFileList) (dir : Option String) :
    list_has_info (fl.goto_directory dir) = list_has_info fl := by
  simp [list_has_info, visible_files_goto_directory, marked_files_goto_directory]

theorem list_has_info_set_directory (fl : GnomeCmdFileList) (dir : Option GnomeCmdDir) :
    list_has_info (fl.set_directory dir) = list_has_info fl := by
  simp [list_has_info, visible_files_set_directory, marked_files_set_directory]

theorem tab_has_info (s : GnomeCmdFileSelector) (i : Nat) (fl : GnomeCmdFileList)
    (hs : files_have_info s = true) (hfl : s.tabs[i]? = some fl) : list_has_info fl = true := by
  simp only [files_have_info, List.all_eq_true] at hs
  exact hs fl (List.getElem?_mem hfl)

theorem files_have_info_opened (s : GnomeCmdFileSelector) (target : Option GnomeCmdDir)
    (hs : files_have_info s = true) : files_have_info (opened_in_new_tab s target) = true := by
  simp only [files_have_info, opened_in_new_tab, List.all_append, Bool.and_eq_true]
  refine ⟨hs, ?_⟩
  simp [list_has_info, opened_tab]

theorem deliver_locked (w : PaneWorld) (notes : List (Nat × GnomeCmdDir))
    (s r : GnomeCmdFileSelector) (h1 : History) (hh : s.dir_history = some h1)
    (hk : h1.is_locked = true) (h : deliver w notes s = some r) :
    r.dir_history = some h1 ∧ pane_view r = pane_view s ∧
    (files_have_info s = true → listing_has_info w → files_have_info r = true) := by
  induction notes generalizing s with
  | nil =>
    simp only [deliver, Option.some.injEq] at h
    rw [← h]
    exact ⟨hh, rfl, fun hs _ => hs⟩
  | cons n ns ih =>
    simp only [deliver] at h
    cases h1s : on_list_dir_changed w s n.1 n.2 with
    | none => simp [h1s] at h
    | some s1 =>
      simp only [h1s] at h
      have f := on_list_dir_changed_frame w s s1 n.1 n.2 h1s
      have hrec : (record_dir_changed s n.2).dir_history = some h1 := by
        simp [record_dir_changed, hh, History.locked, hk]
      have g := ih s1 (f.2.1.trans hrec) h
      exact ⟨g.1, g.2.1.trans f.1, fun hs hw => g.2.2 (f.2.2 hs hw) hw⟩

theorem deliver_ne_none (w : PaneWorld) (notes : List (Nat × GnomeCmdDir))
    (s : GnomeCmdFileSelector) (hn : ∀ n ∈ notes, n.1 < s.tabs.length)
    (hs : files_have_info s = true) (hw : listing_has_info w) :
    deliver w notes s ≠ none := by
  induction notes generalizing s with
  | nil => simp [deliver]
  | cons n ns ih =>
    obtain ⟨s1, h1, hv, -, hi⟩ := on_list_dir_changed_spec w s n.1 n.2
      (hn n (List.mem_cons_self _ _)) hs hw
    simp only [deliver, h1]
    apply ih s1 _ hi
    intro m hm
    rw [pane_view_length s s1 hv]
    exact hn m (List.mem_cons_of_mem _ hm)

theorem file_list_some (s : GnomeCmdFileSelector) (fl : GnomeCmdFileList)
    (hfl : s.file_list = some fl) : ∃ i, s.list = some i ∧ s.tabs[i]? = some fl := by
  unfold GnomeCmdFileSelector.file_list at hfl
  cases hl : s.list with
  | none => rw [hl] at hfl; cases hfl
  | some i => rw [hl] at hfl; exact ⟨i, rfl, hfl⟩

theorem history_jump_during_spec (w : PaneWorld) (guard : History → Bool)
    (move : History → History × Option String)
    (raised : GnomeCmdFileSelector → List (Nat × GnomeCmdDir))
    (s : GnomeCmdFileSelector) (h : History) (fl : GnomeCmdFileList)
    (hh : s.dir_history = some h) (hg : guard h = true) (hfl : s.file_list = some fl)
    (hmove : (move h.lock).1.is_locked = true)
    (hs : files_have_info s = true) (hw : listing_has_info w)
    (hraised : ∀ s1 n, n ∈ raised s1 → n.1 < s1.tabs.length) :
    ∃ s4 r,
      (if fl.locked then
          some (new_tab_dir { s with dir_history := some (move h.lock).1 }
            (gnome_cmd_dir_new (move h.lock).2))
        else goto_directory { s with dir_history := some (move h.lock).1 } (move h.lock).2)
        = some s4 ∧
      history_jump_during w guard move raised s = some r ∧
      pane_view r = pane_view s4 ∧
      r.dir_history = some (move h.lock).1.unlock ∧
      files_have_info r = true := by
  obtain ⟨i, hl, hti⟩ := file_list_some s fl hfl
  have hfl1 : GnomeCmdFileSelector.file_list { s with dir_history := some h.lock } = some fl :=
    hfl
  have hnav : ∃ s4,
      (if fl.locked then
          some (new_tab_dir { s with dir_history := some (move h.lock).1 }
            (gnome_cmd_dir_new (move h.lock).2))
        else goto_directory { s with dir_history := some (move h.lock).1 } (move h.lock).2)
        = some s4 ∧
      s4.dir_history = some (move h.lock).1 ∧ files_have_info s4 = true := by
    cases hlk : fl.locked
    · refine ⟨{ set_tab { s with dir_history := some (move h.lock).1 } i
          (fl.goto_directory (move h.lock).2) with
          log := s.log ++ [SelectorEvent.goto_directory i (move h.lock).2] }, ?_, rfl, ?_⟩
      · simp [goto_directory, hl, hti]
      · apply files_have_info_set_tab { s with dir_history := some (move h.lock).1 } i _ hs
        rw [list_has_info_goto_directory]
        exact tab_has_info s i fl hs hti
    · refine ⟨new_tab_dir { s with dir_history := some (move h.lock).1 }
          (gnome_cmd_dir_new (move h.lock).2), by simp, ?_, ?_⟩
      · rw [new_tab_dir_eq]; rfl
      · rw [new_tab_dir_eq]
        exact files_have_info_opened _ _ hs
  obtain ⟨s4, hn4, hd4, hi4⟩ := hnav
  cases h5 : deliver w (raised s4) s4 with
  | none => exact absurd h5 (deliver_ne_none w _ s4 (hraised s4) hi4 hw)
  | some s5 =>
    have f5 := deliver_locked w _ s4 s5 _ hd4 hmove h5
    refine ⟨s4, { s5 with dir_history := s5.dir_history.map History.unlock }, hn4, ?_,
      f5.2.1, by simp [f5.1], f5.2.2 hi4 hw⟩
    simp only [history_jump_during, hh, hg, Bool.not_true, Bool.false_eq_true, if_false, hfl1]
    rw [hn4]
    simp only [h5]

theorem raised_by_current_list_valid (s1 : GnomeCmdFileSelector) (n : Nat × GnomeCmdDir)
    (hn : n ∈ raised_by_current_list s1) : n.1 < s1.tabs.length := by
  unfold raised_by_current_list at hn
  cases hl : s1.list with
  | none => simp [hl] at hn
  | some i =>
    cases ht : s1.tabs[i]? with
    | none => simp [hl, ht] at hn
    | some fl =>
      cases hc : fl.cwd with
      | none => simp [hl, ht, hc] at hn
      | some d =>
        simp only [hl, ht, hc, List.mem_singleton] at hn
        rw [hn]
        rcases Nat.lt_or_ge i s1.tabs.length with h1 | h1
        · exact h1
        · rw [List.getElem?_eq_none h1] at ht; cases ht

/-- C11. While the history is locked, handling directory-changed notifications, however
many and from whichever list, leaves the history as it is. And each of `first`, `back`,
`forward`, `last` whose guard passes (on a selector with a current list, all entries
having metadata) returns, whatever notifications `raised` are handled during the
navigation, with a history that has the entries it had before the call, the position
of the jump, and the lock flag cleared. -/
theorem history_locked_during_jump (w : PaneWorld)
    (raised : GnomeCmdFileSelector → List (Nat × GnomeCmdDir))
    (s : GnomeCmdFileSelector) (h : History) (fl : GnomeCmdFileList)
    (hh : s.dir_history = some h) (hfl : s.file_list = some fl)
    (hs : files_have_info s = true) (hw : listing_has_info w)
    (hraised : ∀ s1 n, n ∈ raised s1 → n.1 < s1.tabs.length) :
    (∀ s1 h1 notes r, s1.dir_history = some h1 → h1.is_locked = true →
      deliver w notes s1 = some r → r.dir_history = some h1) ∧
    (h.can_back = true → ∃ r,
      history_jump_during w History.can_back History.first raised s = some r ∧
      r.dir_history = some { h with pos := 0, is_locked := false }) ∧
    (h.can_back = true → ∃ r,
      history_jump_during w History.can_back History.back raised s = some r ∧
      r.dir_history = some { h with pos := h.pos - 1, is_locked := false }) ∧
    (h.can_forward = true → ∃ r,
      history_jump_during w History.can_forward History.forward raised s = some r ∧
      r.dir_history = some { h with pos := h.pos + 1, is_locked := false }) ∧
    (h.can_forward = true → ∃ r,
      history_jump_during w History.can_forward History.last raised s = some r ∧
      r.dir_history = some { h with pos := h.ents.length - 1, is_locked := false }) := by
  refine ⟨?_, ?_, ?_, ?_, ?_⟩
  · intro s1 h1 notes r h1s hk hd
    exact (deliver_locked w notes s1 r h1 h1s hk hd).1
  · intro hg
    obtain ⟨s4, r, -, hr, -, hd, -⟩ := history_jump_during_spec w History.can_back
      History.first raised s h fl hh hg hfl rfl hs hw hraised
    exact ⟨r, hr, hd⟩
  · intro hg
    obtain ⟨s4, r, -, hr, -, hd, -⟩ := history_jump_during_spec w History.can_back
      History.back raised s h fl hh hg hfl rfl hs hw hraised
    exact ⟨r, hr, hd⟩
  · intro hg
    obtain ⟨s4, r, -, hr, -, hd, -⟩ := history_jump_during_spec w History.can_forward
      History.forward raised s h fl hh hg hfl rfl hs hw hraised
    exact ⟨r, hr, hd⟩
  · intro hg
    obtain ⟨s4, r, -, hr, -, hd, -⟩ := history_jump_during_spec w History.can_forward
      History.last raised s h fl hh hg hfl rfl hs hw hraised
    exact ⟨r, hr, hd⟩

theorem history_locked_during_jump_witness :
    ∃ r, history_jump_during sample_world History.can_back History.back
        raised_by_current_list (sample_selector false (some sample_history)) = some r ∧
      r.dir_history = some { sample_history with pos := 1, is_locked := false } :=
  (history_locked_during_jump sample_world raised_by_current_list
    (sample_selector false (some sample_history)) sample_history (sample_list false)
    rfl rfl (by decide) sample_world_has_info raised_by_current_list_valid).2.2.1 (by decide)

theorem history_jump_during_nil (w : PaneWorld) (guard : History → Bool)
    (move : History → History × Option String) (s : GnomeCmdFileSelector) :
    history_jump_during w guard move (fun _ => []) s = history_jump guard move s := by
  unfold history_jump_during history_jump
  cases s.dir_history with
  | none => rfl
  | some h =>
    dsimp only
    split
    · rfl
    · split
      · rfl
      · split <;> simp [deliver]

/-! ## Replaying the history -/

theorem goto_directory_absolute (fl : GnomeCmdFileList) (d : String)
    (hd : d.data.head? = some '/') :
    (fl.goto_directory (some d)).cwd = some d ∧ (fl.goto_directory (some d)).locked = fl.locked := by
  have hne : d ≠ ".." := by
    intro h
    rw [h] at hd
    exact absurd hd (by decide)
  simp [GnomeCmdFileList.goto_directory, hne, hd, GnomeCmdFileList.set_directory]

theorem history_add_at_end (h : History) (d : String)
    (hend : h.ents.take (h.pos + 1) = h.ents) (hmax : h.ents.length + 1 ≤ h.max) :
    h.add d = { h with ents := h.ents ++ [d], pos := h.ents.length } := by
  have h0 : h.ents.length + 1 - h.max = 0 := by omega
  simp [History.add, hend, h0]

theorem visit_step (w : PaneWorld) (s : GnomeCmdFileSelector) (i : Nat)
    (fl : GnomeCmdFileList) (h : History) (d : GnomeCmdDir)
    (hl : s.list = some i) (hfl : s.tabs[i]? = some fl) (hu : fl.locked = false)
    (hh : s.dir_history = some h) (hk : h.is_locked = false)
    (hend : h.ents.take (h.pos + 1) = h.ents) (hmax : h.ents.length + 1 ≤ h.max)
    (hs : files_have_info s = true) (hw : listing_has_info w) :
    ∃ r, visit w s d = some r ∧ r.list = some i ∧
      (∃ fl1, r.tabs[i]? = some fl1 ∧ fl1.locked = false ∧ fl1.cwd = some d) ∧
      r.dir_history = some { h with ents := h.ents ++ [d], pos := h.ents.length } ∧
      files_have_info r = true := by
  have hi : i < s.tabs.length := by
    rcases Nat.lt_or_ge i s.tabs.length with h1 | h1
    · exact h1
    · rw [List.getElem?_eq_none h1] at hfl; cases hfl
  have hs1 : files_have_info
      { set_tab s i (fl.set_directory (some d)) with
        log := s.log ++ [SelectorEvent.set_directory i (some d)] } = true := by
    apply files_have_info_set_tab s i _ hs
    rw [list_has_info_set_directory]
    exact tab_has_info s i fl hs hfl
  obtain ⟨r, hr, hv, hd, hir⟩ := on_list_dir_changed_spec w
    { set_tab s i (fl.set_directory (some d)) with
      log := s.log ++ [SelectorEvent.set_directory i (some d)] } i d
    (by simpa [set_tab] using hi) hs1 hw
  have ht1 : (set_tab s i (fl.set_directory (some d))).tabs[i]? =
      some (fl.set_directory (some d)) := by
    simp [set_tab, List.getElem?_set_self hi]
  obtain ⟨fl1, hfl1, hc1, hk1⟩ := pane_view_tab_some _ r hv i _ ht1
  refine ⟨r, by simp only [visit, hl, hfl]; exact hr, ?_, ⟨fl1, hfl1, ?_, ?_⟩, ?_, hir⟩
  · exact (pane_view_list _ r hv).trans hl
  · rw [hk1]; exact hu
  · rw [hc1]; rfl
  · rw [hd]
    simp [record_dir_changed, set_tab, hh, History.locked, hk,
      history_add_at_end h d hend hmax]

theorem visits_reach (w : PaneWorld) (i : Nat) (hw : listing_has_info w)
    (ds : List GnomeCmdDir) :
    ∀ (s : GnomeCmdFileSelector) (fl : GnomeCmdFileList) (h : History), ds ≠ [] →
      s.list = some i → s.tabs[i]? = some fl → fl.locked = false →
      s.dir_history = some h → h.is_locked = false →
      h.ents.take (h.pos + 1) = h.ents → h.ents.length + ds.length ≤ h.max →
      files_have_info s = true →
      ∃ r, visits w ds s = some r ∧
        replay_state i (h.ents ++ ds) h.max (h.ents.length + ds.length - 1) r := by
  induction ds with
  | nil => intro s fl h hne; exact absurd rfl hne
  | cons d ds ih =>
    intro s fl h _ hl hfl hu hh hk hend hmax hs
    simp only [List.length_cons] at hmax
    obtain ⟨r1, hv1, hl1, ⟨fl1, hfl1, hu1, hc1⟩, hd1, hi1⟩ :=
      visit_step w s i fl h d hl hfl hu hh hk hend (by omega) hs hw
    cases ds with
    | nil =>
      refine ⟨r1, by simp [visits, hv1], hl1, ⟨fl1, hfl1, hu1, ?_⟩, ?_, hi1⟩
      · rw [hc1]
        simp
      · rw [hd1]
        obtain ⟨e, p, k, m⟩ := h
        simp only at hk
        subst hk
        simp
    | cons d2 ds2 =>
      have hend1 : ({ h with ents := h.ents ++ [d], pos := h.ents.length } : History).ents.take
          (({ h with ents := h.ents ++ [d], pos := h.ents.length } : History).pos + 1) =
          ({ h with ents := h.ents ++ [d], pos := h.ents.length } : History).ents := by
        apply List.take_of_length_le
        simp
      obtain ⟨r, hr, hrep⟩ := ih r1 fl1 { h with ents := h.ents ++ [d], pos := h.ents.length }
        (by simp) hl1 hfl1 hu1 hd1 hk hend1
        (by simp only [List.length_append, List.length_cons, List.length_nil] at hmax ⊢
            omega) hi1
      refine ⟨r, by simp only [visits, hv1]; exact hr, ?_⟩
      have e1 : h.ents ++ [d] ++ d2 :: ds2 = h.ents ++ d :: d2 :: ds2 := by simp
      have e2 : (h.ents ++ [d]).length + (d2 :: ds2).length - 1 =
          h.ents.length + (d :: d2 :: ds2).length - 1 := by
        simp only [List.length_append, List.length_cons, List.length_nil]
        omega
      simp only [e1, e2] at hrep
      exact hrep

theorem jump_step (w : PaneWorld) (i : Nat) (ds : List GnomeCmdDir) (max : Nat)
    (hw : listing_has_info w) (habs : ∀ d ∈ ds, d.data.head? = some '/')
    (guard : History → Bool) (move : History → History × Option String)
    (k k1 : Nat) (s : GnomeCmdFileSelector) (hrep : replay_state i ds max k s)
    (hk1 : k1 < ds.length)
    (hg : guard { ents := ds, pos := k, is_locked := false, max := max } = true)
    (hm : move { ents := ds, pos := k, is_locked := true, max := max } =
      ({ ents := ds, pos := k1, is_locked := true, max := max }, ds[k1]?)) :
    ∃ r, history_jump_during w guard move raised_by_current_list s = some r ∧
      replay_state i ds max k1 r := by
  obtain ⟨hl, ⟨fl, hfl, hu, hc⟩, hh, hs⟩ := hrep
  have hi : i < s.tabs.length := by
    rcases Nat.lt_or_ge i s.tabs.length with h1 | h1
    · exact h1
    · rw [List.getElem?_eq_none h1] at hfl; cases hfl
  have hcur : s.file_list = some fl := by
    simp [GnomeCmdFileSelector.file_list, hl, hfl]
  have hlock : History.lock { ents := ds, pos := k, is_locked := false, max := max } =
      { ents := ds, pos := k, is_locked := true, max := max } := rfl
  obtain ⟨s4, r, hnav, hr, hv, hd, hir⟩ := history_jump_during_spec w guard move
    raised_by_current_list s _ fl hh hg hcur (by rw [hlock, hm]) hs hw
    raised_by_current_list_valid
  rw [hlock, hm] at hnav hd
  have hdk : ds[k1]? = some (ds[k1]) := List.getElem?_eq_getElem hk1
  have habs1 : (ds[k1]).data.head? = some '/' := habs _ (List.getElem_mem hk1)
  simp only [hu, Bool.false_eq_true, if_false, goto_directory, hl, hfl, set_tab,
    Option.some.injEq] at hnav
  have ht4 : s4.tabs[i]? = some (fl.goto_directory ds[k1]?) := by
    rw [← hnav]; simp [List.getElem?_set_self hi]
  obtain ⟨fl1, hfl1, hc1, hk1l⟩ := pane_view_tab_some s4 r hv i _ ht4
  have hl4 : s4.list = some i := by rw [← hnav]
  refine ⟨r, hr, (pane_view_list s4 r hv).trans hl4, ⟨fl1, hfl1, ?_, ?_⟩, ?_, hir⟩
  · rw [hk1l, hdk, (goto_directory_absolute fl _ habs1).2]
    exact hu
  · rw [hc1, hdk, (goto_directory_absolute fl _ habs1).1]
  · rw [hd]
    rfl

theorem back_step (w : PaneWorld) (i : Nat) (ds : List GnomeCmdDir) (max : Nat)
    (hw : listing_has_info w) (habs : ∀ d ∈ ds, d.data.head? = some '/')
    (k : Nat) (s : GnomeCmdFileSelector) (hrep : replay_state i ds max (k + 1) s)
    (hk : k + 1 < ds.length) :
    ∃ r, back_during w s = some r ∧ replay_state i ds max k r :=
  jump_step w i ds max hw habs History.can_back History.back (k + 1) k s hrep (by omega)
    (by simp [History.can_back]) (by simp [History.back])

theorem forward_step (w : PaneWorld) (i : Nat) (ds : List GnomeCmdDir) (max : Nat)
    (hw : listing_has_info w) (habs : ∀ d ∈ ds, d.data.head? = some '/')
    (k : Nat) (s : GnomeCmdFileSelector) (hrep : replay_state i ds max k s)
    (hk : k + 1 < ds.length) :
    ∃ r, forward_during w s = some r ∧ replay_state i ds max (k + 1) r :=
  jump_step w i ds max hw habs History.can_forward History.forward k (k + 1) s hrep hk
    (by simp [History.can_forward, hk]) (by simp [History.forward])

theorem back_at_first (w : PaneWorld) (i : Nat) (ds : List GnomeCmdDir) (max : Nat)
    (s : GnomeCmdFileSelector) (hrep : replay_state i ds max 0 s) :
    back_during w s = some s := by
  simp [back_during, history_jump_during, hrep.2.2.1, History.can_back]

theorem forward_at_last (w : PaneWorld) (i : Nat) (ds : List GnomeCmdDir) (max : Nat)
    (s : GnomeCmdFileSelector) (hrep : replay_state i ds max (ds.length - 1) s) :
    forward_during w s = some s := by
  have hc : ¬ (ds.length - 1 + 1 < ds.length) := by omega
  simp [forward_during, history_jump_during, hrep.2.2.1, History.can_forward, hc]

theorem repeat_back (w : PaneWorld) (i : Nat) (ds : List GnomeCmdDir) (max : Nat)
    (hw : listing_has_info w) (habs : ∀ d ∈ ds, d.data.head? = some '/') (k : Nat) :
    ∀ (n : Nat) (s : GnomeCmdFileSelector), replay_state i ds max (k + n) s →
      k + n < ds.length →
      ∃ r, repeat_call (back_during w) n s = some r ∧ replay_state i ds max k r := by
  intro n
  induction n with
  | zero => intro s hrep _; exact ⟨s, rfl, hrep⟩
  | succ n ih =>
    intro s hrep hk
    obtain ⟨r1, h1, hrep1⟩ := back_step w i ds max hw habs (k + n) s hrep hk
    obtain ⟨r, hr, hrepr⟩ := ih r1 hrep1 (by omega)
    exact ⟨r, by simp only [repeat_call, h1]; exact hr, hrepr⟩

theorem repeat_forward (w : PaneWorld) (i : Nat) (ds : List GnomeCmdDir) (max : Nat)
    (hw : listing_has_info w) (habs : ∀ d ∈ ds, d.data.head? = some '/') :
    ∀ (n k : Nat) (s : GnomeCmdFileSelector), replay_state i ds max k s →
      k + n < ds.length →
      ∃ r, repeat_call (forward_during w) n s = some r ∧ replay_state i ds max (k + n) r := by
  intro n
  induction n with
  | zero => intro k s hrep _; exact ⟨s, rfl, hrep⟩
  | succ n ih =>
    intro k s hrep hk
    obtain ⟨r1, h1, hrep1⟩ := forward_step w i ds max hw habs k s hrep (by omega)
    obtain ⟨r, hr, hrepr⟩ := ih (k + 1) r1 hrep1 (by omega)
    refine ⟨r, by simp only [repeat_call, h1]; exact hr, ?_⟩
    have e : k + 1 + n = k + (n + 1) := by omega
    rw [e] at hrepr
    exact hrepr

theorem current_cwd_of_replay (i : Nat) (ds : List GnomeCmdDir) (max : Nat) (k : Nat)
    (s : GnomeCmdFileSelector) (hrep : replay_state i ds max k s) :
    current_cwd s = ds[k]? := by
  obtain ⟨hl, ⟨fl, hfl, -, hc⟩, -, -⟩ := hrep
  simp [current_cwd, GnomeCmdFileSelector.file_list, hl, hfl, hc]

/-- C12, as stated, fails for a bounded history: with a history that keeps two entries,
after the three visits `/a`, `/b`, `/c` two calls of `back ()` end on `/b`, not on the
first-visited `/a`, which the history no longer holds. -/
theorem back_misses_first_visit_beyond_bound :
    ((visits sample_world ["/a", "/b", "/c"] (sample_fresh_pane 2)).bind
        (repeat_call (back_during sample_world) 2)).map
      (fun s => (current_cwd s, s.dir_history.map (fun h => (h.ents, h.pos)))) =
      some (some "/b", some (["/b", "/c"], 0)) := by
  decide

/-- C12, amended. In an unlocked current tab of a pane whose history is empty, not
locked, and keeps at least `N` entries, let `N ≥ 1` directories (full paths, all entries
having metadata) be visited one after the other. Then the tab is on the last-visited
directory; `back ()` called `N - 1` times leads it to the first-visited directory, where
one more `back ()` changes nothing; `forward ()` called `N - 1` times from there leads it
to the last-visited directory, where one more `forward ()` changes nothing. -/
theorem history_replay (w : PaneWorld) (s : GnomeCmdFileSelector) (i : Nat)
    (fl : GnomeCmdFileList) (h : History) (ds : List GnomeCmdDir)
    (hl : s.list = some i) (hfl : s.tabs[i]? = some fl) (hu : fl.locked = false)
    (hh : s.dir_history = some h) (he : h.ents = []) (hk : h.is_locked = false)
    (hs : files_have_info s = true) (hw : listing_has_info w)
    (habs : ∀ d ∈ ds, d.data.head? = some '/')
    (hne : ds ≠ []) (hmax : ds.length ≤ h.max) :
    ∃ s1 s2 s3,
      visits w ds s = some s1 ∧ current_cwd s1 = ds.getLast? ∧
      repeat_call (back_during w) (ds.length - 1) s1 = some s2 ∧
      current_cwd s2 = ds.head? ∧
      back_during w s2 = some s2 ∧
      repeat_call (forward_during w) (ds.length - 1) s2 = some s3 ∧
      current_cwd s3 = ds.getLast? ∧
      forward_during w s3 = some s3 := by
  have hend : h.ents.take (h.pos + 1) = h.ents := by simp [he]
  obtain ⟨s1, hv1, hrep1⟩ := visits_reach w i hw ds s fl h hne hl hfl hu hh hk hend
    (by simp [he]; exact hmax) hs
  simp only [he, List.nil_append, List.length_nil, Nat.zero_add] at hrep1
  have hpos : 0 < ds.length := List.length_pos.mpr hne
  obtain ⟨s2, hb2, hrep2⟩ := repeat_back w i ds h.max hw habs 0 (ds.length - 1) s1
    (by simpa using hrep1) (by omega)
  obtain ⟨s3, hf3, hrep3⟩ := repeat_forward w i ds h.max hw habs (ds.length - 1) 0 s2
    hrep2 (by omega)
  simp only [Nat.zero_add] at hrep3
  refine ⟨s1, s2, s3, hv1, ?_, hb2, ?_, back_at_first w i ds h.max s2 hrep2, hf3, ?_,
    forward_at_last w i ds h.max s3 hrep3⟩
  · rw [current_cwd_of_replay i ds h.max _ s1 hrep1, List.getLast?_eq_getElem?]
  · rw [current_cwd_of_replay i ds h.max _ s2 hrep2, List.head?_eq_getElem?]
  · rw [current_cwd_of_replay i ds h.max _ s3 hrep3, List.getLast?_eq_getElem?]

theorem history_replay_witness :
    ∃ s1 s2 s3,
      visits sample_world ["/a", "/b", "/c"] (sample_fresh_pane 20) = some s1 ∧
      current_cwd s1 = ["/a", "/b", "/c"].getLast? ∧
      repeat_call (back_during sample_world) (["/a", "/b", "/c"].length - 1) s1 = some s2 ∧
      current_cwd s2 = ["/a", "/b", "/c"].head? ∧
      back_during sample_world s2 = some s2 ∧
      repeat_call (forward_during sample_world) (["/a", "/b", "/c"].length - 1) s2 = some s3 ∧
      current_cwd s3 = ["/a", "/b", "/c"].getLast? ∧
      forward_during sample_world s3 = some s3 :=
  history_replay sample_world (sample_fresh_pane 20) 0 (sample_list false)
    { ents := [], pos := 0, is_locked := false, max := 20 } ["/a", "/b", "/c"]
    rfl rfl rfl rfl rfl rfl (by decide) sample_world_has_info (by decide) (by decide)
    (by decide)

/-! ## Executability -/

/-- C28. For an entry with metadata, `is_executable` returns a value, and that value
is TRUE exactly when GIO reports a regular file, the parent directory is local, and one
of these holds: the uid of the current user is the uid of the file and the user-execute
bit is set; the gid of the current user is the gid of the file and the group-execute bit
is set; the other-execute bit is set. -/
theorem is_executable_iff (gio : Gio) (env : ExecEnv) (f : GnomeCmdFile)
    (info : GnomeVFSFileInfo) (hi : f.info = some info) :
    ∃ b, is_executable gio env f = some b ∧
      (b = true ↔
        GetGfileAttributeUInt32 gio f Gio.standard_type = G_FILE_TYPE_REGULAR ∧
        env.gnome_cmd_dir_is_local (get_parent_dir f) = true ∧
        ((env.owner_uid = info.uid ∧
            info.permissions &&& env.GNOME_CMD_PERM_USER_EXEC ≠ 0) ∨
          (env.owner_gid = info.gid ∧
            info.permissions &&& env.GNOME_CMD_PERM_GROUP_EXEC ≠ 0) ∨
          info.permissions &&& env.GNOME_CMD_PERM_OTHER_EXEC ≠ 0)) := by
  unfold is_executable is_local
  rw [hi]
  by_cases ht : GetGfileAttributeUInt32 gio f Gio.standard_type = G_FILE_TYPE_REGULAR
  · cases hl : env.gnome_cmd_dir_is_local (get_parent_dir f)
    · exact ⟨false, by simp [ht], by simp⟩
    · by_cases hu : env.owner_uid = info.uid ∧
          info.permissions &&& env.GNOME_CMD_PERM_USER_EXEC ≠ 0
      · exact ⟨true, by simp [ht, hu], by simp [ht, hu]⟩
      · by_cases hg : env.owner_gid = info.gid ∧
            info.permissions &&& env.GNOME_CMD_PERM_GROUP_EXEC ≠ 0
        · exact ⟨true, by simp [ht, hu, hg], by simp [ht, hg]⟩
        · by_cases ho : info.permissions &&& env.GNOME_CMD_PERM_OTHER_EXEC ≠ 0
          · exact ⟨true, by simp [ht, hu, hg, ho], by simp [ht, ho]⟩
          · refine ⟨false, ?_, ?_⟩
            · rw [if_neg (by simp [ht]), if_neg (by simp)]
              show (if _ then _ else _) = _
              rw [if_neg hu, if_neg hg, if_neg ho]
            · simp only [Bool.false_eq_true, false_iff]
              rintro ⟨_, _, h | h | h⟩
              · exact hu h
              · exact hg h
              · exact ho h
  · exact ⟨false, by simp [ht], by simp [ht]⟩

theorem is_executable_iff_witness :
    ∃ b, is_executable gio_regular sample_exec_env sample_bashrc = some b ∧
      (b = true ↔
        GetGfileAttributeUInt32 gio_regular sample_bashrc Gio.standard_type =
          G_FILE_TYPE_REGULAR ∧
        sample_exec_env.gnome_cmd_dir_is_local (get_parent_dir sample_bashrc) = true ∧
        ((sample_exec_env.owner_uid = 1000 ∧
            484 &&& sample_exec_env.GNOME_CMD_PERM_USER_EXEC ≠ 0) ∨
          (sample_exec_env.owner_gid = 1000 ∧
            484 &&& sample_exec_env.GNOME_CMD_PERM_GROUP_EXEC ≠ 0) ∨
          484 &&& sample_exec_env.GNOME_CMD_PERM_OTHER_EXEC ≠ 0)) :=
  is_executable_iff gio_regular sample_exec_env sample_bashrc
    { name := ".bashrc", type := 1, permissions := 484, uid := 1000, gid := 1000,
      size := 10, mtime := 1600000000, mime_type := "text/plain" } rfl

/-! ## The extension of a name -/

theorem strrchr_eq_none (c : Char) (s : List Char) : strrchr s c = none ↔ c ∉ s := by
  induction s with
  | nil => simp [strrchr]
  | cons x xs ih =>
    unfold strrchr
    cases h : strrchr xs c with
    | none =>
      have hn := ih.mp h
      by_cases hx : x = c
      · simp [hx]
      · simp [hx, hn, Ne.symm hx]
    | some r =>
      have hm : c ∈ xs := by
        by_contra hc
        rw [ih.mpr hc] at h
        cases h
      simp [hm]

theorem strrchr_eq_some (c : Char) (s r : List Char) (h : strrchr s c = some r) :
    ∃ pre ext, r = c :: ext ∧ s = pre ++ c :: ext ∧ c ∉ ext := by
  induction s generalizing r with
  | nil => simp [strrchr] at h
  | cons x xs ih =>
    unfold strrchr at h
    cases hx : strrchr xs c with
    | none =>
      rw [hx] at h
      by_cases hc : x = c
      · simp only [hc, if_true, Option.some.injEq] at h
        exact ⟨[], xs, h.symm, by simp [hc], (strrchr_eq_none c xs).mp hx⟩
      · simp [hc] at h
    | some r1 =>
      rw [hx] at h
      simp only [Option.some.injEq] at h
      obtain ⟨pre, ext, hr, hs, hn⟩ := ih r1 hx
      exact ⟨x :: pre, ext, by rw [← h, hr], by rw [hs]; rfl, hn⟩

/-- C29. For an entry with metadata, `get_extension` returns null for a directory
and for a name without a `.`; for any other name it returns a text `ext` such that the
name is `pre ++ "." ++ ext` for some `pre` and `ext` holds no `.`, which makes `ext` the
part after the last `.` of the name. -/
theorem get_extension_spec (gio : Gio) (f : GnomeCmdFile) (info : GnomeVFSFileInfo)
    (hi : f.info = some info) :
    (GetGfileAttributeUInt32 gio f Gio.standard_type = G_FILE_TYPE_DIRECTORY →
      get_extension gio f = none) ∧
    (GetGfileAttributeUInt32 gio f Gio.standard_type ≠ G_FILE_TYPE_DIRECTORY →
      '.' ∉ info.name.data → get_extension gio f = none) ∧
    (GetGfileAttributeUInt32 gio f Gio.standard_type ≠ G_FILE_TYPE_DIRECTORY →
      '.' ∈ info.name.data →
      ∃ pre ext : String, get_extension gio f = some ext ∧
        info.name = pre ++ "." ++ ext ∧ '.' ∉ ext.data) := by
  unfold get_extension
  rw [hi]
  refine ⟨fun hd => by simp [hd], fun hd hn => ?_, fun hd hm => ?_⟩
  · simp [hd, (strrchr_eq_none '.' info.name.data).mpr hn]
  · cases hs : strrchr info.name.data '.' with
    | none => exact absurd hm ((strrchr_eq_none '.' info.name.data).mp hs)
    | some r =>
      obtain ⟨pre, ext, hr, hname, hne⟩ := strrchr_eq_some '.' info.name.data r hs
      refine ⟨String.mk pre, String.mk ext, by simp [hd, hs, hr], ?_, hne⟩
      apply String.ext
      simp [hname]

theorem get_extension_spec_witness :
    ((GetGfileAttributeUInt32 gio_regular sample_bashrc Gio.standard_type =
        G_FILE_TYPE_DIRECTORY → get_extension gio_regular sample_bashrc = none) ∧
      (GetGfileAttributeUInt32 gio_regular sample_bashrc Gio.standard_type ≠
          G_FILE_TYPE_DIRECTORY →
        '.' ∉ ".bashrc".data → get_extension gio_regular sample_bashrc = none) ∧
      (GetGfileAttributeUInt32 gio_regular sample_bashrc Gio.standard_type ≠
          G_FILE_TYPE_DIRECTORY →
        '.' ∈ ".bashrc".data →
        ∃ pre ext : String, get_extension gio_regular sample_bashrc = some ext ∧
          ".bashrc" = pre ++ "." ++ ext ∧ '.' ∉ ext.data)) ∧
    get_extension gio_regular sample_bashrc = some "bashrc" :=
  ⟨get_extension_spec gio_regular sample_bashrc
    { name := ".bashrc", type := 1, permissions := 484, uid := 1000, gid := 1000,
      size := 10, mtime := 1600000000, mime_type := "text/plain" } rfl, by decide⟩

/-! ## The icon of a file type -/

theorem create_symlink_do_while_attempted (vfs : Nat → String → GnomeVFSResult) (f : String)
    (answers : List Int) :
    ∀ (choice : Int) (calls : Nat) (attempted created : List String) (st : SymlinkBatch),
      create_symlink_do_while vfs f answers choice calls attempted created = some st →
      ∃ more, st.attempted = attempted ++ f :: more := by
  induction answers with
  | nil =>
    intro choice calls attempted created st h
    unfold create_symlink_do_while at h
    split at h
    · cases h
      exact ⟨[], rfl⟩
    · split at h
      · cases h
      · cases h
        exact ⟨[], rfl⟩
  | cons a rest ih =>
    intro choice calls attempted created st h
    unfold create_symlink_do_while at h
    split at h
    · cases h
      exact ⟨[], rfl⟩
    · split at h
      · simp only at h
        split at h
        · obtain ⟨more, hm⟩ := ih _ _ _ _ _ h
          exact ⟨f :: more, by rw [hm, List.append_assoc]; rfl⟩
        · cases h
          exact ⟨[], rfl⟩
      · cases h
        exact ⟨[], rfl⟩

/-- Whatever the user answers, a run of `gnome_cmd_file_selector_create_symlinks` that
ends has made a creation attempt for every file of the batch. -/
theorem create_symlinks_loop_attempts_every_file (vfs : Nat → String → GnomeVFSResult)
    (files : List String) :
    ∀ (st0 st : SymlinkBatch), create_symlinks_loop vfs files st0 = some st →
      (∃ more, st.attempted = st0.attempted ++ more) ∧ ∀ f ∈ files, f ∈ st.attempted := by
  induction files with
  | nil =>
    intro st0 st h
    simp only [create_symlinks_loop, Option.some.injEq] at h
    subst h
    exact ⟨⟨[], by simp⟩, fun f hf => absurd hf (List.not_mem_nil f)⟩
  | cons f rest ih =>
    intro st0 st h
    unfold create_symlinks_loop at h
    cases h1 : create_symlink_do_while vfs f st0.answers st0.choice st0.calls st0.attempted
        st0.created with
    | none => simp [h1] at h
    | some st1 =>
      simp only [h1] at h
      obtain ⟨more1, hm1⟩ := create_symlink_do_while_attempted vfs f _ _ _ _ _ _ h1
      obtain ⟨⟨more2, hm2⟩, hall⟩ := ih st1 st h
      refine ⟨⟨f :: more1 ++ more2, by rw [hm2, hm1]; simp⟩, fun g hg => ?_⟩
      rcases List.mem_cons.mp hg with he | hr
      · rw [he, hm2, hm1]
        simp
      · exact hall g hr

/-- C21, as stated, fails: with three files whose link creation fails and the answers Cancel,
Skip, Skip, the creation is attempted for the second and the third file after the user
answered Cancel for the first one. -/
theorem create_symlinks_continues_after_cancel :
    gnome_cmd_file_selector_create_symlinks vfs_link_failing ["a", "b", "c"] [2, 0, 0] =
      some { choice := 0, answers := [], calls := 3, attempted := ["a", "b", "c"],
             created := [] } := by
  decide

/-! ## Colour strings -/

theorem is_valid_color_string_eq (gdk : Gdk) (str : String) :
    is_valid_color_string gdk (some str) = (gdk.gdk_color_parse str).isSome := by
  unfold is_valid_color_string gdk_color_parse_into
  cases h : gdk.gdk_color_parse str <;> simp [h]

theorem g_settings_set_value_accepted (s : GSettings) (key : String) (v : GVariant)
    (h : s.accepts key v = true) :
    g_settings_set_value s key v =
      ({ s with value := fun k => if k = key then v else s.value k,
                writes := s.writes ++ [(key, v)] }, true) := by
  unfold g_settings_set_value
  rw [if_pos h]

theorem set_color_if_valid_key_value_frame (gdk : Gdk) (color : GdkColor) (s : GSettings)
    (key str : String) (hs : s.value key = GVariant.string str) :
    (gdk.gdk_color_parse str = none →
      set_color_if_valid_key_value gdk color s key =
        some (color, (g_settings_set_string s key (gdk.gdk_color_to_string color)).1, true)) ∧
    (∀ c, gdk.gdk_color_parse str = some c →
      set_color_if_valid_key_value gdk color s key = some (c, s, false)) := by
  have hg : g_settings_get_string s key = some str := by
    unfold g_settings_get_string
    rw [hs]
  refine ⟨fun hn => ?_, fun c hc => ?_⟩
  · unfold set_color_if_valid_key_value
    simp [hg, is_valid_color_string_eq, hn]
  · unfold set_color_if_valid_key_value
    simp [hg, is_valid_color_string_eq, hc, gnome_cmd_data_parse_color,
      gdk_color_parse_into]

/-- C22. For a key that holds the string `str`: if `str` is not a colour string,
`set_color_if_valid_key_value` keeps the in-memory colour, hands the string form of that
colour to `g_settings_set_string` (so that the store holds it when it accepts the write)
and returns TRUE; if `str` parses to the colour `c`, the in-memory colour becomes `c`,
the store is left as it is and FALSE is returned. -/
theorem set_color_if_valid_key_value_spec (gdk : Gdk) (color : GdkColor) (s : GSettings)
    (key str : String) (hs : s.value key = GVariant.string str) :
    (gdk.gdk_color_parse str = none →
      set_color_if_valid_key_value gdk color s key =
        some (color, (g_settings_set_string s key (gdk.gdk_color_to_string color)).1, true) ∧
      (s.accepts key (GVariant.string (gdk.gdk_color_to_string color)) = true →
        (g_settings_set_string s key (gdk.gdk_color_to_string color)).1.value key =
          GVariant.string (gdk.gdk_color_to_string color))) ∧
    (∀ c, gdk.gdk_color_parse str = some c →
      set_color_if_valid_key_value gdk color s key = some (c, s, false)) := by
  have hg : g_settings_get_string s key = some str := by
    unfold g_settings_get_string
    rw [hs]
  refine ⟨fun hn => ⟨?_, fun ha => ?_⟩, fun c hc => ?_⟩
  · unfold set_color_if_valid_key_value
    simp [hg, is_valid_color_string_eq, hn]
  · unfold g_settings_set_string
    rw [g_settings_set_value_accepted s key _ ha]
    simp
  · unfold set_color_if_valid_key_value
    simp [hg, is_valid_color_string_eq, hc, gnome_cmd_data_parse_color,
      gdk_color_parse_into]

theorem set_color_if_valid_key_value_spec_witness :
    (sample_gdk.gdk_color_parse "bogus" = none →
      set_color_if_valid_key_value sample_gdk (gdk_color_new 65535 65535 65535)
          (sample_settings "bogus") "custom-norm-fg" =
        some (gdk_color_new 65535 65535 65535,
          (g_settings_set_string (sample_settings "bogus") "custom-norm-fg"
            (sample_gdk.gdk_color_to_string (gdk_color_new 65535 65535 65535))).1, true) ∧
      ((sample_settings "bogus").accepts "custom-norm-fg"
          (GVariant.string
            (sample_gdk.gdk_color_to_string (gdk_color_new 65535 65535 65535))) = true →
        (g_settings_set_string (sample_settings "bogus") "custom-norm-fg"
            (sample_gdk.gdk_color_to_string
              (gdk_color_new 65535 65535 65535))).1.value "custom-norm-fg" =
          GVariant.string
            (sample_gdk.gdk_color_to_string (gdk_color_new 65535 65535 65535)))) ∧
    (∀ c, sample_gdk.gdk_color_parse "bogus" = some c →
      set_color_if_valid_key_value sample_gdk (gdk_color_new 65535 65535 65535)
          (sample_settings "bogus") "custom-norm-fg" =
        some (c, sample_settings "bogus", false)) :=
  set_color_if_valid_key_value_spec sample_gdk (gdk_color_new 65535 65535 65535)
    (sample_settings "bogus") "custom-norm-fg" "bogus" rfl

/-! ## Writing a setting only when it changed -/

/-- C23. For a key whose stored value has the type of its default value:
`set_gsettings_when_changed` on a key of type int32, uint32, string or boolean, and
`set_gsettings_enum_when_changed` on a key of type string, leave the store as it is and
return TRUE when the stored value equals the new one, and else call the setter of the
type with the new value and return its result (the store afterwards is the one that the
setter leaves); on a key of any other type both leave the store as it is and return
FALSE. -/
theorem set_gsettings_when_changed_spec (s : GSettings) (key : String)
    (h : g_variant_classify (s.value key) = g_variant_classify (s.default_value key)) :
    (∀ old new, s.value key = GVariant.int32 old →
      set_gsettings_when_changed s key (Pointee.word new) =
        some (if old = new then (s, true) else g_settings_set_int s key new)) ∧
    (∀ old new, s.value key = GVariant.uint32 old →
      set_gsettings_when_changed s key (Pointee.word new) =
        some (if guint_to_gint old = new then (s, true)
          else g_settings_set_uint s key (gint_to_guint new))) ∧
    (∀ old new, s.value key = GVariant.string old →
      set_gsettings_when_changed s key (Pointee.text new) =
        some (if old = new then (s, true) else g_settings_set_string s key new)) ∧
    (∀ old new, s.value key = GVariant.boolean old →
      set_gsettings_when_changed s key (Pointee.word new) =
        some (if (if old then (1 : Int) else 0) = new then (s, true)
          else g_settings_set_boolean s key new)) ∧
    (∀ value,
      g_variant_classify (s.default_value key) = GVariantClass.G_VARIANT_CLASS_OTHER →
      set_gsettings_when_changed s key value = some (s, false)) ∧
    (∀ nick new, s.value key = GVariant.string nick →
      set_gsettings_enum_when_changed s key new =
        some (if s.enum_value key nick = new then (s, true)
          else g_settings_set_enum s key new)) ∧
    (∀ new,
      g_variant_classify (s.default_value key) ≠ GVariantClass.G_VARIANT_CLASS_STRING →
      set_gsettings_enum_when_changed s key new = some (s, false)) := by
  refine ⟨?_, ?_, ?_, ?_, ?_, ?_, ?_⟩
  · intro old new hv
    rw [hv] at h
    unfold set_gsettings_when_changed
    rw [← h]
    simp only [g_variant_classify, g_settings_get_int, hv]
    by_cases hc : old = new <;> simp [hc]
  · intro old new hv
    rw [hv] at h
    unfold set_gsettings_when_changed
    rw [← h]
    simp only [g_variant_classify, g_settings_get_uint, hv]
    have hm : guint_to_gint (old % 2 ^ 32) = guint_to_gint old := by
      unfold guint_to_gint
      rw [Nat.mod_mod]
    rw [hm]
    by_cases hc : guint_to_gint old = new <;> simp [hc]
  · intro old new hv
    rw [hv] at h
    unfold set_gsettings_when_changed
    rw [← h]
    simp only [g_variant_classify, g_settings_get_string, hv]
    by_cases hc : old = new <;> simp [hc]
  · intro old new hv
    rw [hv] at h
    unfold set_gsettings_when_changed
    rw [← h]
    simp only [g_variant_classify, g_settings_get_boolean, hv]
    by_cases hc : (if old then (1 : Int) else 0) = new <;> simp [hc]
  · intro value hd
    unfold set_gsettings_when_changed
    rw [hd]
  · intro nick new hv
    rw [hv] at h
    unfold set_gsettings_enum_when_changed
    rw [← h]
    simp only [g_variant_classify, g_settings_get_enum, hv]
    by_cases hc : s.enum_value key nick = new <;> simp [hc]
  · intro new hd
    unfold set_gsettings_enum_when_changed
    rw [if_neg hd]

theorem set_gsettings_when_changed_spec_witness :
    g_variant_classify ((sample_settings "bogus").value "list-row-height") =
      g_variant_classify ((sample_settings "bogus").default_value "list-row-height") ∧
    set_gsettings_when_changed (sample_settings "bogus") "list-row-height"
        (Pointee.word 16) =
      some (if guint_to_gint 16 = 16 then (sample_settings "bogus", true)
        else g_settings_set_uint (sample_settings "bogus") "list-row-height"
          (gint_to_guint 16)) ∧
    set_gsettings_when_changed (sample_settings "bogus") "list-row-height"
        (Pointee.word 20) =
      some (if guint_to_gint 16 = 20 then (sample_settings "bogus", true)
        else g_settings_set_uint (sample_settings "bogus") "list-row-height"
          (gint_to_guint 20)) :=
  ⟨rfl,
    (set_gsettings_when_changed_spec (sample_settings "bogus") "list-row-height" rfl).2.1
      16 16 rfl,
    (set_gsettings_when_changed_spec (sample_settings "bogus") "list-row-height" rfl).2.1
      16 20 rfl⟩

/-! ## Loading the colours -/

theorem ColorField.key_injective (a b : ColorField) (h : a.key = b.key) : a = b := by
  cases a <;> cases b <;> first | rfl | (exact absurd h (by decide))

theorem on_color_changed_valid (gdk : Gdk) (n : Nat) (fld : ColorField) (s : GSettings)
    (colors : Colors) (str : String) (c : GdkColor)
    (hs : s.value fld.key = GVariant.string str) (hc : gdk.gdk_color_parse str = some c) :
    on_color_changed gdk (n + 1) fld s colors =
      some (s, fun x => if x = fld then c else colors x) := by
  have h := (set_color_if_valid_key_value_frame gdk (colors fld) s fld.key str hs).2 c hc
  simp only [on_color_changed, h]
  simp

theorem on_color_changed_invalid (gdk : Gdk) (n : Nat) (fld : ColorField) (s : GSettings)
    (colors : Colors) (str : String)
    (hs : s.value fld.key = GVariant.string str) (hc : gdk.gdk_color_parse str = none)
    (ha : s.accepts fld.key (GVariant.string (gdk.gdk_color_to_string (colors fld))) = true) :
    on_color_changed gdk (n + 1) fld s colors =
      on_color_changed gdk n fld
        (g_settings_set_string s fld.key (gdk.gdk_color_to_string (colors fld))).1
        (fun x => if x = fld then colors fld else colors x) := by
  have h := (set_color_if_valid_key_value_frame gdk (colors fld) s fld.key str hs).1 hc
  simp only [on_color_changed, h, ha, and_self, if_true]

theorem colors_update_same (colors : Colors) (fld : ColorField) :
    (fun x => if x = fld then colors fld else colors x) = colors := by
  funext x
  by_cases h : x = fld
  · rw [if_pos h, h]
  · rw [if_neg h]

theorem set_string_accepted (s : GSettings) (key v : String)
    (h : s.accepts key (GVariant.string v) = true) :
    (g_settings_set_string s key v).1.value key = GVariant.string v ∧
    (∀ k, k ≠ key → (g_settings_set_string s key v).1.value k = s.value k) ∧
    (g_settings_set_string s key v).1.default_value = s.default_value ∧
    (g_settings_set_string s key v).1.accepts = s.accepts := by
  unfold g_settings_set_string
  rw [g_settings_set_value_accepted s key _ h]
  exact ⟨by simp, fun k hk => by simp [hk], rfl, rfl⟩

/-- One block of `load_colors`: the store and the colours afterwards agree on the key of
the block, nothing else changes. -/
theorem load_color_step (gdk : Gdk) (fuel : Nat) (hfuel : 2 ≤ fuel) (fld : ColorField)
    (s : GSettings) (colors : Colors) (str d : String)
    (hs : s.value fld.key = GVariant.string str)
    (hd : s.default_value fld.key = GVariant.string d)
    (hacc : gdk.gdk_color_parse str = none →
      ∀ v : String, s.accepts fld.key (GVariant.string v) = true)
    (hcol : ∃ c, gdk.gdk_color_parse (gdk.gdk_color_to_string (colors fld)) = some c) :
    ∃ s1 colors1, load_color gdk fuel fld s colors = some (s1, colors1) ∧
      s1.default_value = s.default_value ∧ s1.accepts = s.accepts ∧
      (∀ k, k ≠ fld.key → s1.value k = s.value k) ∧
      (∀ x, x ≠ fld → colors1 x = colors x) ∧
      (∃ str1, s1.value fld.key = GVariant.string str1 ∧
        gdk.gdk_color_parse str1 = some (colors1 fld)) ∧
      (∀ c, gdk.gdk_color_parse str = some c →
        s1.value fld.key = GVariant.string str ∧ colors1 fld = c ∧ s1.writes = s.writes) ∧
      (∀ c, gdk.gdk_color_parse str = none → gdk.gdk_color_parse d = some c →
        s1.value fld.key = GVariant.string d ∧ colors1 fld = c) := by
  have hg : g_settings_get_string s fld.key = some str := by
    unfold g_settings_get_string
    rw [hs]
  cases hp : gdk.gdk_color_parse str with
  | some c =>
    refine ⟨s, fun x => if x = fld then c else colors x, ?_, rfl, rfl, fun _ _ => rfl,
      fun x hx => by simp [hx], ⟨str, hs, by simp [hp]⟩, fun c1 hc1 => ?_,
      fun c1 hn => (by cases hn)⟩
    · unfold load_color set_valid_color_string
      simp [hg, is_valid_color_string_eq, hp, gnome_cmd_data_parse_color,
        gdk_color_parse_into]
    · cases hc1
      exact ⟨hs, by simp, rfl⟩
  | none =>
    obtain ⟨n, rfl⟩ : ∃ n, fuel = n + 2 := ⟨fuel - 2, by omega⟩
    have hacc := hacc hp
    -- the reset of the key, inside which the handler runs
    obtain ⟨hvA, hoA, hdA, haA⟩ := set_string_accepted s fld.key d (hacc d)
    have hload : load_color gdk (n + 2) fld s colors =
        on_color_changed gdk (n + 1 + 1) fld (g_settings_set_string s fld.key d).1 colors := by
      unfold load_color set_valid_color_string
      simp [hg, is_valid_color_string_eq, hp, hd, hacc d]
    rw [hload]
    cases hpd : gdk.gdk_color_parse d with
    | some c =>
      rw [on_color_changed_valid gdk (n + 1) fld (g_settings_set_string s fld.key d).1 colors
        d c hvA hpd]
      refine ⟨_, _, rfl, hdA, haA, hoA, fun x hx => by simp [hx],
        ⟨d, hvA, by simp [hpd]⟩, fun c1 hc1 => (by cases hc1), fun c1 _ hc1 => ?_⟩
      cases hc1
      exact ⟨hvA, by simp⟩
    | none =>
      obtain ⟨cb, hcb⟩ := hcol
      have haccA : (g_settings_set_string s fld.key d).1.accepts fld.key
          (GVariant.string (gdk.gdk_color_to_string (colors fld))) = true := by
        rw [haA]
        exact hacc _
      obtain ⟨hvB, hoB, hdB, haB⟩ := set_string_accepted
        (g_settings_set_string s fld.key d).1 fld.key
        (gdk.gdk_color_to_string (colors fld)) haccA
      rw [on_color_changed_invalid gdk (n + 1) fld (g_settings_set_string s fld.key d).1
        colors d hvA hpd haccA, colors_update_same,
        on_color_changed_valid gdk n fld _ colors (gdk.gdk_color_to_string (colors fld)) cb
          hvB hcb]
      refine ⟨_, _, rfl, by rw [hdB, hdA], by rw [haB, haA],
        fun k hk => by rw [hoB k hk, hoA k hk], fun x hx => by simp [hx],
        ⟨gdk.gdk_color_to_string (colors fld), hvB, by simp [hcb]⟩,
        fun c1 hc1 => (by cases hc1), fun c1 _ hc1 => (by cases hc1)⟩

/-- What `load_colors` does for the colours of a duplicate-free list, when every colour
key and its default hold strings, the store accepts string writes to the keys that do
not hold a colour string, and the string form of each initial colour is a colour
string. -/
theorem load_colors_of_effect (gdk : Gdk) (fuel : Nat) (hfuel : 2 ≤ fuel)
    (l : List ColorField) (hnd : l.Nodup) :
    ∀ (s : GSettings) (colors : Colors),
      (∀ fld : ColorField, ∃ str, s.value fld.key = GVariant.string str) →
      (∀ fld : ColorField, ∃ d, s.default_value fld.key = GVariant.string d) →
      (∀ fld ∈ l, ∀ str, s.value fld.key = GVariant.string str →
        gdk.gdk_color_parse str = none →
        ∀ v : String, s.accepts fld.key (GVariant.string v) = true) →
      (∀ fld ∈ l, ∃ c, gdk.gdk_color_parse (gdk.gdk_color_to_string (colors fld)) = some c) →
      ∃ s1 colors1, load_colors_of gdk fuel l s colors = some (s1, colors1) ∧
        (∀ fld, fld ∉ l → colors1 fld = colors fld ∧ s1.value fld.key = s.value fld.key) ∧
        (∀ fld, fld ∈ l →
          (∃ str1, s1.value fld.key = GVariant.string str1 ∧
            gdk.gdk_color_parse str1 = some (colors1 fld)) ∧
          (∀ str c, s.value fld.key = GVariant.string str →
            gdk.gdk_color_parse str = some c →
            s1.value fld.key = GVariant.string str ∧ colors1 fld = c) ∧
          (∀ str d c, s.value fld.key = GVariant.string str →
            s.default_value fld.key = GVariant.string d →
            gdk.gdk_color_parse str = none → gdk.gdk_color_parse d = some c →
            s1.value fld.key = GVariant.string d ∧ colors1 fld = c)) := by
  induction l with
  | nil =>
    intro s colors _ _ _ _
    exact ⟨s, colors, rfl, fun _ _ => ⟨rfl, rfl⟩, fun _ hm => absurd hm (List.not_mem_nil _)⟩
  | cons f0 rest ih =>
    intro s colors hstr hdef hacc hcol
    obtain ⟨hf0, hrest⟩ := List.nodup_cons.mp hnd
    obtain ⟨str0, hs0⟩ := hstr f0
    obtain ⟨d0, hd0⟩ := hdef f0
    obtain ⟨s1, colors1, hl1, hdv, hac, hval, hcolor, hstep, hvalid, hreset⟩ :=
      load_color_step gdk fuel hfuel f0 s colors str0 d0 hs0 hd0
        (hacc f0 (List.mem_cons_self _ _) str0 hs0) (hcol f0 (List.mem_cons_self _ _))
    have hstr1 : ∀ fld : ColorField, ∃ str, s1.value fld.key = GVariant.string str := by
      intro fld
      by_cases hk : fld.key = f0.key
      · rw [hk]
        obtain ⟨str1, h1, _⟩ := hstep
        exact ⟨str1, h1⟩
      · rw [hval _ hk]
        exact hstr fld
    have hdef1 : ∀ fld : ColorField, ∃ d, s1.default_value fld.key = GVariant.string d := by
      intro fld
      rw [hdv]
      exact hdef fld
    have hacc1 : ∀ fld ∈ rest, ∀ str, s1.value fld.key = GVariant.string str →
        gdk.gdk_color_parse str = none →
        ∀ v : String, s1.accepts fld.key (GVariant.string v) = true := by
      intro fld hm str hs hn v
      have hne : fld ≠ f0 := fun he => hf0 (by rw [← he]; exact hm)
      have hk : fld.key ≠ f0.key := fun he => hne (ColorField.key_injective _ _ he)
      rw [hac]
      exact hacc fld (List.mem_cons_of_mem _ hm) str (by rw [← hval _ hk]; exact hs) hn v
    have hcol1 : ∀ fld ∈ rest,
        ∃ c, gdk.gdk_color_parse (gdk.gdk_color_to_string (colors1 fld)) = some c := by
      intro fld hm
      have hne : fld ≠ f0 := fun he => hf0 (by rw [← he]; exact hm)
      rw [hcolor fld hne]
      exact hcol fld (List.mem_cons_of_mem _ hm)
    obtain ⟨s2, colors2, hl2, hout, hin⟩ := ih hrest s1 colors1 hstr1 hdef1 hacc1 hcol1
    refine ⟨s2, colors2, ?_, ?_, ?_⟩
    · simp only [load_colors_of, hl1, hl2]
    · intro fld hfld
      have hne : fld ≠ f0 := fun he => hfld (by rw [he]; exact List.mem_cons_self _ _)
      have hnr : fld ∉ rest := fun hm => hfld (List.mem_cons_of_mem _ hm)
      have hk : fld.key ≠ f0.key := fun he => hne (ColorField.key_injective _ _ he)
      rw [(hout fld hnr).1, (hout fld hnr).2, hcolor fld hne, hval _ hk]
      exact ⟨rfl, rfl⟩
    · intro fld hfld
      rcases List.mem_cons.mp hfld with he | hm
      · subst he
        rw [(hout fld hf0).1, (hout fld hf0).2]
        refine ⟨hstep, fun str c hs hc => ?_, fun str d c hs hd hn hc => ?_⟩
        · rw [hs0] at hs
          cases hs
          exact ⟨(hvalid c hc).1, (hvalid c hc).2.1⟩
        · rw [hs0] at hs
          rw [hd0] at hd
          cases hs
          cases hd
          exact hreset c hn hc
      · have hne : fld ≠ f0 := fun he => hf0 (by rw [← he]; exact hm)
        have hk : fld.key ≠ f0.key := fun he => hne (ColorField.key_injective _ _ he)
        obtain ⟨h1, h2, h3⟩ := hin fld hm
        refine ⟨h1, fun str c hs hc => h2 str c (by rw [hval _ hk]; exact hs) hc,
          fun str d c hs hd hn hc =>
            h3 str d c (by rw [hval _ hk]; exact hs) (by rw [hdv]; exact hd) hn hc⟩

theorem load_colors_order_nodup : load_colors_order.Nodup := by
  decide

theorem mem_load_colors_order (fld : ColorField) : fld ∈ load_colors_order := by
  cases fld <;> decide

/-- C26. When every colour key and its schema default hold strings, the store accepts
string writes to each colour key that does not hold a colour string (so that the key can
be reset), and the string form of black is a colour string:
`load_colors` on colours initialised to black ends (two nested handler runs are enough),
and afterwards, for each of the 24 colour keys, the store holds a string under the key
that parses to the in-memory colour. If the string found under the key was a colour
string, it is still there and the colour is its parse; if it was not and the schema
default is a colour string, the key holds the default, to which `set_valid_color_string`
reset it, and the colour is the parse of the default, taken by the change handler of
the key. -/
theorem load_colors_in_step_with_store (gdk : Gdk) (s : GSettings) (fuel : Nat)
    (hfuel : 2 ≤ fuel)
    (hstr : ∀ fld : ColorField, ∃ str, s.value fld.key = GVariant.string str)
    (hdef : ∀ fld : ColorField, ∃ d, s.default_value fld.key = GVariant.string d)
    (hacc : ∀ (fld : ColorField) (str : String), s.value fld.key = GVariant.string str →
      gdk.gdk_color_parse str = none →
      ∀ v : String, s.accepts fld.key (GVariant.string v) = true)
    (hblack : ∃ c,
      gdk.gdk_color_parse (gdk.gdk_color_to_string (gdk_color_new 0 0 0)) = some c) :
    ∃ s1 colors1, load_colors gdk fuel s load_initial_colors = some (s1, colors1) ∧
      ∀ fld : ColorField,
        (∃ str1, s1.value fld.key = GVariant.string str1 ∧
          gdk.gdk_color_parse str1 = some (colors1 fld)) ∧
        (∀ str c, s.value fld.key = GVariant.string str →
          gdk.gdk_color_parse str = some c →
          s1.value fld.key = GVariant.string str ∧ colors1 fld = c) ∧
        (∀ str d c, s.value fld.key = GVariant.string str →
          s.default_value fld.key = GVariant.string d →
          gdk.gdk_color_parse str = none → gdk.gdk_color_parse d = some c →
          s1.value fld.key = GVariant.string d ∧ colors1 fld = c) := by
  obtain ⟨s1, colors1, hl, _, hin⟩ :=
    load_colors_of_effect gdk fuel hfuel load_colors_order load_colors_order_nodup s
      load_initial_colors hstr hdef (fun fld _ => hacc fld) (fun _ _ => hblack)
  exact ⟨s1, colors1, hl, fun fld => hin fld (mem_load_colors_order fld)⟩

theorem sample_settings_color_strings (stored : String) (fld : ColorField) :
    ∃ str, (sample_settings stored).value fld.key = GVariant.string str := by
  cases fld <;> exact ⟨_, rfl⟩

theorem sample_settings_color_defaults (stored : String) (fld : ColorField) :
    ∃ d, (sample_settings stored).default_value fld.key = GVariant.string d := by
  cases fld <;> exact ⟨_, rfl⟩

theorem load_colors_in_step_with_store_witness :
    ∃ s1 colors1,
      load_colors sample_gdk 2 (sample_settings "bogus") load_initial_colors =
        some (s1, colors1) ∧
      ∀ fld : ColorField,
        (∃ str1, s1.value fld.key = GVariant.string str1 ∧
          sample_gdk.gdk_color_parse str1 = some (colors1 fld)) ∧
        (∀ str c, (sample_settings "bogus").value fld.key = GVariant.string str →
          sample_gdk.gdk_color_parse str = some c →
          s1.value fld.key = GVariant.string str ∧ colors1 fld = c) ∧
        (∀ str d c, (sample_settings "bogus").value fld.key = GVariant.string str →
          (sample_settings "bogus").default_value fld.key = GVariant.string d →
          sample_gdk.gdk_color_parse str = none → sample_gdk.gdk_color_parse d = some c →
          s1.value fld.key = GVariant.string d ∧ colors1 fld = c) :=
  load_colors_in_step_with_store sample_gdk (sample_settings "bogus") 2 (by decide)
    (sample_settings_color_strings "bogus") (sample_settings_color_defaults "bogus")
    (fun _ _ _ _ _ => rfl) ⟨gdk_color_new 0 0 0, by decide⟩

/-- With `bogus` stored under `custom-norm-fg` and the colour string of white as the
schema default, `load_colors` ends with the string of white under the key and with white
as the in-memory colour `norm_fg`. -/
theorem load_colors_takes_default_after_reset :
    ∃ s1 colors1,
      load_colors sample_gdk 2 (sample_settings "bogus") load_initial_colors =
        some (s1, colors1) ∧
      s1.value ColorField.norm_fg.key = GVariant.string "#ffffffffffff" ∧
      colors1 ColorField.norm_fg = gdk_color_new 65535 65535 65535 := by
  obtain ⟨s1, colors1, hl, _, hin⟩ :=
    load_colors_of_effect sample_gdk 2 (by decide) load_colors_order load_colors_order_nodup
      (sample_settings "bogus") load_initial_colors (sample_settings_color_strings "bogus")
      (sample_settings_color_defaults "bogus") (fun _ _ _ _ _ _ => rfl)
      (fun _ _ => ⟨gdk_color_new 0 0 0,
        (by decide : sample_gdk.gdk_color_parse
          (sample_gdk.gdk_color_to_string (gdk_color_new 0 0 0)) = some (gdk_color_new 0 0 0))⟩)
  have h := (hin ColorField.norm_fg (mem_load_colors_order _)).2.2 "bogus" "#ffffffffffff"
    (gdk_color_new 65535 65535 65535) rfl rfl (by decide) (by decide)
  exact ⟨s1, colors1, hl, h.1, h.2⟩

/-! ## Saving the tabs -/

theorem save_tab_eq (env : TabsEnv) (id : Nat) (fs : GnomeCmdFileSelector) (i : Nat)
    (fl : GnomeCmdFileList) (cwd : GnomeCmdDir) (builder : List StoredTab)
    (hc : fl.cwd = some cwd) :
    save_tab env id fs i fl builder =
      some (builder ++
        if tab_is_stored env id fs i fl = true then [stored_tab_of env id fl cwd] else []) := by
  unfold save_tab tab_is_stored add_tab
  rw [hc]
  cases env.save_tabs_on_exit <;> cases env.save_dirs_on_exit <;>
    cases env.gnome_cmd_con_is_local id i <;> cases fl.locked <;>
    by_cases ha : fs.list = some i <;> simp [ha]

theorem save_tabs_of_pane_mem (env : TabsEnv) (id : Nat) (fs : GnomeCmdFileSelector)
    (tabs : List GnomeCmdFileList) :
    ∀ (i : Nat) (builder : List StoredTab), (∀ fl ∈ tabs, fl.cwd ≠ none) →
      ∃ out, save_tabs_of_pane env id fs i tabs builder = some (builder ++ out) ∧
        ∀ t, t ∈ out ↔ ∃ j fl cwd, tabs[j]? = some fl ∧ fl.cwd = some cwd ∧
          tab_is_stored env id fs (i + j) fl = true ∧ t = stored_tab_of env id fl cwd := by
  induction tabs with
  | nil =>
    intro i builder _
    exact ⟨[], by simp [save_tabs_of_pane], by simp⟩
  | cons fl rest ih =>
    intro i builder hcwd
    obtain ⟨cwd, hc⟩ : ∃ cwd, fl.cwd = some cwd := by
      cases h : fl.cwd with
      | none => exact absurd h (hcwd fl (List.mem_cons_self _ _))
      | some c => exact ⟨c, rfl⟩
    obtain ⟨out, hout, hmem⟩ := ih (i + 1)
      (builder ++
        if tab_is_stored env id fs i fl = true then [stored_tab_of env id fl cwd] else [])
      (fun x hx => hcwd x (List.mem_cons_of_mem _ hx))
    refine ⟨(if tab_is_stored env id fs i fl = true then [stored_tab_of env id fl cwd]
      else []) ++ out, ?_, ?_⟩
    · simp only [save_tabs_of_pane, save_tab_eq env id fs i fl cwd builder hc, hout,
        List.append_assoc]
    · intro t
      rw [List.mem_append, hmem]
      constructor
      · rintro (h0 | ⟨j, x, c, hj, hxc, hst, ht⟩)
        · by_cases hs : tab_is_stored env id fs i fl = true
          · rw [if_pos hs, List.mem_singleton] at h0
            exact ⟨0, fl, cwd, by simp, hc, by simpa using hs, h0⟩
          · rw [if_neg hs] at h0
            cases h0
        · refine ⟨j + 1, x, c, by simpa using hj, hxc, ?_, ht⟩
          rw [← hst]
          congr 1
          omega
      · rintro ⟨j, x, c, hj, hxc, hst, ht⟩
        cases j with
        | zero =>
          simp only [List.getElem?_cons_zero, Option.some.injEq] at hj
          subst hj
          rw [hc] at hxc
          cases hxc
          left
          simp only [Nat.add_zero] at hst
          rw [if_pos hst, List.mem_singleton]
          exact ht
        | succ k =>
          right
          refine ⟨k, x, c, by simpa using hj, hxc, ?_, ht⟩
          rw [← hst]
          congr 1
          omega

theorem save_tabs_of_panes_mem (env : TabsEnv) (fs : Nat → GnomeCmdFileSelector)
    (hcwd : ∀ id fl, fl ∈ (fs id).tabs → fl.cwd ≠ none) (ids : List Nat) :
    ∀ builder : List StoredTab,
      ∃ out, save_tabs_of_panes env fs ids builder = some (builder ++ out) ∧
        ∀ t, t ∈ out ↔ ∃ id ∈ ids, ∃ i fl cwd, (fs id).tabs[i]? = some fl ∧
          fl.cwd = some cwd ∧ tab_is_stored env id (fs id) i fl = true ∧
          t = stored_tab_of env id fl cwd := by
  induction ids with
  | nil =>
    intro builder
    exact ⟨[], by simp [save_tabs_of_panes], by simp⟩
  | cons id rest ih =>
    intro builder
    obtain ⟨o1, h1, hm1⟩ := save_tabs_of_pane_mem env id (fs id) (fs id).tabs 0 builder
      (fun fl hfl => hcwd id fl hfl)
    obtain ⟨o2, h2, hm2⟩ := ih (builder ++ o1)
    refine ⟨o1 ++ o2, ?_, ?_⟩
    · simp only [save_tabs_of_panes, h1, h2, List.append_assoc]
    · intro t
      rw [List.mem_append, hm1, hm2]
      constructor
      · rintro (⟨j, fl, c, hj, hc, hst, ht⟩ | ⟨id2, hid2, j, fl, c, hj, hc, hst, ht⟩)
        · exact ⟨id, List.mem_cons_self _ _, j, fl, c, hj, hc, by simpa using hst, ht⟩
        · exact ⟨id2, List.mem_cons_of_mem _ hid2, j, fl, c, hj, hc, hst, ht⟩
      · rintro ⟨id2, hid2, j, fl, c, hj, hc, hst, ht⟩
        rcases List.mem_cons.mp hid2 with he | hr
        · subst he
          exact Or.inl ⟨j, fl, c, hj, hc, by simpa using hst, ht⟩
        · exact Or.inr ⟨id2, hr, j, fl, c, hj, hc, hst, ht⟩

theorem save_tabs_mem (env : TabsEnv) (fs : Nat → GnomeCmdFileSelector)
    (hcwd : ∀ id fl, fl ∈ (fs id).tabs → fl.cwd ≠ none) :
    ∃ stored, save_tabs env fs = some stored ∧
      ∀ t, t ∈ stored ↔ ∃ id ∈ [LEFT, RIGHT], ∃ i fl cwd, (fs id).tabs[i]? = some fl ∧
        fl.cwd = some cwd ∧ tab_is_stored env id (fs id) i fl = true ∧
        t = stored_tab_of env id fl cwd := by
  obtain ⟨out, h, hm⟩ := save_tabs_of_panes_mem env fs hcwd [LEFT, RIGHT] []
  exact ⟨out, by simpa [save_tabs] using h, hm⟩

theorem tab_is_stored_mono (env : TabsEnv) (id : Nat) (fs : GnomeCmdFileSelector) (i : Nat)
    (fl : GnomeCmdFileList) (x : Bool) :
    (tab_is_stored (env.with_options false false) id fs i fl = true →
      tab_is_stored (env.with_options false true) id fs i fl = true) ∧
    (tab_is_stored (env.with_options false true) id fs i fl = true →
      tab_is_stored (env.with_options true x) id fs i fl = true) := by
  unfold tab_is_stored TabsEnv.with_options
  cases env.gnome_cmd_con_is_local id i <;> cases fl.locked <;> simp

/-- C27. When every tab has a directory, `save_tabs` stores exactly the tuples of the
tabs of the two panes for which the rule holds: the connection is local, and
`save_tabs_on_exit` is set, or else `save_dirs_on_exit` is set and the tab is the active
tab of its pane or is locked, or else the tab is locked. For the same panes what is
stored with both options off is stored with `save_dirs_on_exit`, what is stored with
`save_dirs_on_exit` is stored with `save_tabs_on_exit`, and the tuple of a locked local
tab is stored under every setting. -/
theorem save_tabs_stores_by_setting (env : TabsEnv) (fs : Nat → GnomeCmdFileSelector)
    (hcwd : ∀ id fl, fl ∈ (fs id).tabs → fl.cwd ≠ none) :
    (∃ stored, save_tabs env fs = some stored ∧
      ∀ t, t ∈ stored ↔ ∃ id ∈ [LEFT, RIGHT], ∃ i fl cwd, (fs id).tabs[i]? = some fl ∧
        fl.cwd = some cwd ∧
        (env.gnome_cmd_con_is_local id i = true ∧
          (if env.save_tabs_on_exit = true then True
           else if env.save_dirs_on_exit = true then
             (fs id).list = some i ∨ fl.locked = true
           else fl.locked = true)) ∧
        t = stored_tab_of env id fl cwd) ∧
    (∀ (x : Bool) (a b c : List StoredTab),
      save_tabs (env.with_options false false) fs = some a →
      save_tabs (env.with_options false true) fs = some b →
      save_tabs (env.with_options true x) fs = some c →
      (∀ t, t ∈ a → t ∈ b) ∧ (∀ t, t ∈ b → t ∈ c)) ∧
    (∀ id ∈ [LEFT, RIGHT], ∀ i fl cwd, (fs id).tabs[i]? = some fl → fl.cwd = some cwd →
      env.gnome_cmd_con_is_local id i = true → fl.locked = true →
      ∃ stored, save_tabs env fs = some stored ∧ stored_tab_of env id fl cwd ∈ stored) := by
  refine ⟨?_, ?_, ?_⟩
  · obtain ⟨stored, hs, hm⟩ := save_tabs_mem env fs hcwd
    refine ⟨stored, hs, fun t => ?_⟩
    rw [hm]
    constructor
    · rintro ⟨id, hid, i, fl, cwd, hj, hc, hst, ht⟩
      refine ⟨id, hid, i, fl, cwd, hj, hc, ?_, ht⟩
      unfold tab_is_stored at hst
      revert hst
      cases env.gnome_cmd_con_is_local id i <;> cases env.save_tabs_on_exit <;>
        cases env.save_dirs_on_exit <;> simp
    · rintro ⟨id, hid, i, fl, cwd, hj, hc, hst, ht⟩
      refine ⟨id, hid, i, fl, cwd, hj, hc, ?_, ht⟩
      unfold tab_is_stored
      revert hst
      cases env.gnome_cmd_con_is_local id i <;> cases env.save_tabs_on_exit <;>
        cases env.save_dirs_on_exit <;> simp
  · intro x a b c ha hb hc
    obtain ⟨a1, ha1, hma⟩ := save_tabs_mem (env.with_options false false) fs hcwd
    obtain ⟨b1, hb1, hmb⟩ := save_tabs_mem (env.with_options false true) fs hcwd
    obtain ⟨c1, hc1, hmc⟩ := save_tabs_mem (env.with_options true x) fs hcwd
    rw [ha] at ha1
    rw [hb] at hb1
    rw [hc] at hc1
    cases ha1
    cases hb1
    cases hc1
    constructor
    · intro t ht
      obtain ⟨id, hid, i, fl, cwd, hj, hcw, hst, hte⟩ := (hma t).mp ht
      exact (hmb t).mpr ⟨id, hid, i, fl, cwd, hj, hcw,
        (tab_is_stored_mono env id (fs id) i fl x).1 hst, hte⟩
    · intro t ht
      obtain ⟨id, hid, i, fl, cwd, hj, hcw, hst, hte⟩ := (hmb t).mp ht
      exact (hmc t).mpr ⟨id, hid, i, fl, cwd, hj, hcw,
        (tab_is_stored_mono env id (fs id) i fl x).2 hst, hte⟩
  · intro id hid i fl cwd hj hc hl hk
    obtain ⟨stored, hs, hm⟩ := save_tabs_mem env fs hcwd
    refine ⟨stored, hs, (hm _).mpr ⟨id, hid, i, fl, cwd, hj, hc, ?_, rfl⟩⟩
    unfold tab_is_stored
    rw [hl, hk]
    cases env.save_tabs_on_exit <;> cases env.save_dirs_on_exit <;> simp

theorem sample_panes_have_cwd (id : Nat) (fl : GnomeCmdFileList)
    (h : fl ∈ (sample_panes id).tabs) : fl.cwd ≠ none := by
  simp only [sample_panes, sample_three_tabs, List.mem_cons, List.mem_singleton,
    List.not_mem_nil, or_false] at h
  rcases h with h | h | h <;> rw [h] <;> simp

theorem save_tabs_stores_by_setting_witness :
    (∀ (id : Nat) (fl : GnomeCmdFileList), fl ∈ (sample_panes id).tabs → fl.cwd ≠ none) ∧
    save_tabs (sample_tabs_env false false) sample_panes =
      some [{ path := "/srv", fileSelectorId := 0, sort_column := 2, sort_order := 1,
              locked := true },
            { path := "/srv", fileSelectorId := 1, sort_column := 2, sort_order := 1,
              locked := true }] ∧
    ∃ stored, save_tabs (sample_tabs_env false true) sample_panes = some stored ∧
      stored_tab_of (sample_tabs_env false true) LEFT
        { locked := true, cwd := some "/srv", visible_files := [], marked_files := [],
          sort_col := 2, sort_order := 1 } "/srv" ∈ stored :=
  ⟨sample_panes_have_cwd, by decide,
    (save_tabs_stores_by_setting (sample_tabs_env false true) sample_panes
      sample_panes_have_cwd).2.2 LEFT (by decide) 1 _ "/srv" rfl rfl rfl rfl⟩

/-! ## Copying the options -/

/-- C25, as stated, fails for `confirm_delete_default`: the assignment to another object gives
every field the value that the copy constructor gives it, but for
`confirm_delete_default`, which keeps the value it has in the object assigned to, while
the copy constructor takes it from `cfg`. -/
theorem assign_keeps_confirm_delete_default (patlist_new : Option String → List String)
    (self cfg : Options) :
    (Options.assign patlist_new self cfg false).confirm_delete_default =
      self.confirm_delete_default ∧
    (Options.copy patlist_new cfg).confirm_delete_default = cfg.confirm_delete_default ∧
    Options.assign patlist_new self cfg false =
      { Options.copy patlist_new cfg with
        confirm_delete_default := self.confirm_delete_default } :=
  ⟨rfl, rfl, rfl⟩

theorem assign_differs_from_copy_on_sample :
    (Options.assign (fun _ => []) (sample_options 0) (sample_options 1)
        false).confirm_delete_default = 0 ∧
    (Options.copy (fun _ => []) (sample_options 1)).confirm_delete_default = 1 := by
  decide

/-! ## Profiles of the advanced rename tool -/

theorem load_regexes_of_saved (rs pre : List ReplacePattern) :
    ∀ rest : List ReplacePattern, rs = pre ++ rest →
      load_regexes (rs.map (fun r => r.replacement)) (rs.map (fun _ => true)) pre.length
          (rest.map (fun r => r.pattern)) =
        some (rest.map (fun r => { r with match_case := true })) := by
  intro rest
  induction rest generalizing pre with
  | nil =>
    intro _
    rfl
  | cons r rest ih =>
    intro h
    have h2 : rs = (pre ++ [r]) ++ rest := by rw [h]; simp
    have ih2 := ih (pre ++ [r]) h2
    simp only [List.length_append, List.length_singleton] at ih2
    simp only [List.map_cons, load_regexes, ih2]
    have hr : rs[pre.length]? = some r := by
      rw [h, List.getElem?_append_right (Nat.le_refl _), Nat.sub_self]
      simp
    have ht : (rs.map (fun r => r.replacement))[pre.length]? = some r.replacement := by
      rw [List.getElem?_map, hr]
      rfl
    have hm : (rs.map (fun _ => true))[pre.length]? = some true := by
      rw [List.getElem?_map, hr]
      rfl
    rw [ht, hm]

theorem load_profile_of_saved (p : Profile) (builder : List StoredProfile) :
    ∃ sp, add_advrename_profile_to_gvariant_builder builder p = builder ++ [sp] ∧
      load_profile sp = some (profile_after_round_trip p) := by
  refine ⟨_, rfl, ?_⟩
  unfold load_profile
  simp only
  have h := load_regexes_of_saved p.regexes [] p.regexes rfl
  simp only [List.length_nil] at h
  rw [h]
  rfl


theorem save_advrename_profiles_eq :
    ∀ (l : List Profile) (builder : List StoredProfile),
      ∃ out, l.foldl add_advrename_profile_to_gvariant_builder builder = builder ++ out ∧
        out.length = l.length ∧
        ∀ (n : Nat) (c : AdvrenameConfig), 0 < n →
          load_stored_profiles n out c =
            some { c with
                   profiles := c.profiles ++ l.map profile_after_round_trip } := by
  intro l
  induction l with
  | nil =>
    intro builder
    exact ⟨[], by simp, rfl, fun n c _ => by simp [load_stored_profiles]⟩
  | cons p rest ih =>
    intro builder
    obtain ⟨sp1, hsp1, _⟩ := load_profile_of_saved p builder
    obtain ⟨out, hout, hlen, hl⟩ := ih (builder ++ [sp1])
    refine ⟨sp1 :: out, ?_, by simp [hlen], ?_⟩
    · rw [List.foldl_cons, hsp1, hout]
      simp
    · intro n c hn
      obtain ⟨sp2, hsp2, hload2⟩ := load_profile_of_saved p builder
      have he : sp2 = sp1 := by
        have := hsp1.symm.trans hsp2
        simpa using this.symm
      rw [he] at hload2
      have hn0 : n ≠ 0 := by omega
      simp only [load_stored_profiles, hload2, if_neg hn0]
      rw [hl (n + 1) _ (by omega)]
      simp

/-- Saving and then loading into a configuration without named profiles restores every
profile up to `profile_after_round_trip`: all fields but the match-case flags, which
are set, and an empty template, which becomes `$N`. -/
theorem advrename_round_trip (cfg cfg0 : AdvrenameConfig)
    (h0 : cfg0.profiles = []) :
    load_advrename_profiles (save_advrename_profiles cfg) cfg0 =
      some { default_profile := profile_after_round_trip cfg.default_profile,
             profiles := cfg.profiles.map profile_after_round_trip } := by
  obtain ⟨sp, hsp, hload⟩ := load_profile_of_saved cfg.default_profile []
  obtain ⟨out, hout, _, hl⟩ := save_advrename_profiles_eq cfg.profiles [sp]
  have hsp1 : add_advrename_profile_to_gvariant_builder [] cfg.default_profile = [sp] := by
    rw [hsp]
    rfl
  unfold load_advrename_profiles save_advrename_profiles
  rw [hsp1, hout]
  have hs : load_stored_profiles 0 ([sp] ++ out) cfg0 =
      load_stored_profiles 1 out
        { cfg0 with default_profile := profile_after_round_trip cfg.default_profile } := by
    simp [load_stored_profiles, hload]
  rw [hs, hl 1 _ (by omega)]
  simp [h0]

/-- C24, as stated, fails for the match-case flag: saving a default profile whose only regex
does not match case and loading what was saved into a configuration without profiles
gives a default profile whose regex matches case. -/
theorem advrename_round_trip_sets_match_case :
    load_advrename_profiles
        (save_advrename_profiles sample_advrename_config)
        { default_profile := Profile.reset, profiles := [] } =
      some { default_profile :=
               { Profile.reset with
                 regexes := [{ pattern := "[ _]+", replacement := " ",
                               match_case := true }] },
             profiles := [] } ∧
    load_advrename_profiles
        (save_advrename_profiles sample_advrename_config)
        { default_profile := Profile.reset, profiles := [] } ≠
      some sample_advrename_config := by
  decide

end GnomeCmd
